import Mathlib

/-!
# The packet engine of libssh2 (`src/packet.c`)

A shallow embedding of the six functions of `src/packet.c`:
`libssh2_packet_add`, `libssh2_blocking_read`, `libssh2_packet_read`,
`libssh2_packet_ask_ex`, `libssh2_packet_require_ex` and
`libssh2_packet_write`, followed by theorems about them.

Conventions of the embedding.
* A byte is a `Nat`; a buffer is a `List Nat`. A buffer and the length the
  code carries for it are kept apart wherever the code keeps them apart.
* `unsigned long` arithmetic that can wrap is taken modulo `2 ^ w`, where `w`
  is `Env.ulong_bits`; `int` values are `Int`.
* The session is passed explicitly. The socket is the list of bytes still to
  arrive (`sock_in`) and the list of bytes sent (`sock_out`).
* User callbacks are observers: a call is recorded in `Session.events`.
* A function returns `none` where the C execution goes on with memory the
  code never wrote, writes past a buffer of its own, or does not return at
  all. Every such place is marked.
* The dispatcher works on the buffer it is handed. Where it reads or writes
  outside that buffer its result carries the mark `AddResult.overrun`: the C
  execution is not defined from there on.
-/

namespace Libssh2

/-! ## Constants (from `libssh2.h`, `libssh2_priv.h`, RFC 4253) -/

/-- Message number of SSH_MSG_DISCONNECT. -/
def SSH_MSG_DISCONNECT : Nat := 1
/-- Message number of SSH_MSG_IGNORE. -/
def SSH_MSG_IGNORE : Nat := 2
/-- Message number of SSH_MSG_DEBUG. -/
def SSH_MSG_DEBUG : Nat := 4
/-- Message number of SSH_MSG_KEXINIT. -/
def SSH_MSG_KEXINIT : Nat := 20
/-- Message number of SSH_MSG_CHANNEL_WINDOW_ADJUST. -/
def SSH_MSG_CHANNEL_WINDOW_ADJUST : Nat := 93
/-- Message number of SSH_MSG_CHANNEL_DATA. -/
def SSH_MSG_CHANNEL_DATA : Nat := 94
/-- Message number of SSH_MSG_CHANNEL_EXTENDED_DATA. -/
def SSH_MSG_CHANNEL_EXTENDED_DATA : Nat := 95
/-- Message number of SSH_MSG_CHANNEL_EOF. -/
def SSH_MSG_CHANNEL_EOF : Nat := 96
/-- Message number of SSH_MSG_CHANNEL_CLOSE. -/
def SSH_MSG_CHANNEL_CLOSE : Nat := 97
/-- Reason code SSH_DISCONNECT_MAC_ERROR. -/
def SSH_DISCONNECT_MAC_ERROR : Int := 5

/-- Modelled from the spec: the tunable MAX_PAYLOAD of `libssh2_priv.h`
(40 000 bytes), the bound of the receive-side sanity check. -/
def LIBSSH2_PACKET_MAXPAYLOAD : Nat := 40000
/-- Modelled from the spec: the tunable MAX_COMPRESSED of `libssh2_priv.h`,
handed to the compressor as its output bound. -/
def LIBSSH2_PACKET_MAXCOMP : Nat := 32000
/-- Modelled from the spec: the tunable MAX_DECOMPRESSED of `libssh2_priv.h`
(40 000 bytes), handed to the decompressor as its output bound. -/
def LIBSSH2_PACKET_MAXDECOMP : Nat := 40000

/-! ## Integer and buffer helpers -/

/-- Conversion of an `int` or `long` to `unsigned long` of `w` bits. -/
def toULong (w : Nat) (i : Int) : Nat := (i % (2 ^ w : Int)).toNat

/-- Conversion of an unsigned value to a 32-bit `int` (two's complement). -/
def toInt32 (n : Nat) : Int :=
  if n % 2 ^ 32 < 2 ^ 31 then ((n % 2 ^ 32 : Nat) : Int) else ((n % 2 ^ 32 : Nat) : Int) - 2 ^ 32

/-- Modelled from the spec: `libssh2_ntohu32` of `misc.c`, the big-endian
32-bit value of the first four bytes of a buffer. -/
def libssh2_ntohu32 (buf : List Nat) : Nat :=
  buf.getD 0 0 * 2 ^ 24 + buf.getD 1 0 * 2 ^ 16 + buf.getD 2 0 * 2 ^ 8 + buf.getD 3 0

/-- Modelled from the spec: `libssh2_htonu32` of `misc.c`, the four
big-endian bytes of the low 32 bits of a value. -/
def libssh2_htonu32 (value : Nat) : List Nat :=
  [value / 2 ^ 24 % 256, value / 2 ^ 16 % 256, value / 2 ^ 8 % 256, value % 256]

/-- The C library's `strncmp` on byte buffers: compares at most `n` bytes and
stops at the first difference or at the first NUL byte the two share. Its
callers pass buffers of at least `n` bytes; a buffer that ends earlier reads
as ending in NUL. -/
def strncmp : List Nat → List Nat → Nat → Int
  | _, _, 0 => 0
  | a, b, n + 1 =>
    if a.headD 0 ≠ b.headD 0 then (a.headD 0 : Int) - (b.headD 0 : Int)
    else if a.headD 0 = 0 then 0
    else strncmp a.tail b.tail n

/-! ## Data model -/

/-- The `mac` status of a packet. -/
inductive MacState where
  | confirmed
  | invalid
  | unconfirmed
  deriving DecidableEq, Repr

/-- The state of the session's socket. -/
inductive SocketState where
  | connected
  | disconnected
  deriving DecidableEq, Repr

/-- The error kinds handed to `libssh2_error` in `packet.c`. -/
inductive ErrorCode where
  | INVALID_MAC
  | DECRYPT
  | PROTO
  | ALLOC
  | SOCKET_SEND
  | CHANNEL_UNKNOWN
  | CHANNEL_PACKET_EXCEEDED
  | CHANNEL_WINDOW_EXCEEDED
  | other (code : Int)
  deriving DecidableEq, Repr

/-- What `read(2)` reports once no byte is left to arrive: `again` is EAGAIN
(the poll loop of `libssh2_blocking_read` then gives up), `hard` is EBADF or
a device error, `misc` any other error. End of file, on which
`libssh2_blocking_read` spins for ever, is outside the model. -/
inductive Errno where
  | again
  | hard
  | misc
  deriving DecidableEq, Repr

/-- A cipher method descriptor. `crypt abstract block` transforms one block
and gives `(failed, abstract', block')`; it stands for `EVP_Cipher` on the
context when `evp` is set (the flag LIBSSH2_CRYPT_METHOD_FLAG_EVP) and for
the method's own `crypt` otherwise. -/
structure CryptMethod where
  blocksize : Nat
  evp : Bool
  crypt : List Nat → List Nat → Bool × List Nat × List Nat

/-- A MAC method descriptor. `hash abstract seqno packet addtl` is the
`mac_len` bytes the method's `hash` writes for the two buffers it is given. -/
structure MacMethod where
  mac_len : Nat
  hash : List Nat → Nat → List Nat → List Nat → List Nat

/-- A compression method descriptor. `comp abstract compress max_len src`
gives `(rc, abstract', dest)`; `rc` is nonzero on failure. The ownership flag
the C method also reports decides only which buffer is freed. -/
structure CompMethod where
  name : String
  comp : List Nat → Bool → Nat → List Nat → Int × List Nat × List Nat

/-- One direction of the transport (`local` or `remote` of the session). -/
structure Endpoint where
  crypt : CryptMethod
  crypt_abstract : List Nat
  mac : MacMethod
  mac_abstract : List Nat
  comp : Option CompMethod
  comp_abstract : List Nat
  seqno : Nat

/-- A brigade entry. -/
structure Packet where
  data : List Nat
  data_len : Nat
  data_head : Nat
  mac : MacState
  deriving DecidableEq, Repr

/-- The extended-data mode of a channel. -/
inductive ExtendedDataMode where
  | normal
  | ignore
  | merge
  deriving DecidableEq, Repr

/-- Modelled from the spec: the `remote` half of a channel (the channel
subsystem is not among the sources). -/
structure ChannelData where
  id : Nat
  window_size_initial : Nat
  window_size : Nat
  packet_size : Nat
  close : Bool
  eof : Bool
  extended_data_ignore_mode : ExtendedDataMode
  deriving DecidableEq, Repr

/-- Modelled from the spec: a channel, of which the engine touches only
`remote`. -/
structure Channel where
  remote : ChannelData
  deriving DecidableEq, Repr

/-- A call the engine makes to a user callback or to the key exchange. -/
inductive Event where
  | macerror (data : List Nat) (datalen : Nat)
  | disconnect (reason : Int) (message : List Nat) (message_len : Nat)
      (language : List Nat) (language_len : Nat)
  | ignore (data : List Nat) (datalen : Nat)
  | debug (always_display : Int) (message : List Nat) (message_len : Nat)
      (language : List Nat) (language_len : Nat)
  | kex_exchange (rekey : Nat)
  deriving DecidableEq, Repr

/-- The session. `sock_in` are the bytes still to arrive on the socket,
`sock_errno` what a read reports when none is left; `sock_out` are the bytes
sent and `sock_room` the number of bytes the socket still takes. `macerror`
is the registered mac-error callback, as its return value; the other
callbacks are recorded by whether they are registered. -/
structure Session where
  socket_state : SocketState
  sock_in : List Nat
  sock_errno : Errno
  sock_out : List Nat
  sock_room : Nat
  local_ : Endpoint
  remote : Endpoint
  newkeys : Bool
  exchanging_keys : Bool
  packets : List Packet
  channels : List Channel
  macerror : Option (List Nat → Nat → Int)
  ssh_msg_disconnect : Bool
  ssh_msg_ignore : Bool
  ssh_msg_debug : Bool
  events : List Event
  errors : List ErrorCode

/-- What `packet.c` takes from outside: the width of `unsigned long`, the key
exchange (`libssh2_kex_exchange`, a collaborator that may change the session
in any way), and the byte a read of `data[0]` yields after `data` was freed. -/
structure Env where
  ulong_bits : Nat
  libssh2_kex_exchange : Session → Nat → Session
  freed_byte : List Nat → Nat

/-- Modelled from the spec: `libssh2_error` records the error on the
session. -/
def libssh2_error (s : Session) (code : ErrorCode) : Session :=
  { s with errors := s.errors ++ [code] }

/-- Records a call of a user callback. -/
def callback (s : Session) (e : Event) : Session :=
  { s with events := s.events ++ [e] }

/-- The increment `seqno++` of a sequence counter. Modelled from the spec:
the counter is 32 bits wide. -/
def seqno_incr (seqno : Nat) : Nat := (seqno + 1) % 2 ^ 32

/-! ## `libssh2_packet_write` (lines 586-692) -/

/-- The `padding_length` of lines 605-609, from the length of the (possibly
compressed) payload and the block size. -/
def write_padding_length (data_len block_size : Nat) : Nat :=
  let packet_length := data_len + 1
  let padding_length := block_size - ((packet_length + 4) % block_size)
  if padding_length < 4 then padding_length + block_size else padding_length

/-- The `packet_length` of line 612. -/
def write_packet_length (data_len block_size : Nat) : Nat :=
  data_len + 1 + write_padding_length data_len block_size

/-- The 5-byte header of lines 613-614: `packet_length` as a big-endian u32
and `padding_length` stored in one byte. -/
def write_header (data_len block_size : Nat) : List Nat :=
  libssh2_htonu32 (write_packet_length data_len block_size) ++
    [write_padding_length data_len block_size % 256]

/-- The loop of lines 651-658: the region is transformed block by block, the
cipher state threaded through. The region holds a whole number of blocks
(`4 + packet_length` is a multiple of the block size), and the result of a
custom `crypt` is not looked at. -/
def encrypt_blocks (m : CryptMethod) : Nat → List Nat → List Nat → List Nat × List Nat
  | 0, abstract, _ => (abstract, [])
  | fuel + 1, abstract, region =>
    if region.length = 0 then (abstract, [])
    else
      let r := m.crypt abstract (region.take m.blocksize)
      let rest := encrypt_blocks m fuel r.2.1 (region.drop m.blocksize)
      (rest.1, r.2.2 ++ rest.2)

/-- The system calls `write` and `writev` on the socket: the socket takes the
bytes up to the room it has; the count taken is returned. -/
def sock_write (s : Session) (bytes : List Nat) : Nat × Session :=
  (min bytes.length s.sock_room,
   { s with sock_out := s.sock_out ++ bytes.take s.sock_room,
            sock_room := s.sock_room - bytes.length })

/-- A call of the compression method of an endpoint unless that method is
"none": `(rc, abstract', dest)`, the source unchanged with `rc = 0` when
nothing is to be done. An endpoint without a method is treated like one
whose method is "none". -/
def run_comp (comp : Option CompMethod) (abstract : List Nat) (compress : Bool) (max_len : Nat)
    (src : List Nat) : Int × List Nat × List Nat :=
  match comp with
  | some c => if c.name != "none" then c.comp abstract compress max_len src else (0, abstract, src)
  | none => (0, abstract, src)

/-- The clear frame of lines 613-619 and 640-642: header, payload, and
`padding_length` zero bytes. -/
def write_frame (data : List Nat) (block_size : Nat) : List Nat :=
  write_header data.length block_size ++ data ++
    List.replicate (write_padding_length data.length block_size) 0

/-- The function `libssh2_packet_write`. Allocation never fails in the model.
With keys active the payload is compressed (lines 596-602), framed, tagged
with the MAC of the clear frame, encrypted and written; without keys the
frame is written in the clear by `writev`. -/
def libssh2_packet_write (s : Session) (data : List Nat) : Int × Session :=
  let block_size := if s.newkeys then s.local_.crypt.blocksize else 8
  let r : Int × List Nat × List Nat :=
    if s.newkeys then
      run_comp s.local_.comp s.local_.comp_abstract true LIBSSH2_PACKET_MAXCOMP data
    else (0, s.local_.comp_abstract, data)
  let s1 : Session := { s with local_ := { s.local_ with comp_abstract := r.2.1 } }
  if r.1 ≠ 0 then (-1, s1)
  else
    let data := r.2.2
    let packet_length := write_packet_length data.length block_size
    if s1.newkeys then
      let encbuf := write_frame data block_size
      let mac := s1.local_.mac.hash s1.local_.mac_abstract s1.local_.seqno encbuf []
      let e := encrypt_blocks s1.local_.crypt encbuf.length s1.local_.crypt_abstract encbuf
      let s2 : Session :=
        { s1 with local_ := { s1.local_ with crypt_abstract := e.1,
                                             seqno := seqno_incr s1.local_.seqno } }
      let wr := sock_write s2 (e.2 ++ mac)
      (if 4 + packet_length + s1.local_.mac.mac_len = wr.1 then 0 else -1, wr.2)
    else
      let s2 : Session :=
        { s1 with local_ := { s1.local_ with seqno := seqno_incr s1.local_.seqno } }
      let wr := sock_write s2 (write_frame data block_size)
      (if packet_length + 4 = wr.1 then 0 else 1, wr.2)

/-! ## `libssh2_packet_add` (lines 47-264) -/

/-- What a call of `libssh2_packet_add` leaves behind: its return value, the
session, and whether the buffer `data` it was handed is still live (it is
not after LIBSSH2_FREE, and may not be after the key exchange ran over the
brigade). `overrun` is set when the call reads or writes outside the buffer,
or takes an address at a negative length: the C execution is not defined
from there on, and the other fields then say what the call does when the
stray accesses do no harm. -/
structure AddResult where
  ret : Int
  session : Session
  data_freed : Bool
  overrun : Bool := false

/-- Modelled from the spec: `libssh2_channel_locate` of the channel
subsystem, the position of the first channel of the session with the given
remote id. -/
def libssh2_channel_locate (s : Session) (channel_id : Nat) : Option Nat :=
  s.channels.findIdx? (fun c => c.remote.id == channel_id)

/-- Stores a changed channel back at its position in the session. -/
def set_channel (s : Session) (i : Nat) (c : Channel) : Session :=
  { s with channels := s.channels.set i c }

/-- The ASCII bytes of "Invalid MAC received" (20 bytes). -/
def invalid_mac_message : List Nat :=
  [73, 110, 118, 97, 108, 105, 100, 32, 77, 65, 67, 32, 114, 101, 99, 101, 105, 118, 101, 100]

/-- Lines 58-62 and 65-69: the INVALID_MAC error is raised, the disconnect
callback (if registered) is told, and the call fails. The buffer is neither
freed nor queued. -/
def packet_add_mac_failure (s : Session) : AddResult :=
  let s1 := libssh2_error s ErrorCode.INVALID_MAC
  let s2 :=
    if s1.ssh_msg_disconnect then
      callback s1 (Event.disconnect SSH_DISCONNECT_MAC_ERROR invalid_mac_message 20 [] 0)
    else s1
  { ret := -1, session := s2, data_freed := false }

/-- Lines 234-263: the packet is appended at the tail of the brigade; a
KEXINIT outside a running exchange then calls the key exchange. -/
def packet_add_enqueue (env : Env) (s : Session) (data : List Nat) (datalen data_head : Nat)
    (macstate : MacState) : AddResult :=
  let packet : Packet :=
    { data := data, data_len := datalen, data_head := data_head, mac := macstate }
  let s1 : Session := { s with packets := s.packets ++ [packet] }
  if data.getD 0 0 = SSH_MSG_KEXINIT ∧ s1.exchanging_keys = false then
    { ret := 0,
      session := env.libssh2_kex_exchange (callback s1 (Event.kex_exchange 1)) 1,
      data_freed := true }
  else
    { ret := 0, session := s1, data_freed := false }

/-- Lines 144-198, the cases SSH_MSG_CHANNEL_EXTENDED_DATA and
SSH_MSG_CHANNEL_DATA, and the fall through to the enqueue. Differences of
`unsigned long` values wrap. -/
def packet_add_channel_data (env : Env) (s : Session) (data : List Nat) (datalen : Nat)
    (macstate : MacState) : AddResult :=
  let w := env.ulong_bits
  let data_head : Nat := if data.getD 0 0 = SSH_MSG_CHANNEL_EXTENDED_DATA then 13 else 9
  match libssh2_channel_locate s (libssh2_ntohu32 (data.drop 1)) with
  | none =>
    { ret := 0, session := libssh2_error s ErrorCode.CHANNEL_UNKNOWN, data_freed := true }
  | some i =>
    let channel := (s.channels.getD i { remote := ⟨0, 0, 0, 0, false, false, .normal⟩ })
    if channel.remote.extended_data_ignore_mode = ExtendedDataMode.ignore ∧
        data.getD 0 0 = SSH_MSG_CHANNEL_EXTENDED_DATA then
      if channel.remote.window_size_initial ≠ 0 then
        let adjust := [SSH_MSG_CHANNEL_WINDOW_ADJUST] ++ libssh2_htonu32 channel.remote.id ++
          libssh2_htonu32 (toULong w ((datalen : Int) - 13))
        let wr := libssh2_packet_write s adjust
        { ret := 0,
          session := if wr.1 ≠ 0 then libssh2_error wr.2 ErrorCode.SOCKET_SEND else wr.2,
          data_freed := true }
      else
        { ret := 0, session := s, data_freed := true }
    else
      let exceeded := channel.remote.packet_size < toULong w ((datalen : Int) - data_head)
      let s1 := if exceeded then libssh2_error s ErrorCode.CHANNEL_PACKET_EXCEEDED else s
      let datalen1 := if exceeded then (channel.remote.packet_size + data_head) % 2 ^ w else datalen
      if channel.remote.window_size_initial ≠ 0 ∧ channel.remote.window_size ≤ 0 then
        { ret := 0, session := libssh2_error s1 ErrorCode.CHANNEL_WINDOW_EXCEEDED,
          data_freed := true }
      else
        let channel1 : Channel := { channel with remote := { channel.remote with eof := false } }
        if channel1.remote.window_size_initial ≠ 0 ∧
            toULong w ((datalen1 : Int) - data_head) > channel1.remote.window_size then
          let s2 := libssh2_error (set_channel s1 i channel1) ErrorCode.CHANNEL_WINDOW_EXCEEDED
          packet_add_enqueue env s2 data ((channel1.remote.window_size + data_head) % 2 ^ w)
            data_head macstate
        else
          let channel2 : Channel :=
            { channel1 with remote := { channel1.remote with
                window_size := toULong w ((channel1.remote.window_size : Int) -
                  (toULong w ((datalen1 : Int) - data_head) : Int)) } }
          packet_add_enqueue env (set_channel s1 i channel2) data datalen1 data_head macstate

/-- The test on the buffer of a DISCONNECT (`base = 9`) or DEBUG (`base = 6`)
message, lines 81-95 and 121-135: the lengths are stored in an `int`, the
second length is read at `data + base + message_len`, and the last byte
touched is `language[language_len]`, at index
`base + message_len + 3 + language_len`. The accesses stay inside the buffer
when both lengths are non-negative as `int` and that index is below the size
of the buffer. -/
def strings_fit (data : List Nat) (base message_len language_len : Nat) : Bool :=
  decide (message_len < 2 ^ 31 ∧ language_len < 2 ^ 31 ∧
    base + message_len + 3 + 1 + language_len ≤ data.length)

/-- Lines 73-264, the switch on `data[0]` and what follows it. The buffer is
the list `data`, of `data.length` bytes, and `datalen` the length the caller
carries for it. The in-place rewriting that NUL-terminates the strings
handed to the callbacks is not kept; the callbacks are recorded with the
bytes and lengths they are given. Lengths are read as the code reads them.
The three string cases touch the buffer without a look at its size, and the
result is marked `overrun` where they may leave it: DISCONNECT and DEBUG
unless the strings fit (`strings_fit`); IGNORE when `datalen < 5`, where the
length `datalen - 5` of the `memcpy` of line 107 wraps, and when the buffer
has no byte at index `datalen` for the write of line 108 (in plaintext mode
the buffer is of `datalen` bytes, line 490). The strings of a marked result
are cut at the end of the buffer. -/
def packet_add_switch (env : Env) (s : Session) (data : List Nat) (datalen : Nat)
    (macstate : MacState) : AddResult :=
  let w := env.ulong_bits
  let type := data.getD 0 0
  if type = SSH_MSG_DISCONNECT then
    let reason := toInt32 (libssh2_ntohu32 (data.drop 1))
    let message_len := libssh2_ntohu32 (data.drop 5)
    let message := (data.drop 9).take message_len
    let language_len := libssh2_ntohu32 (data.drop (9 + message_len))
    let language := (data.drop (9 + message_len + 3 + 1)).take language_len
    let s1 :=
      if s.ssh_msg_disconnect then
        callback s (Event.disconnect reason message message_len language language_len)
      else s
    { ret := -1, session := { s1 with socket_state := SocketState.disconnected },
      data_freed := true, overrun := !strings_fit data 9 message_len language_len }
  else if type = SSH_MSG_IGNORE then
    let len := toULong w ((datalen : Int) - 5)
    let s1 :=
      if s.ssh_msg_ignore then callback s (Event.ignore ((data.drop 5).take len) len) else s
    { ret := 0, session := s1, data_freed := true,
      overrun := decide (datalen < 5 ∨ data.length ≤ datalen) }
  else if type = SSH_MSG_DEBUG then
    let always_display : Int := (data.getD 0 0 : Nat)
    let message_len := libssh2_ntohu32 (data.drop 2)
    let message := (data.drop 6).take message_len
    let language_len := libssh2_ntohu32 (data.drop (6 + message_len))
    let language := (data.drop (6 + message_len + 3 + 1)).take language_len
    let s1 :=
      if s.ssh_msg_debug then
        callback s (Event.debug always_display message message_len language language_len)
      else s
    { ret := 0, session := s1, data_freed := true,
      overrun := !strings_fit data 6 message_len language_len }
  else if type = SSH_MSG_CHANNEL_EXTENDED_DATA ∨ type = SSH_MSG_CHANNEL_DATA then
    packet_add_channel_data env s data datalen macstate
  else if type = SSH_MSG_CHANNEL_EOF then
    match libssh2_channel_locate s (libssh2_ntohu32 (data.drop 1)) with
    | none => { ret := 0, session := s, data_freed := true }
    | some i =>
      let channel := (s.channels.getD i { remote := ⟨0, 0, 0, 0, false, false, .normal⟩ })
      { ret := 0,
        session := set_channel s i { channel with remote := { channel.remote with eof := true } },
        data_freed := true }
  else if type = SSH_MSG_CHANNEL_CLOSE then
    match libssh2_channel_locate s (libssh2_ntohu32 (data.drop 1)) with
    | none => { ret := 0, session := s, data_freed := true }
    | some i =>
      let channel := (s.channels.getD i { remote := ⟨0, 0, 0, 0, false, false, .normal⟩ })
      { ret := 0,
        session := set_channel s i { channel with remote := { channel.remote with close := true } },
        data_freed := true }
  else
    packet_add_enqueue env s data datalen 0 macstate

/-- The function `libssh2_packet_add`: the MAC gate of lines 52-71, then the
switch. -/
def libssh2_packet_add (env : Env) (s : Session) (data : List Nat) (datalen : Nat)
    (macstate : MacState) : AddResult :=
  if macstate = MacState.invalid then
    match s.macerror with
    | some f =>
      let s1 := callback s (Event.macerror data datalen)
      if f data datalen = 0 then packet_add_switch env s1 data datalen MacState.confirmed
      else packet_add_mac_failure s1
    | none => packet_add_mac_failure s
  else packet_add_switch env s data datalen macstate

/-! ## `libssh2_blocking_read` (lines 270-301) and the socket -/

/-- The system call `read(fd, buf, 1)` made straight on the non-blocking
socket (lines 339 and 476): one byte when one is there, -1 otherwise. -/
def sock_read1 (s : Session) : Int × List Nat × Session :=
  match s.sock_in with
  | [] => (-1, [], s)
  | b :: rest => (1, [b], { s with sock_in := rest })

/-- The function `libssh2_blocking_read`: `count` bytes when they arrive, as
`(count, bytes, session)`; otherwise what did arrive is consumed and the
result is -1, with the session Disconnected after EBADF or a device error.
The count is returned as an `int`. -/
def libssh2_blocking_read (s : Session) (count : Nat) : Int × List Nat × Session :=
  if count ≤ s.sock_in.length then
    (toInt32 count, s.sock_in.take count, { s with sock_in := s.sock_in.drop count })
  else
    (-1, s.sock_in,
     { s with sock_in := [],
              socket_state :=
                if s.sock_errno = Errno.hard then SocketState.disconnected else s.socket_state })

/-! ## `libssh2_packet_read` (lines 310-507) -/

/-- Where a stretch of a C function ends: the function returns `value`, or
control goes on with a result. -/
inductive Step (α : Type) where
  | ret (value : Int) (s : Session)
  | next (a : α) (s : Session)

/-- The session a stretch of a C function ends with. -/
def step_session {α : Type} : Step α → Session
  | Step.ret _ s => s
  | Step.next _ s => s

/-- A decoded frame, as handed to the dispatcher: the buffer `payload`, the
length `payload_len` the code carries for it, and the MAC status. -/
structure Frame where
  payload : List Nat
  payload_len : Nat
  macstate : MacState
  deriving DecidableEq, Repr

/-- One decryption (lines 351-360 and 388-399): the block is transformed and
the cipher state stored; a custom method that reports failure raises DECRYPT
and fails the read, the result of `EVP_Cipher` is not looked at. -/
def decrypt_block (s : Session) (block : List Nat) : Step (List Nat) :=
  let r := s.remote.crypt.crypt s.remote.crypt_abstract block
  let s1 : Session := { s with remote := { s.remote with crypt_abstract := r.2.1 } }
  if s.remote.crypt.evp = false ∧ r.1 = true then
    Step.ret (-1) (libssh2_error s1 ErrorCode.DECRYPT)
  else Step.next r.2.2 s1

/-- Lines 336-349, the read of the first cipher block. `read_len` is a `long`
and `blocksize` an `unsigned long`, so `read_len < blocksize` compares
unsigned: a -1 from a failed `libssh2_blocking_read` passes, and the code
goes on with a block it never filled (`none`). -/
def read_first_block (env : Env) (s : Session) (should_block : Bool) :
    Option (Step (List Nat)) :=
  let w := env.ulong_bits
  let blocksize := s.remote.crypt.blocksize
  let short (s1 : Session) : Step (List Nat) :=
    Step.ret (if s1.socket_state = SocketState.disconnected then 0 else -1) s1
  if should_block then
    let r := libssh2_blocking_read s blocksize
    if toULong w r.1 < blocksize then some (short r.2.2)
    else if r.2.1.length < blocksize then none
    else some (Step.next r.2.1 r.2.2)
  else
    let r1 := sock_read1 s
    if r1.1 ≤ 0 then some (Step.ret 0 r1.2.2)
    else
      let r2 := libssh2_blocking_read r1.2.2 (toULong w ((blocksize : Int) - r1.1))
      if toULong w (r1.1 + r2.1) < blocksize then some (short r2.2.2)
      else if (r1.2.1 ++ r2.2.1).length < blocksize then none
      else some (Step.next (r1.2.1 ++ r2.2.1) r2.2.2)

/-- The loop of lines 381-402: further blocks are read and decrypted until
`filled` (the distance `s - payload`) reaches `payload_len`. The comparison
with `blocksize` is unsigned as in `read_first_block`. -/
def read_blocks (env : Env) : Nat → Session → List Nat → Nat → Nat →
    Option (Step (List Nat))
  | 0, _, _, _, _ => none
  | fuel + 1, s, payload, filled, payload_len =>
    if filled < payload_len then
      let blocksize := s.remote.crypt.blocksize
      let r := libssh2_blocking_read s blocksize
      if toULong env.ulong_bits r.1 < blocksize then some (Step.ret (-1) r.2.2)
      else if r.2.1.length < blocksize then none
      else
        match decrypt_block r.2.2 r.2.1 with
        | Step.ret v s1 => some (Step.ret v s1)
        | Step.next plain s1 =>
          read_blocks env fuel s1 (payload ++ plain) (filled + blocksize) payload_len
    else some (Step.next payload s)

/-- Lines 411-418: the MAC is recomputed from the sequence number, the five
preamble bytes and the payload buffer, and compared with the MAC received by
`strncmp`; an Invalid status is reported with the error -255; the sequence
number is incremented whatever the status. -/
def verify_mac (s : Session) (received tmp payload : List Nat) (payload_len : Nat) :
    MacState × Session :=
  let computed :=
    s.remote.mac.hash s.remote.mac_abstract s.remote.seqno (tmp.take 5) (payload.take payload_len)
  let macstate :=
    if strncmp received computed s.remote.mac.mac_len = 0 then MacState.confirmed
    else MacState.invalid
  let s1 := if macstate = MacState.invalid then libssh2_error s (ErrorCode.other (-255)) else s
  (macstate, { s1 with remote := { s1.remote with seqno := seqno_incr s1.remote.seqno } })

/-- Lines 425-461: unless the remote compression method is absent or "none",
the payload is decompressed and replaced by the result, whichever buffer the
method reports to own. -/
def read_decompress (s : Session) (payload : List Nat) (payload_len : Nat)
    (macstate : MacState) : Step Frame :=
  match s.remote.comp with
  | none => Step.next ⟨payload, payload_len, macstate⟩ s
  | some c =>
    if c.name != "none" then
      let d := c.comp s.remote.comp_abstract false LIBSSH2_PACKET_MAXDECOMP
        (payload.take payload_len)
      let s1 : Session := { s with remote := { s.remote with comp_abstract := d.2.1 } }
      if d.1 ≠ 0 then Step.ret (-1) s1
      else Step.next ⟨d.2.2, d.2.2.length, macstate⟩ s1
    else Step.next ⟨payload, payload_len, macstate⟩ s

/-- Lines 404-461, from the read of the MAC to the decompression. `mac_len`
is an `int` in the method descriptor, so the check of the read is signed.
The padding is dropped by `payload_len -= padding_len`, which wraps. -/
def read_mac_and_finish (env : Env) (s : Session) (tmp payload : List Nat)
    (payload_len padding_len : Nat) : Step Frame :=
  let r := libssh2_blocking_read s s.remote.mac.mac_len
  if r.1 < (s.remote.mac.mac_len : Int) then Step.ret (-1) r.2.2
  else
    let v := verify_mac r.2.2 r.2.1 tmp payload payload_len
    read_decompress v.2 payload (toULong env.ulong_bits ((payload_len : Int) - padding_len)) v.1

/-- Lines 362-402 and on: from the decrypted first block to the decoded
frame. The preamble needs five bytes of the block; with a smaller block size
the code reads bytes it never wrote (`none`). -/
def read_after_first_block (env : Env) (s : Session) (block : List Nat) : Option (Step Frame) :=
  let w := env.ulong_bits
  let blocksize := s.remote.crypt.blocksize
  if blocksize < 5 then none
  else
    let packet_len := libssh2_ntohu32 block
    let padding_len := block.getD 4 0
    let tmp := block.take 5
    let payload_len := toULong w ((packet_len : Int) - 1)
    if payload_len > LIBSSH2_PACKET_MAXPAYLOAD ∨ (packet_len + 4) % 2 ^ w % blocksize ≠ 0 then
      some (Step.ret (-1)
        (libssh2_error { s with socket_state := SocketState.disconnected } ErrorCode.PROTO))
    else
      match read_blocks env (payload_len + 1) s ((block.drop 5).take (blocksize - 5))
          (blocksize - 5) payload_len with
      | none => none
      | some (Step.ret v s1) => some (Step.ret v s1)
      | some (Step.next payload s1) =>
        some (read_mac_and_finish env s1 tmp payload payload_len padding_len)

/-- Lines 319-463, the cipher branch up to the call of the dispatcher. -/
def read_frame_cipher (env : Env) (s : Session) (should_block : Bool) : Option (Step Frame) :=
  match read_first_block env s should_block with
  | none => none
  | some (Step.ret v s1) => some (Step.ret v s1)
  | some (Step.next block s1) =>
    match decrypt_block s1 block with
    | Step.ret v s2 => some (Step.ret v s2)
    | Step.next plain s2 => read_after_first_block env s2 plain

/-- The first cipher block waiting on the socket, as the remote cipher
decrypts it: what lines 337-360 leave in `block` when the socket holds a
whole block and the decryption succeeds. -/
def first_block (s : Session) : List Nat :=
  (s.remote.crypt.crypt s.remote.crypt_abstract (s.sock_in.take s.remote.crypt.blocksize)).2.2

/-- The session once the first cipher block has been read and decrypted: the
block is taken off the socket and the cipher state has moved on. -/
def after_first_block (s : Session) : Session :=
  { s with sock_in := s.sock_in.drop s.remote.crypt.blocksize,
           remote := { s.remote with crypt_abstract :=
             (s.remote.crypt.crypt s.remote.crypt_abstract
               (s.sock_in.take s.remote.crypt.blocksize)).2.1 } }

/-- Lines 473-485, the read of the five preamble bytes in plaintext mode.
`buf_len` is an `unsigned long`: a -1 from a read becomes `2 ^ w - 1`, so the
tests `buf_len <= 0` and `buf_len < 5` do not see it. The non-blocking
branch reads the four bytes after the first to the start of `buf` again, so
`buf[4]` is a byte the code never wrote (`none`). -/
def read_preamble_plain (env : Env) (s : Session) (should_block : Bool) :
    Option (Step (List Nat)) :=
  let w := env.ulong_bits
  if should_block then
    let r := libssh2_blocking_read s 5
    if toULong w r.1 < 5 then some (Step.ret (-1) r.2.2)
    else if r.2.1.length < 5 then none
    else some (Step.next r.2.1 r.2.2)
  else
    let r1 := sock_read1 s
    let buf_len := toULong w r1.1
    if buf_len ≤ 0 then some (Step.ret 0 r1.2.2)
    else
      let r2 := libssh2_blocking_read r1.2.2 (toULong w (5 - (buf_len : Int)))
      if (buf_len + toULong w r2.1) % 2 ^ w < 5 then some (Step.ret (-1) r2.2.2)
      else none

/-- Lines 466-501, the plaintext branch up to the call of the dispatcher. The
result of the payload read is an `int` compared with an `unsigned long`, so
a failed read is not seen and the code goes on with a payload it never
filled (`none`). The padding is read into `buf`, the 24 bytes of line 468,
with the count `padding_length` (lines 495-498): a padding of more than 24
bytes is written past the end of `buf` (`none`), and the loop never ends
once the socket has run dry (`none`). -/
def read_frame_plain (env : Env) (s : Session) (should_block : Bool) : Option (Step Frame) :=
  let w := env.ulong_bits
  match read_preamble_plain env s should_block with
  | none => none
  | some (Step.ret v s1) => some (Step.ret v s1)
  | some (Step.next buf s1) =>
    let packet_length := libssh2_ntohu32 buf
    let padding_length := buf.getD 4 0
    let payload_len := toULong w ((packet_length : Int) - padding_length - 1)
    let r := libssh2_blocking_read s1 payload_len
    if toULong w r.1 < payload_len then
      some (Step.ret (if r.2.2.socket_state = SocketState.disconnected then 0 else -1) r.2.2)
    else if r.2.1.length < payload_len then none
    else if 24 < padding_length then none
    else
      let p := libssh2_blocking_read r.2.2 padding_length
      if p.2.1.length < padding_length then none
      else some (Step.next ⟨r.2.1, payload_len, MacState.confirmed⟩ p.2.2)

/-- The part of `libssh2_packet_read` that decodes a frame: everything after
the test of the socket state and before the call of `libssh2_packet_add`. -/
def packet_read_frame (env : Env) (s : Session) (should_block : Bool) : Option (Step Frame) :=
  if s.newkeys then read_frame_cipher env s should_block
  else read_frame_plain env s should_block

/-- The function `libssh2_packet_read`. The result of the dispatcher is
dropped (lines 463 and 501) and `payload[0]` is read after the call, also
when the dispatcher freed the buffer. In plaintext mode the sequence number
is incremented after the dispatcher ran. Where the dispatcher left its
buffer (`AddResult.overrun`) the C execution is not defined; the result of
the read then says what the call does when the stray accesses do no harm. -/
def libssh2_packet_read (env : Env) (s : Session) (should_block : Bool) :
    Option (Int × Session) :=
  if s.socket_state = SocketState.disconnected then some (0, s)
  else
    match packet_read_frame env s should_block with
    | none => none
    | some (Step.ret v s1) => some (v, s1)
    | some (Step.next f s1) =>
      let r := libssh2_packet_add env s1 f.payload f.payload_len f.macstate
      let s2 : Session :=
        if s.newkeys then r.session
        else { r.session with
                remote := { r.session.remote with seqno := seqno_incr r.session.remote.seqno } }
      let packet_type : Nat :=
        if r.data_freed then env.freed_byte f.payload else f.payload.getD 0 0
      some ((packet_type : Int), s2)

/-! ## `libssh2_packet_ask_ex` (lines 513-549) -/

/-- The test of lines 524-526 on one brigade entry. `match_buf` is `none`
for a NULL pointer. -/
def packet_matches (packet : Packet) (packet_type : Nat) (match_ofs : Nat)
    (match_buf : Option (List Nat)) (match_len : Nat) : Bool :=
  packet.data.getD 0 0 == packet_type &&
  decide (packet.data_len ≥ match_ofs + match_len) &&
  (match match_buf with
   | none => true
   | some m => strncmp (packet.data.drop match_ofs) m match_len == 0)

/-- The loop of lines 523-547 over the brigade from the head: the entries
passed over, the first entry that matches and the entries after it. -/
def brigade_scan (packet_type : Nat) (match_ofs : Nat) (match_buf : Option (List Nat))
    (match_len : Nat) : List Packet → Option (List Packet × Packet × List Packet)
  | [] => none
  | packet :: rest =>
    if packet_matches packet packet_type match_ofs match_buf match_len then
      some ([], packet, rest)
    else
      match brigade_scan packet_type match_ofs match_buf match_len rest with
      | none => none
      | some (before, found, after) => some (packet :: before, found, after)

/-- What `libssh2_packet_ask_ex` gives back: the return value, the outputs
`*data` and `*data_len` (set only on success) and the session. -/
structure AskResult where
  ret : Int
  data : Option (List Nat)
  data_len : Option Nat
  session : Session

/-- The scan of `libssh2_packet_ask_ex` (lines 523-548) over the brigade of
the session, with the unlinking of the entry found. -/
def packet_ask_scan (s : Session) (packet_type : Nat) (match_ofs : Nat)
    (match_buf : Option (List Nat)) (match_len : Nat) : AskResult :=
  match brigade_scan packet_type match_ofs match_buf match_len s.packets with
  | none => { ret := -1, data := none, data_len := none, session := s }
  | some (before, found, after) =>
    { ret := 0, data := some found.data, data_len := some found.data_len,
      session := { s with packets := before ++ after } }

/-- The function `libssh2_packet_ask_ex`. The head of the brigade is read at
line 516, before the poll: when the brigade was empty then, the scan starts
from a NULL pointer and finds nothing, whatever the poll queued. Otherwise
the scan walks the brigade as the poll left it (the key exchange is taken to
leave the old head in place). -/
def libssh2_packet_ask_ex (env : Env) (s : Session) (packet_type : Nat) (match_ofs : Nat)
    (match_buf : Option (List Nat)) (match_len : Nat) (poll_socket : Bool) :
    Option AskResult :=
  let head_is_null := s.packets.isEmpty
  if poll_socket then
    match libssh2_packet_read env s false with
    | none => none
    | some (ret, s1) =>
      if ret < 0 then some { ret := -1, data := none, data_len := none, session := s1 }
      else if head_is_null then some { ret := -1, data := none, data_len := none, session := s1 }
      else some (packet_ask_scan s1 packet_type match_ofs match_buf match_len)
  else some (packet_ask_scan s packet_type match_ofs match_buf match_len)

/-! ## `libssh2_packet_require_ex` (lines 556-579) -/

/-- The loop of lines 564-575, run for at most `fuel` rounds. -/
def require_loop (env : Env) (packet_type : Nat) (match_ofs : Nat)
    (match_buf : Option (List Nat)) (match_len : Nat) : Nat → Session → Option AskResult
  | 0, _ => none
  | fuel + 1, s =>
    if s.socket_state = SocketState.connected then
      match libssh2_packet_read env s true with
      | none => none
      | some (ret, s1) =>
        if ret < 0 then some { ret := -1, data := none, data_len := none, session := s1 }
        else if ret = 0 then require_loop env packet_type match_ofs match_buf match_len fuel s1
        else if (packet_type : Int) = ret then
          libssh2_packet_ask_ex env s1 packet_type match_ofs match_buf match_len false
        else require_loop env packet_type match_ofs match_buf match_len fuel s1
    else some { ret := -1, data := none, data_len := none, session := s }

/-- The function `libssh2_packet_require_ex`. Every round of the loop that
goes on has taken at least one byte from the socket, so one round per byte
still to arrive (and one more) is all the loop can make unless the key
exchange refills the socket; the result is `none` past that. -/
def libssh2_packet_require_ex (env : Env) (s : Session) (packet_type : Nat) (match_ofs : Nat)
    (match_buf : Option (List Nat)) (match_len : Nat) : Option AskResult :=
  match libssh2_packet_ask_ex env s packet_type match_ofs match_buf match_len false with
  | none => none
  | some r =>
    if r.ret = 0 then some r
    else
      require_loop env packet_type match_ofs match_buf match_len (r.session.sock_in.length + 1)
        r.session

/-! ## Concrete methods and sessions, used to run the definitions -/

/-- A cipher with a running key: every byte of a block is xor-ed with the key
byte held in the state, and the key byte advances by one per block. The
transform is its own inverse, so the same method serves both directions. -/
def xor_cipher (blocksize : Nat) : CryptMethod :=
  { blocksize := blocksize, evp := false,
    crypt := fun abstract block =>
      (false, [(abstract.headD 0 + 1) % 256], block.map (fun x => x ^^^ abstract.headD 0)) }

/-- The cipher that leaves every block as it is. -/
def null_cipher (blocksize : Nat) : CryptMethod :=
  { blocksize := blocksize, evp := true, crypt := fun abstract block => (false, abstract, block) }

/-- A four-byte checksum MAC: the big-endian sum of the key bytes, the
sequence number and all message bytes. -/
def sum_mac : MacMethod :=
  { mac_len := 4,
    hash := fun abstract seqno packet addtl =>
      libssh2_htonu32 (abstract.sum + seqno + (packet ++ addtl).sum) }

/-- The compression method "none". -/
def comp_none : CompMethod :=
  { name := "none", comp := fun abstract _ _ src => (0, abstract, src) }

/-- A toy compression method: compressing puts the marker byte 120 in front,
decompressing takes it off and fails when it is not there. -/
def comp_mark : CompMethod :=
  { name := "mark",
    comp := fun abstract compress _ src =>
      if compress then (0, abstract, 120 :: src)
      else if src.headD 0 = 120 then (0, abstract, src.tail) else (-1, abstract, src) }

/-- An endpoint with the given methods, key state `[key]` for cipher and MAC,
and sequence number `seqno`. -/
def demo_endpoint (crypt : CryptMethod) (comp : CompMethod) (key seqno : Nat) : Endpoint :=
  { crypt := crypt, crypt_abstract := [key], mac := sum_mac, mac_abstract := [key],
    comp := some comp, comp_abstract := [], seqno := seqno }

/-- A connected session with an empty brigade, no channel and no callback,
whose socket will deliver `input`. -/
def demo_session (newkeys : Bool) (crypt : CryptMethod) (comp : CompMethod)
    (input : List Nat) : Session :=
  { socket_state := SocketState.connected, sock_in := input, sock_errno := Errno.again,
    sock_out := [], sock_room := 100000,
    local_ := demo_endpoint crypt comp 7 3, remote := demo_endpoint crypt comp 7 3,
    newkeys := newkeys, exchanging_keys := false, packets := [], channels := [],
    macerror := none, ssh_msg_disconnect := false, ssh_msg_ignore := false,
    ssh_msg_debug := false, events := [], errors := [] }

/-- An environment with a 32-bit `unsigned long`, a key exchange that leaves
the session alone, and freed buffers that read as 0. -/
def demo_env : Env :=
  { ulong_bits := 32, libssh2_kex_exchange := fun s _ => s, freed_byte := fun _ => 0 }

/-! ## Hypotheses of the round trip -/

/-- The cipher `dec` undoes the cipher `enc` block by block: when the two
cipher states are related by `rel`, a block of `enc.blocksize` bytes
encrypted by `enc` keeps its length and is given back by `dec` without a
failure, and the two new states are related again. -/
def CipherInverse (enc dec : CryptMethod) (rel : List Nat → List Nat → Prop) : Prop :=
  dec.blocksize = enc.blocksize ∧
  ∀ a a' block, rel a a' → block.length = enc.blocksize →
    (enc.crypt a block).2.2.length = enc.blocksize ∧
    (dec.crypt a' (enc.crypt a block).2.2).2.2 = block ∧
    (dec.evp = true ∨ (dec.crypt a' (enc.crypt a block).2.2).1 = false) ∧
    rel (enc.crypt a block).2.1 (dec.crypt a' (enc.crypt a block).2.2).2.1

/-- The MAC is a function of the key state, the sequence number and the
message bytes: the `hash` callback depends on its two buffers only through
their concatenation, and writes `mac_len` bytes. -/
def MacOfMessage (m : MacMethod) : Prop :=
  (∀ a seqno p1 p2, m.hash a seqno p1 p2 = m.hash a seqno (p1 ++ p2) []) ∧
  (∀ a seqno p1 p2, (m.hash a seqno p1 p2).length = m.mac_len)

/-- A sender with keys active: xor cipher with 8-byte blocks, checksum MAC,
the toy compression. -/
def demo_sender : Session := demo_session true (xor_cipher 8) comp_mark []

/-- A five-byte payload. -/
def demo_payload : List Nat := [21, 1, 2, 3, 4]

/-- A receiver with the methods and keys of `demo_sender`, whose socket holds
what `demo_sender` sends for `demo_payload`. -/
def demo_receiver : Session :=
  demo_session true (xor_cipher 8) comp_mark
    (libssh2_packet_write demo_sender demo_payload).2.sock_out

/-- A payload of 40 000 zero bytes, the largest the round-trip claim admits. -/
def long_payload : List Nat := List.replicate 40000 0

/-- A sender with keys active: identity cipher with 8-byte blocks, checksum
MAC, no compression. -/
def long_sender : Session := demo_session true (null_cipher 8) comp_none []

/-- A receiver with the methods and keys of `long_sender`, whose socket holds
what `long_sender` sends for `long_payload`. -/
def long_receiver : Session :=
  demo_session true (null_cipher 8) comp_none
    (libssh2_packet_write long_sender long_payload).2.sock_out

/-! ## Streams of frames, for `libssh2_packet_require_ex` -/

/-- A frame as it travels (RFC 4253, section 6): the payload, compressed
when compression is on, and the padding. -/
structure WireFrame where
  payload : List Nat
  padding : List Nat
  deriving DecidableEq, Repr

/-- The clear bytes of a frame: `packet_length` (the count of the bytes that
follow it) as a big-endian u32, `padding_length` in one byte, the payload,
the padding. -/
def clear_frame (f : WireFrame) : List Nat :=
  libssh2_htonu32 (f.payload.length + f.padding.length + 1) ++ [f.padding.length] ++
    f.payload ++ f.padding

/-- A brigade holding one CHANNEL_DATA packet for channel 2. -/
def channel_two_session : Session :=
  { demo_session false (null_cipher 8) comp_none [] with
    packets := [{ data := [94, 0, 0, 0, 2, 0, 0, 0, 1, 65], data_len := 10, data_head := 9,
                  mac := MacState.confirmed }] }

/-- Keys active (identity cipher, block size 8, checksum MAC with key 7 and
sequence number 3). The socket holds one frame, `packet_length = 12`,
`padding_length = 6`, payload `[21, 1, 2, 3, 4]`, followed by the MAC
`[9, 9, 9, 9]`; the MAC of the frame is `[0, 0, 0, 59]`. -/
def tampered_mac_session : Session :=
  demo_session true (null_cipher 8) comp_none
    [0, 0, 0, 12, 6, 21, 1, 2, 3, 4, 0, 0, 0, 0, 0, 0, 9, 9, 9, 9]

/-- The frame of `tampered_mac_session` with the MAC `[0, 0, 0, 58]`: the
right MAC `[0, 0, 0, 59]` with its lowest bit flipped. -/
def bitflip_mac_session : Session :=
  demo_session true (null_cipher 8) comp_none
    [0, 0, 0, 12, 6, 21, 1, 2, 3, 4, 0, 0, 0, 0, 0, 0, 0, 0, 0, 58]

/-- Plaintext mode. The socket holds a DISCONNECT with reason 11, message
"bye" and an empty language tag, framed as `libssh2_packet_write` frames. -/
def disconnect_session : Session :=
  demo_session false (null_cipher 8) comp_none
    (write_frame [1, 0, 0, 0, 11, 0, 0, 0, 3, 98, 121, 101, 0, 0, 0, 0] 8)

/-- Keys active as in `tampered_mac_session`. The socket holds one frame with
`packet_length = 12` and `padding_length = 200`, more padding than the frame
has bytes, and the right MAC of that frame, `[0, 0, 0, 253]`. -/
def overlong_padding_session : Session :=
  demo_session true (null_cipher 8) comp_none
    [0, 0, 0, 12, 200, 21, 1, 2, 3, 4, 0, 0, 0, 0, 0, 0, 0, 0, 0, 253]

/-- Plaintext mode. The socket holds one frame with `packet_length = 40006`,
`padding_length = 4` and a payload of 40 001 bytes. -/
def big_plain_session : Session :=
  demo_session false (null_cipher 8) comp_none
    (libssh2_htonu32 40006 ++ [4] ++ List.replicate 40001 21 ++ [0, 0, 0, 0] ++ [])

/-- Plaintext mode. The socket holds one complete frame, that of the payload
`[21, 1, 2, 3, 4]`: `00 00 00 0c 06`, the payload, six bytes of padding. -/
def plain_frame_session : Session :=
  demo_session false (null_cipher 8) comp_none (write_frame [21, 1, 2, 3, 4] 8)

/-- Plaintext mode, connected, with nothing waiting on the socket. -/
def plain_idle_session : Session :=
  demo_session false (null_cipher 8) comp_none []

/-! ## Operations on the brigade, for the content invariant -/

/-- An operation on the brigade: a call of the dispatcher
(`libssh2_packet_add`), or a removal by `libssh2_packet_ask_ex` without a
poll of the socket. -/
inductive BrigadeOp where
  | add (data : List Nat) (datalen : Nat) (macstate : MacState)
  | ask (packet_type match_ofs : Nat) (match_buf : Option (List Nat)) (match_len : Nat)

/-- The session after one operation on the brigade. -/
def brigade_step (env : Env) (s : Session) : BrigadeOp → Session
  | BrigadeOp.add data datalen macstate => (libssh2_packet_add env s data datalen macstate).session
  | BrigadeOp.ask packet_type match_ofs match_buf match_len =>
    match libssh2_packet_ask_ex env s packet_type match_ofs match_buf match_len false with
    | some r => r.session
    | none => s

/-- The session after a sequence of operations on the brigade. -/
def brigade_run (env : Env) (s : Session) (ops : List BrigadeOp) : Session :=
  ops.foldl (brigade_step env) s

/-- The message types the dispatcher handles inline and never queues: the
cases of the switch of lines 74-232 that end in a `return`. -/
def inline_handled (type : Nat) : Bool :=
  type == SSH_MSG_DISCONNECT || type == SSH_MSG_IGNORE || type == SSH_MSG_DEBUG ||
  type == SSH_MSG_CHANNEL_EOF || type == SSH_MSG_CHANNEL_CLOSE

/-- The channel a CHANNEL_DATA or CHANNEL_EXTENDED_DATA buffer names (the
u32 at offset 1) is not a channel of the session. -/
def channel_unknown (s : Session) (data : List Nat) : Bool :=
  (libssh2_channel_locate s (libssh2_ntohu32 (data.drop 1))).isNone

/-- The channel a CHANNEL_DATA or CHANNEL_EXTENDED_DATA buffer names is a
channel of the session whose extended-data mode is Ignore. -/
def channel_ignoring (s : Session) (data : List Nat) : Bool :=
  match libssh2_channel_locate s (libssh2_ntohu32 (data.drop 1)) with
  | none => false
  | some i =>
    (s.channels.getD i { remote := ⟨0, 0, 0, 0, false, false, .normal⟩ }).remote.extended_data_ignore_mode
      == ExtendedDataMode.ignore

/-- What holds of a buffer the dispatcher queues, on the session it is
dispatched on: its type is not handled inline; if it is channel data, its
channel is known; if it is extended data, its channel does not ignore
extended data. -/
def dispatch_queues (s : Session) (data : List Nat) : Prop :=
  inline_handled (data.getD 0 0) = false ∧
  ((data.getD 0 0 = SSH_MSG_CHANNEL_DATA ∨ data.getD 0 0 = SSH_MSG_CHANNEL_EXTENDED_DATA) →
    channel_unknown s data = false) ∧
  (data.getD 0 0 = SSH_MSG_CHANNEL_EXTENDED_DATA → channel_ignoring s data = false)

/-- A plaintext session with an empty brigade and one channel (remote id 0,
window 100, packet size 100) whose extended-data mode is Ignore. -/
def ignoring_channel_session : Session :=
  { demo_session false (null_cipher 8) comp_none [] with
    channels := [{ remote := { id := 0, window_size_initial := 100, window_size := 100,
                               packet_size := 100, close := false, eof := false,
                               extended_data_ignore_mode := ExtendedDataMode.ignore } }] }

/-- The dispatcher up to its call of the key exchange: `libssh2_packet_add`
with the call of line 259 left out. A call of `libssh2_packet_add` is this
step, followed by the key exchange when the packet is a KEXINIT outside a
running exchange. -/
def dispatch_step (env : Env) (s : Session) (data : List Nat) (datalen : Nat)
    (macstate : MacState) : Session :=
  (libssh2_packet_add { env with libssh2_kex_exchange := fun s _ => s } s data datalen
    macstate).session

/-- The runs of the engine over the brigade. `Engine env a log s`: the
session `s` is reached from the session `a` by steps of the dispatcher,
removals by the scan of `libssh2_packet_ask_ex`, and changes of the session
that leave the brigade alone (reads of the socket, new keys, the work of the
channel subsystem); `log` lists, in order, the buffers handed to the
dispatcher, each with the session it was handed on. -/
inductive Engine (env : Env) : Session → List (List Nat × Session) → Session → Prop
  | start (s : Session) : Engine env s [] s
  | dispatch {a s : Session} {log : List (List Nat × Session)} (data : List Nat) (datalen : Nat)
      (macstate : MacState) :
      Engine env a log s →
      Engine env a (log ++ [(data, s)]) (dispatch_step env s data datalen macstate)
  | remove {a s : Session} {log : List (List Nat × Session)} (packet_type match_ofs : Nat)
      (match_buf : Option (List Nat)) (match_len : Nat) :
      Engine env a log s →
      Engine env a log (packet_ask_scan s packet_type match_ofs match_buf match_len).session
  | other {a s : Session} {log : List (List Nat × Session)} (s1 : Session) :
      Engine env a log s → s1.packets = s.packets → Engine env a log s1

/-- An environment whose key exchange reads through the engine: it marks the
exchange as running and makes one blocking `libssh2_packet_read`, which
hands the packet the peer sent (its NEWKEYS, say) to the dispatcher. -/
def reading_kex_env : Env :=
  { demo_env with
    libssh2_kex_exchange := fun s _ =>
      match libssh2_packet_read demo_env { s with exchanging_keys := true } true with
      | some r => r.2
      | none => s }

/-- The session `ignoring_channel_session` with the frame of a NEWKEYS
packet (type 21) waiting on the socket. -/
def newkeys_waiting_session : Session :=
  { ignoring_channel_session with sock_in := write_frame [21] 8 }

/-! ## Sessions for the error paths -/

/-- A custom cipher (not EVP) whose `crypt` reports failure on every block. -/
def failing_cipher (blocksize : Nat) : CryptMethod :=
  { blocksize := blocksize, evp := false, crypt := fun abstract block => (true, abstract, block) }

/-- Keys active with `failing_cipher`; one block waits on the socket. -/
def decrypt_failure_session : Session :=
  demo_session true (failing_cipher 8) comp_none [0, 0, 0, 12, 6, 21, 1, 2]

/-- Plaintext mode, connected, with a socket that takes three more bytes. -/
def short_write_session : Session :=
  { demo_session false (null_cipher 8) comp_none [] with sock_room := 3 }

/-- Plaintext mode with `socket_state` Disconnected; bytes still wait on the
socket and the socket still takes bytes. -/
def disconnected_session : Session :=
  { demo_session false (null_cipher 8) comp_none (write_frame [21, 1, 2, 3, 4] 8) with
    socket_state := SocketState.disconnected }

/-- Keys active (identity cipher, block size 8). The first block on the
socket gives `packet_length = 13`, and `13 + 4` is not a multiple of 8. -/
def bad_length_session : Session :=
  demo_session true (null_cipher 8) comp_none [0, 0, 0, 13, 4, 21, 0, 0, 0, 0]

/-! ## Encodings of the messages handled inline -/

/-- The encoding of a DISCONNECT message (RFC 4253, section 11.1): the type
byte, the reason code as a u32, and the message and the language tag as
strings, each a u32 length followed by the bytes. -/
def disconnect_payload (reason : Nat) (message language : List Nat) : List Nat :=
  [SSH_MSG_DISCONNECT] ++ libssh2_htonu32 reason ++
    (libssh2_htonu32 message.length ++ message) ++
    (libssh2_htonu32 language.length ++ language)

/-- The encoding of a DEBUG message (RFC 4253, section 11.3): the type byte,
the `always_display` byte, and the message and the language tag as strings,
each a u32 length followed by the bytes. -/
def debug_payload (always_display : Nat) (message language : List Nat) : List Nat :=
  [SSH_MSG_DEBUG, always_display] ++
    (libssh2_htonu32 message.length ++ message) ++
    (libssh2_htonu32 language.length ++ language)

/-- A plaintext session with an empty brigade and the disconnect, ignore and
debug callbacks registered. -/
def callback_session : Session :=
  { demo_session false (null_cipher 8) comp_none [] with
    ssh_msg_disconnect := true, ssh_msg_ignore := true, ssh_msg_debug := true }

/-! ## Channels, for the flow-control claims -/

/-- The channel at position `i` of the session, as the dispatcher reads it
once `libssh2_channel_locate` has given `i`. -/
def channel_at (s : Session) (i : Nat) : Channel :=
  s.channels.getD i { remote := ⟨0, 0, 0, 0, false, false, .normal⟩ }

/-- A plaintext session with an empty brigade and one channel, remote id 0,
with the given initial window, window, packet size and extended-data mode. -/
def channel_session (window_size_initial window_size packet_size : Nat)
    (mode : ExtendedDataMode) : Session :=
  { demo_session false (null_cipher 8) comp_none [] with
    channels := [{ remote := { id := 0, window_size_initial := window_size_initial,
                               window_size := window_size, packet_size := packet_size,
                               close := false, eof := false,
                               extended_data_ignore_mode := mode } }] }

/-- A CHANNEL_DATA packet for channel 0 that carries the ten bytes 65..74
(`datalen = 19`). -/
def ten_bytes_data : List Nat :=
  [94, 0, 0, 0, 0, 0, 0, 0, 10, 65, 66, 67, 68, 69, 70, 71, 72, 73, 74]

/-- The payload of a CHANNEL_WINDOW_ADJUST message: the type byte, the
channel id and the number of bytes to add, each as a u32. -/
def window_adjust_payload (channel_id bytes_to_add : Nat) : List Nat :=
  [SSH_MSG_CHANNEL_WINDOW_ADJUST] ++ libssh2_htonu32 channel_id ++ libssh2_htonu32 bytes_to_add

/-- A CHANNEL_EXTENDED_DATA packet of 40 bytes in all for channel 0: stream
1, 27 bytes of data. -/
def forty_bytes_extended : List Nat :=
  [95, 0, 0, 0, 0, 0, 0, 0, 1, 0, 0, 0, 27] ++ List.replicate 27 65

/-! ## Sessions for the poll of `libssh2_packet_ask_ex` -/

/-- Keys active (identity cipher, block size 8, checksum MAC with key 7 and
sequence number 3), empty brigade. The socket holds one complete frame,
`packet_length = 12`, `padding_length = 6`, payload `[21, 1, 2, 3, 4]`,
followed by its MAC `[0, 0, 0, 59]`. -/
def cipher_frame_session : Session :=
  demo_session true (null_cipher 8) comp_none
    [0, 0, 0, 12, 6, 21, 1, 2, 3, 4, 0, 0, 0, 0, 0, 0, 0, 0, 0, 59]

/-- The session `cipher_frame_session` with an unmatched GLOBAL_REQUEST
(type 80) already in the brigade. -/
def cipher_frame_session_queued : Session :=
  { cipher_frame_session with
    packets := [{ data := [80, 0], data_len := 2, data_head := 0, mac := MacState.confirmed }] }

/-! # Theorems -/

/-! ## Helpers: integers and big-endian words -/

theorem ntohu32_htonu32 (v : Nat) (h : v < 2 ^ 32) (rest : List Nat) :
    libssh2_ntohu32 (libssh2_htonu32 v ++ rest) = v := by
  simp only [libssh2_ntohu32, libssh2_htonu32, List.cons_append, List.getD_cons_zero,
    List.getD_cons_succ]
  omega

/-! ## The padding of `libssh2_packet_write` -/

theorem padding_cases (n b : Nat) (hb : 0 < b) :
    ∃ q r, n + 5 = b * q + r ∧ r < b ∧
      write_padding_length n b = (if b - r < 4 then b - r + b else b - r) := by
  refine ⟨(n + 5) / b, (n + 5) % b, (Nat.div_add_mod (n + 5) b).symm, Nat.mod_lt _ hb, ?_⟩
  simp only [write_padding_length]

theorem packet_length_aligned (n b : Nat) (hb : 0 < b) :
    (write_packet_length n b + 4) % b = 0 := by
  obtain ⟨q, r, h1, h2, h3⟩ := padding_cases n b hb
  unfold write_packet_length
  rw [h3]
  split
  · have : n + 1 + (b - r + b) + 4 = b * (q + 2) := by
      rw [Nat.mul_add]; omega
    rw [this]; exact Nat.mul_mod_right _ _
  · have : n + 1 + (b - r) + 4 = b * (q + 1) := by
      rw [Nat.mul_add]; omega
    rw [this]; exact Nat.mul_mod_right _ _

theorem padding_bounds (n b : Nat) (hb : 4 ≤ b) :
    4 ≤ write_padding_length n b ∧ write_padding_length n b ≤ b + 3 := by
  obtain ⟨q, r, h1, h2, h3⟩ := padding_cases n b (by omega)
  rw [h3]; split <;> omega

theorem padding_minimal (n b p : Nat) (hb : 4 ≤ b) (hp : 4 ≤ p) (hmod : (n + 1 + 4 + p) % b = 0) :
    write_padding_length n b ≤ p := by
  obtain ⟨q, r, h1, h2, h3⟩ := padding_cases n b (by omega)
  have h4 : (r + p) % b = 0 := by
    have : n + 1 + 4 + p = b * q + (r + p) := by omega
    rw [this, Nat.mul_add_mod] at hmod
    exact hmod
  obtain ⟨m, hm⟩ := Nat.dvd_of_mod_eq_zero h4
  rw [h3]
  rcases m with _ | _ | m
  · simp at hm; omega
  · simp at hm; split <;> omega
  · have : b * 2 ≤ b * (m + 1 + 1) := Nat.mul_le_mul_left b (by omega)
    split <;> omega

/-- C2 (length-padding law). For every payload length `n` up to MAX_PAYLOAD
and every block size `b` with `8 ≤ b ≤ 252`, the `packet_length` and
`padding_length` that `libssh2_packet_write` computes and stores in the
5-byte frame header satisfy `(packet_length + 4) mod b = 0` and
`4 ≤ padding_length ≤ b + 3`, and the header bytes carry exactly these two
values. -/
theorem length_padding_law (n b : Nat) (hn : n ≤ LIBSSH2_PACKET_MAXPAYLOAD) (hb : 8 ≤ b)
    (hb2 : b ≤ 252) :
    (write_packet_length n b + 4) % b = 0 ∧
    4 ≤ write_padding_length n b ∧ write_padding_length n b ≤ b + 3 ∧
    libssh2_ntohu32 (write_header n b) = write_packet_length n b ∧
    (write_header n b).getD 4 0 = write_padding_length n b := by
  have hp := padding_bounds n b (by omega)
  refine ⟨packet_length_aligned n b (by omega), hp.1, hp.2, ?_, ?_⟩
  · unfold write_header
    apply ntohu32_htonu32
    simp only [write_packet_length, LIBSSH2_PACKET_MAXPAYLOAD] at *
    omega
  · simp only [write_header, libssh2_htonu32, List.cons_append, List.getD_cons_succ,
      List.getD_cons_zero, List.nil_append]
    omega

/-- Witness of `length_padding_law`: a 9-byte payload in plaintext mode
(block size 8). -/
theorem length_padding_law_witness :
    (write_packet_length 9 8 + 4) % 8 = 0 ∧
    4 ≤ write_padding_length 9 8 ∧ write_padding_length 9 8 ≤ 8 + 3 ∧
    libssh2_ntohu32 (write_header 9 8) = write_packet_length 9 8 ∧
    (write_header 9 8).getD 4 0 = write_padding_length 9 8 :=
  length_padding_law 9 8 (by decide) (by decide) (by decide)

/-- C3 (minimal padding). For every payload length `n` and block size
`b ≥ 8`, the `padding_length` computed by `libssh2_packet_write` is at least
4, makes `n + 1 + 4 + padding_length` a multiple of `b`, and no smaller
`p ≥ 4` does. -/
theorem padding_is_minimal (n b : Nat) (hb : 8 ≤ b) :
    4 ≤ write_padding_length n b ∧
    (n + 1 + 4 + write_padding_length n b) % b = 0 ∧
    ∀ p, 4 ≤ p → (n + 1 + 4 + p) % b = 0 → write_padding_length n b ≤ p := by
  refine ⟨(padding_bounds n b (by omega)).1, ?_, fun p hp hmod => padding_minimal n b p (by omega) hp hmod⟩
  have h := packet_length_aligned n b (by omega)
  unfold write_packet_length at h
  rw [← h]; congr 1; omega

/-- Witness of `padding_is_minimal`: payload length 9, block size 8. -/
theorem padding_is_minimal_witness :
    4 ≤ write_padding_length 9 8 ∧
    (9 + 1 + 4 + write_padding_length 9 8) % 8 = 0 ∧
    ∀ p, 4 ≤ p → (9 + 1 + 4 + p) % 8 = 0 → write_padding_length 9 8 ≤ p :=
  padding_is_minimal 9 8 (by decide)

/-! ## The brigade scan of `libssh2_packet_ask_ex` -/

theorem brigade_scan_some (t o : Nat) (m : Option (List Nat)) (len : Nat) :
    ∀ (l before after : List Packet) (found : Packet),
      brigade_scan t o m len l = some (before, found, after) →
      l = before ++ found :: after ∧ packet_matches found t o m len = true ∧
      ∀ p ∈ before, packet_matches p t o m len = false := by
  intro l
  induction l with
  | nil => intro before after found h; simp [brigade_scan] at h
  | cons p rest ih =>
    intro before after found h
    unfold brigade_scan at h
    by_cases hp : packet_matches p t o m len = true
    · simp only [hp, if_true, Option.some.injEq, Prod.mk.injEq] at h
      obtain ⟨rfl, rfl, rfl⟩ := h
      exact ⟨rfl, hp, by simp⟩
    · have hp2 : packet_matches p t o m len = false := by simpa using hp
      cases hs : brigade_scan t o m len rest with
      | none => simp [hp2, hs] at h
      | some r =>
        obtain ⟨b, f, a⟩ := r
        simp only [hp2, hs, Option.some.injEq, Prod.mk.injEq, Bool.false_eq_true, if_false] at h
        obtain ⟨rfl, rfl, rfl⟩ := h
        obtain ⟨e1, e2, e3⟩ := ih _ _ _ hs
        refine ⟨by rw [e1]; rfl, e2, ?_⟩
        intro q hq
        rcases List.mem_cons.mp hq with rfl | hq
        · exact hp2
        · exact e3 q hq

/-- C5 (frame of `libssh2_packet_ask_ex`, poll = 0). The call always
returns. When it returns Found (0), the brigade before is
`before ++ found :: after`, the session afterwards differs from the session
before only in its brigade, which is `before ++ after` (the entry found is
removed, every other entry keeps its place), and the outputs are the buffer
and length of the entry found. When it returns NotFound (-1), the session,
and so the brigade, is unchanged. -/
theorem ask_frame (env : Env) (s : Session) (packet_type match_ofs : Nat)
    (match_buf : Option (List Nat)) (match_len : Nat) :
    ∃ r, libssh2_packet_ask_ex env s packet_type match_ofs match_buf match_len false = some r ∧
      ((r.ret = 0 ∧ ∃ before found after,
          s.packets = before ++ found :: after ∧
          r.session = { s with packets := before ++ after } ∧
          r.data = some found.data ∧ r.data_len = some found.data_len) ∨
       (r.ret = -1 ∧ r.session = s ∧ r.data = none ∧ r.data_len = none)) := by
  refine ⟨_, by simp only [libssh2_packet_ask_ex]; rfl, ?_⟩
  unfold packet_ask_scan
  cases hs : brigade_scan packet_type match_ofs match_buf match_len s.packets with
  | none => right; exact ⟨rfl, rfl, rfl, rfl⟩
  | some r =>
    obtain ⟨b, f, a⟩ := r
    left
    exact ⟨rfl, b, f, a, (brigade_scan_some _ _ _ _ _ _ _ _ hs).1, rfl, rfl, rfl⟩

/-! ## Helpers: conversions and socket reads -/

theorem two_pow_32_le (w : Nat) (hw : 32 ≤ w) : 2 ^ 32 ≤ 2 ^ w :=
  Nat.pow_le_pow_right (by decide) hw

theorem toULong_of_nat (w n : Nat) (h : n < 2 ^ w) : toULong w (n : Int) = n := by
  unfold toULong
  have : ((n : Int) % (2 ^ w : Int)) = (n : Int) := by
    apply Int.emod_eq_of_lt (by omega)
    exact_mod_cast h
  rw [this]; simp

theorem toInt32_of_lt (n : Nat) (h : n < 2 ^ 31) : toInt32 n = n := by
  unfold toInt32
  have : n % 2 ^ 32 = n := Nat.mod_eq_of_lt (by omega)
  rw [this, if_pos h]

theorem toULong_sub_one (w n : Nat) (hn : 0 < n) (h : n < 2 ^ w) :
    toULong w ((n : Int) - 1) = n - 1 := by
  have : ((n : Int) - 1) = ((n - 1 : Nat) : Int) := by omega
  rw [this]; exact toULong_of_nat w (n - 1) (by omega)

theorem toULong_zero_sub_one (w : Nat) : toULong w (((0 : Nat) : Int) - 1) = 2 ^ w - 1 := by
  unfold toULong
  have h0 : 1 ≤ 2 ^ w := Nat.one_le_two_pow
  have h3 : (((2 ^ w - 1 : Nat) : Int)) < 2 ^ w := by
    have : 2 ^ w - 1 < 2 ^ w := by omega
    exact_mod_cast this
  have h2 : ((0 : Nat) : Int) - 1 = (((2 ^ w - 1 : Nat) : Int)) + (-1) * 2 ^ w := by
    push_cast [Nat.cast_sub h0]; ring
  have key : (((0 : Nat) : Int) - 1) % (2 ^ w : Int) = ((2 ^ w - 1 : Nat) : Int) := by
    rw [h2, Int.add_mul_emod_self]
    exact Int.emod_eq_of_lt (Int.natCast_nonneg _) h3
  rw [key]
  exact Int.toNat_natCast _

theorem blocking_read_ok (s : Session) (n : Nat) (h : n ≤ s.sock_in.length) :
    libssh2_blocking_read s n =
      (toInt32 n, s.sock_in.take n, { s with sock_in := s.sock_in.drop n }) := by
  simp [libssh2_blocking_read, h]

theorem blocking_read_errors (s : Session) (n : Nat) :
    (libssh2_blocking_read s n).2.2.errors = s.errors := by
  unfold libssh2_blocking_read; split <;> rfl

theorem blocking_read_packets (s : Session) (n : Nat) :
    (libssh2_blocking_read s n).2.2.packets = s.packets := by
  unfold libssh2_blocking_read; split <;> rfl

theorem decrypt_block_errors (s : Session) (block : List Nat) :
    match decrypt_block s block with
    | Step.ret _ s1 => s1.errors = s.errors ++ [ErrorCode.DECRYPT]
    | Step.next _ s1 => s1.errors = s.errors := by
  unfold decrypt_block
  simp only
  split_ifs <;> rfl

theorem read_blocks_errors (env : Env) :
    ∀ (fuel : Nat) (s : Session) (payload : List Nat) (filled payload_len : Nat)
      (r : Step (List Nat)),
      read_blocks env fuel s payload filled payload_len = some r →
      match r with
      | Step.ret _ s1 => s1.errors = s.errors ∨ s1.errors = s.errors ++ [ErrorCode.DECRYPT]
      | Step.next _ s1 => s1.errors = s.errors := by
  intro fuel
  induction fuel with
  | zero => intro s payload filled payload_len r h; simp [read_blocks] at h
  | succ fuel ih =>
    intro s payload filled payload_len r h
    simp only [read_blocks] at h
    by_cases h1 : filled < payload_len
    · simp only [h1, if_true] at h
      by_cases h2 : toULong env.ulong_bits (libssh2_blocking_read s s.remote.crypt.blocksize).1 <
          s.remote.crypt.blocksize
      · simp only [h2, if_true, Option.some.injEq] at h
        subst h
        exact Or.inl (blocking_read_errors s _)
      · simp only [h2, if_false] at h
        by_cases h3 : (libssh2_blocking_read s s.remote.crypt.blocksize).2.1.length <
            s.remote.crypt.blocksize
        · simp [h3] at h
        · simp only [h3, if_false] at h
          have hd := decrypt_block_errors (libssh2_blocking_read s s.remote.crypt.blocksize).2.2
            (libssh2_blocking_read s s.remote.crypt.blocksize).2.1
          revert h hd
          cases decrypt_block (libssh2_blocking_read s s.remote.crypt.blocksize).2.2
            (libssh2_blocking_read s s.remote.crypt.blocksize).2.1 with
          | ret v s1 =>
            intro h hd
            simp only [Option.some.injEq] at h
            subst h
            right
            simpa [blocking_read_errors] using hd
          | next plain s1 =>
            intro h hd
            simp only at h hd
            have := ih _ _ _ _ _ h
            rw [hd, blocking_read_errors] at this
            exact this
    · simp only [h1, if_false, Option.some.injEq] at h
      subst h
      rfl
theorem getD_lt_of_all_lt (buf : List Nat) (i : Nat) (h : ∀ x ∈ buf, x < 256) :
    buf.getD i 0 < 256 := by
  by_cases hi : i < buf.length
  · rw [List.getD_eq_getElem _ _ hi]
    exact h _ (List.getElem_mem hi)
  · rw [List.getD_eq_default _ _ (by omega)]
    decide

theorem ntohu32_lt (buf : List Nat) (h : ∀ x ∈ buf, x < 256) : libssh2_ntohu32 buf < 2 ^ 32 := by
  unfold libssh2_ntohu32
  have h0 := getD_lt_of_all_lt buf 0 h
  have h1 := getD_lt_of_all_lt buf 1 h
  have h2 := getD_lt_of_all_lt buf 2 h
  have h3 := getD_lt_of_all_lt buf 3 h
  omega

/-- The sanity check of line 368 in plain arithmetic. -/
theorem sanity_check_iff (w pl b : Nat) (hw : 32 ≤ w) (hpl : pl < 2 ^ 32) :
    (toULong w ((pl : Int) - 1) > LIBSSH2_PACKET_MAXPAYLOAD ∨ (pl + 4) % 2 ^ w % b ≠ 0) ↔
    (pl = 0 ∨ pl - 1 > LIBSSH2_PACKET_MAXPAYLOAD ∨ (pl + 4) % b ≠ 0) := by
  have h32 := two_pow_32_le w hw
  unfold LIBSSH2_PACKET_MAXPAYLOAD
  rcases Nat.eq_zero_or_pos pl with h0 | hpos
  · subst h0
    rw [toULong_zero_sub_one]
    constructor
    · intro _; exact Or.inl rfl
    · intro _; left; omega
  · rw [toULong_sub_one w pl hpos (by omega)]
    by_cases hbig : pl - 1 > 40000
    · constructor
      · intro _; exact Or.inr (Or.inl hbig)
      · intro _; exact Or.inl hbig
    · have : (pl + 4) % 2 ^ w = pl + 4 := Nat.mod_eq_of_lt (by omega)
      rw [this]
      constructor
      · rintro (h | h)
        · exact absurd h hbig
        · exact Or.inr (Or.inr h)
      · rintro (h | h | h)
        · omega
        · exact absurd h hbig
        · exact Or.inr h

theorem read_first_block_ok (env : Env) (s : Session) (hw : 32 ≤ env.ulong_bits)
    (hb : s.remote.crypt.blocksize < 2 ^ 31)
    (havail : s.remote.crypt.blocksize ≤ s.sock_in.length) :
    read_first_block env s true =
      some (Step.next (s.sock_in.take s.remote.crypt.blocksize)
        { s with sock_in := s.sock_in.drop s.remote.crypt.blocksize }) := by
  have h32 := two_pow_32_le _ hw
  simp only [read_first_block, if_true, blocking_read_ok s _ havail]
  rw [toInt32_of_lt _ hb, toULong_of_nat _ _ (by omega)]
  simp [havail]

theorem read_frame_cipher_first (env : Env) (s : Session) (hw : 32 ≤ env.ulong_bits)
    (hb : s.remote.crypt.blocksize < 2 ^ 31)
    (havail : s.remote.crypt.blocksize ≤ s.sock_in.length)
    (hdec : s.remote.crypt.evp = true ∨
      (s.remote.crypt.crypt s.remote.crypt_abstract
        (s.sock_in.take s.remote.crypt.blocksize)).1 = false) :
    read_frame_cipher env s true =
      read_after_first_block env (after_first_block s) (first_block s) := by
  unfold read_frame_cipher
  rw [read_first_block_ok env s hw hb havail]
  simp only [decrypt_block]
  have : ¬ (s.remote.crypt.evp = false ∧ (s.remote.crypt.crypt s.remote.crypt_abstract
      (s.sock_in.take s.remote.crypt.blocksize)).1 = true) := by
    rintro ⟨h1, h2⟩
    rcases hdec with h | h
    · rw [h1] at h; cases h
    · rw [h2] at h; cases h
  rw [if_neg this]
  rfl
/-! ## Errors raised along the cipher branch of `libssh2_packet_read` -/

theorem verify_mac_errors (s : Session) (received tmp payload : List Nat) (payload_len : Nat) :
    (verify_mac s received tmp payload payload_len).2.errors = s.errors ∨
    (verify_mac s received tmp payload payload_len).2.errors =
      s.errors ++ [ErrorCode.other (-255)] := by
  by_cases h : strncmp received (s.remote.mac.hash s.remote.mac_abstract s.remote.seqno
      (tmp.take 5) (payload.take payload_len)) s.remote.mac.mac_len = 0
  · left; simp [verify_mac, h]
  · right; simp [verify_mac, h, libssh2_error]

theorem read_decompress_errors (s : Session) (payload : List Nat) (payload_len : Nat)
    (macstate : MacState) (v : Int) (s1 : Session)
    (h : read_decompress s payload payload_len macstate = Step.ret v s1) :
    s1.errors = s.errors := by
  unfold read_decompress at h
  cases hc : s.remote.comp with
  | none => simp [hc] at h
  | some c =>
    simp only [hc] at h
    split_ifs at h
    · simp only [Step.ret.injEq] at h
      obtain ⟨_, rfl⟩ := h
      rfl

theorem read_mac_and_finish_errors (env : Env) (s : Session) (tmp payload : List Nat)
    (payload_len padding_len : Nat) (v : Int) (s1 : Session)
    (h : read_mac_and_finish env s tmp payload payload_len padding_len = Step.ret v s1) :
    s1.errors = s.errors ∨ s1.errors = s.errors ++ [ErrorCode.other (-255)] := by
  simp only [read_mac_and_finish] at h
  split_ifs at h
  · simp only [Step.ret.injEq] at h
    obtain ⟨_, rfl⟩ := h
    exact Or.inl (blocking_read_errors s _)
  · rw [read_decompress_errors _ _ _ _ _ _ h, ← blocking_read_errors s s.remote.mac.mac_len]
    exact verify_mac_errors _ _ _ _ _

/-! ## Receive-side length validation -/

/-- C9 (receive-side length validation). With keys active, on a connected
session whose socket holds a whole first cipher block that decrypts to bytes
`first_block s`, with `packet_length` the big-endian value of its first four
bytes: if `packet_length = 0` (the wrapped case), or
`packet_length - 1 > MAX_PAYLOAD`, or `(packet_length + 4) mod blocksize ≠ 0`,
then `libssh2_packet_read` returns -1, the session is Disconnected, PROTO is
appended to the errors, only the first block has been taken from the socket
and the brigade is unchanged; and conversely a blocking read that returns -1
with the session Disconnected and PROTO appended to the errors happens only
in these cases. -/
theorem receive_length_validation (env : Env) (s : Session) (hw : 32 ≤ env.ulong_bits)
    (hnk : s.newkeys = true) (hconn : s.socket_state = SocketState.connected)
    (hb5 : 5 ≤ s.remote.crypt.blocksize) (hb : s.remote.crypt.blocksize < 2 ^ 31)
    (havail : s.remote.crypt.blocksize ≤ s.sock_in.length)
    (hdec : s.remote.crypt.evp = true ∨
      (s.remote.crypt.crypt s.remote.crypt_abstract
        (s.sock_in.take s.remote.crypt.blocksize)).1 = false)
    (hbytes : ∀ x ∈ first_block s, x < 256) :
    ((libssh2_ntohu32 (first_block s) = 0 ∨
        libssh2_ntohu32 (first_block s) - 1 > LIBSSH2_PACKET_MAXPAYLOAD ∨
        (libssh2_ntohu32 (first_block s) + 4) % s.remote.crypt.blocksize ≠ 0) →
      ∃ s1, libssh2_packet_read env s true = some (-1, s1) ∧
        s1.socket_state = SocketState.disconnected ∧
        s1.errors = s.errors ++ [ErrorCode.PROTO] ∧
        s1.sock_in = s.sock_in.drop s.remote.crypt.blocksize ∧
        s1.packets = s.packets) ∧
    (∀ ret s1, libssh2_packet_read env s true = some (ret, s1) → ret = -1 →
        s1.socket_state = SocketState.disconnected →
        s1.errors = s.errors ++ [ErrorCode.PROTO] →
        (libssh2_ntohu32 (first_block s) = 0 ∨
          libssh2_ntohu32 (first_block s) - 1 > LIBSSH2_PACKET_MAXPAYLOAD ∨
          (libssh2_ntohu32 (first_block s) + 4) % s.remote.crypt.blocksize ≠ 0)) := by
  have hpl : libssh2_ntohu32 (first_block s) < 2 ^ 32 := ntohu32_lt _ hbytes
  have hiff := sanity_check_iff env.ulong_bits (libssh2_ntohu32 (first_block s))
    s.remote.crypt.blocksize hw hpl
  have hframe : packet_read_frame env s true =
      read_after_first_block env (after_first_block s) (first_block s) := by
    unfold packet_read_frame
    rw [if_pos hnk]
    exact read_frame_cipher_first env s hw hb havail hdec
  have hnd : ¬ s.socket_state = SocketState.disconnected := by rw [hconn]; decide
  have hbs : (after_first_block s).remote.crypt.blocksize = s.remote.crypt.blocksize := rfl
  constructor
  · intro hbad
    have hc := hiff.mpr hbad
    refine ⟨libssh2_error { after_first_block s with socket_state := SocketState.disconnected }
      ErrorCode.PROTO, ?_, rfl, rfl, rfl, rfl⟩
    unfold libssh2_packet_read
    rw [if_neg hnd, hframe]
    simp only [read_after_first_block, hbs]
    rw [if_neg (by omega), if_pos hc]
  · intro ret s1 hread hret hdisc herr
    by_contra hgood
    have hc : ¬ _ := fun h => hgood (hiff.mp h)
    unfold libssh2_packet_read at hread
    rw [if_neg hnd, hframe] at hread
    simp only [read_after_first_block, hbs] at hread
    rw [if_neg (by omega), if_neg hc] at hread
    revert hread
    generalize hrb : read_blocks env _ _ _ _ _ = rb
    intro hread
    rcases rb with _ | (⟨v, s2⟩ | ⟨payload, s2⟩)
    · simp at hread
    · have he := read_blocks_errors env _ _ _ _ _ _ hrb
      simp only [Option.some.injEq, Prod.mk.injEq] at hread
      obtain ⟨_, rfl⟩ := hread
      simp only at he
      rcases he with he | he
      · rw [he] at herr; simp [after_first_block] at herr
      · rw [he] at herr; simp [after_first_block] at herr
    · have he := read_blocks_errors env _ _ _ _ _ _ hrb
      simp only at he
      simp only at hread
      revert hread
      generalize hfin : read_mac_and_finish env s2 _ payload _ _ = fin
      intro hread
      rcases fin with ⟨v, s3⟩ | ⟨f, s3⟩
      · simp only [Option.some.injEq, Prod.mk.injEq] at hread
        obtain ⟨_, rfl⟩ := hread
        rcases read_mac_and_finish_errors _ _ _ _ _ _ _ _ hfin with hm | hm
        · rw [hm, he] at herr; simp [after_first_block] at herr
        · rw [hm, he] at herr; simp [after_first_block] at herr
      · simp only [Option.some.injEq, Prod.mk.injEq] at hread
        obtain ⟨h1, _⟩ := hread
        rw [hret] at h1
        omega

/-- Witness of `receive_length_validation`: a first block announcing
`packet_length = 13` with block size 8 (17 is not a multiple of 8). -/
theorem receive_length_validation_witness :
    ∃ s1, libssh2_packet_read demo_env
        (demo_session true (null_cipher 8) comp_none [0, 0, 0, 13, 4, 21, 0, 0, 0, 0]) true =
          some (-1, s1) ∧
      s1.socket_state = SocketState.disconnected ∧
      s1.errors = [ErrorCode.PROTO] ∧
      s1.sock_in = [0, 0] ∧
      s1.packets = [] :=
  (receive_length_validation demo_env
    (demo_session true (null_cipher 8) comp_none [0, 0, 0, 13, 4, 21, 0, 0, 0, 0])
    (by decide) rfl rfl (by decide) (by decide) (by decide) (by decide) (by decide)).1 (by decide)

/-! ## Decrypting what was encrypted -/

theorem strncmp_self (n : Nat) : ∀ a : List Nat, strncmp a a n = 0 := by
  induction n with
  | zero => intro a; rfl
  | succ n ih =>
    intro a
    unfold strncmp
    simp only [ne_eq, not_true_eq_false, if_false]
    split_ifs
    · rfl
    · exact ih _

theorem read_blocks_step (env : Env) (s : Session) (acc : List Nat) (filled payload_len fuel : Nat)
    (hw : 32 ≤ env.ulong_bits) (hlt : filled < payload_len)
    (hb : s.remote.crypt.blocksize < 2 ^ 31)
    (havail : s.remote.crypt.blocksize ≤ s.sock_in.length)
    (hdec : s.remote.crypt.evp = true ∨
      (s.remote.crypt.crypt s.remote.crypt_abstract
        (s.sock_in.take s.remote.crypt.blocksize)).1 = false) :
    read_blocks env (fuel + 1) s acc filled payload_len =
      read_blocks env fuel (after_first_block s) (acc ++ first_block s)
        (filled + s.remote.crypt.blocksize) payload_len := by
  have h32 := two_pow_32_le _ hw
  simp only [read_blocks]
  rw [if_pos hlt, blocking_read_ok s _ havail]
  simp only
  rw [toInt32_of_lt _ hb, toULong_of_nat _ _ (by omega), if_neg (by omega),
    if_neg (by rw [List.length_take]; omega)]
  simp only [decrypt_block]
  have : ¬ (s.remote.crypt.evp = false ∧ (s.remote.crypt.crypt s.remote.crypt_abstract
      (s.sock_in.take s.remote.crypt.blocksize)).1 = true) := by
    rintro ⟨h1, h2⟩
    rcases hdec with h | h
    · rw [h1] at h; cases h
    · rw [h2] at h; cases h
  rw [if_neg this]
  rfl

theorem read_blocks_stream (env : Env) (enc dec : CryptMethod)
    (rel : List Nat → List Nat → Prop) (hci : CipherInverse enc dec rel)
    (hw : 32 ≤ env.ulong_bits) (hb0 : 0 < enc.blocksize) (hb : enc.blocksize < 2 ^ 31) :
    ∀ (k : Nat) (clear : List Nat) (fuelE : Nat) (aS aR : List Nat) (s : Session)
      (acc : List Nat) (filled : Nat) (tail : List Nat) (fuel : Nat),
      clear.length = k * enc.blocksize → k ≤ fuelE → k < fuel → rel aS aR →
      s.remote.crypt = dec → s.remote.crypt_abstract = aR →
      s.sock_in = (encrypt_blocks enc fuelE aS clear).2 ++ tail →
      (encrypt_blocks enc fuelE aS clear).2.length = clear.length ∧
      ∃ aR', rel (encrypt_blocks enc fuelE aS clear).1 aR' ∧
        read_blocks env fuel s acc filled (filled + clear.length) =
          some (Step.next (acc ++ clear)
            { s with sock_in := tail, remote := { s.remote with crypt_abstract := aR' } }) := by
  have h32 := two_pow_32_le _ hw
  intro k
  induction k with
  | zero =>
    intro clear fuelE aS aR s acc filled tail fuel hlen _ hfuel hrel hcrypt habs hin
    have hnil : clear = [] := List.length_eq_zero.mp (by simpa using hlen)
    subst hnil
    have he : encrypt_blocks enc fuelE aS [] = (aS, []) := by
      cases fuelE <;> simp [encrypt_blocks]
    rw [he] at hin ⊢
    refine ⟨rfl, aR, hrel, ?_⟩
    obtain ⟨fuel, rfl⟩ : ∃ f, fuel = f + 1 := ⟨fuel - 1, by omega⟩
    simp only [read_blocks, List.length_nil, Nat.add_zero, Nat.lt_irrefl, if_false,
      List.append_nil]
    simp only [List.nil_append] at hin
    subst habs
    rw [← hin]
  | succ k ih =>
    intro clear fuelE aS aR s acc filled tail fuel hlen hfe hfuel hrel hcrypt habs hin
    obtain ⟨fuel, rfl⟩ : ∃ f, fuel = f + 1 := ⟨fuel - 1, by omega⟩
    obtain ⟨fuelE, rfl⟩ : ∃ f, fuelE = f + 1 := ⟨fuelE - 1, by omega⟩
    have hlen2 : clear.length = k * enc.blocksize + enc.blocksize := by
      rw [hlen, Nat.succ_mul]
    have hblk : (clear.take enc.blocksize).length = enc.blocksize := by
      rw [List.length_take]; omega
    have hrest : (clear.drop enc.blocksize).length = k * enc.blocksize := by
      rw [List.length_drop]; omega
    obtain ⟨hdb, hstep⟩ := hci
    obtain ⟨hl, hd, hnf, hrel'⟩ := hstep aS aR (clear.take enc.blocksize) hrel hblk
    have he : encrypt_blocks enc (fuelE + 1) aS clear =
        ((encrypt_blocks enc fuelE (enc.crypt aS (clear.take enc.blocksize)).2.1
            (clear.drop enc.blocksize)).1,
         (enc.crypt aS (clear.take enc.blocksize)).2.2 ++
          (encrypt_blocks enc fuelE (enc.crypt aS (clear.take enc.blocksize)).2.1
            (clear.drop enc.blocksize)).2) := by
      simp only [encrypt_blocks]
      rw [if_neg (by omega)]
    rw [he] at hin ⊢
    simp only [List.append_assoc] at hin
    have hbs : s.remote.crypt.blocksize = enc.blocksize := by rw [hcrypt, hdb]
    have havail : s.remote.crypt.blocksize ≤ s.sock_in.length := by
      rw [hbs, hin, List.length_append, hl]; omega
    have hbr := blocking_read_ok s _ havail
    have htake : s.sock_in.take s.remote.crypt.blocksize =
        (enc.crypt aS (clear.take enc.blocksize)).2.2 := by
      rw [hbs, hin, List.take_left' hl]
    have hdrop : s.sock_in.drop s.remote.crypt.blocksize =
        (encrypt_blocks enc fuelE (enc.crypt aS (clear.take enc.blocksize)).2.1
            (clear.drop enc.blocksize)).2 ++ tail := by
      rw [hbs, hin, List.drop_left' hl]
    obtain ⟨hlen', aR', hrel'', hread⟩ := ih (clear.drop enc.blocksize) fuelE
      (enc.crypt aS (clear.take enc.blocksize)).2.1
      (dec.crypt aR (enc.crypt aS (clear.take enc.blocksize)).2.2).2.1
      { s with sock_in := s.sock_in.drop s.remote.crypt.blocksize,
               remote := { s.remote with crypt_abstract :=
                 (dec.crypt aR (enc.crypt aS (clear.take enc.blocksize)).2.2).2.1 } }
      (acc ++ clear.take enc.blocksize) (filled + enc.blocksize) tail fuel
      hrest (by omega) (by omega) hrel' hcrypt rfl hdrop
    have hfb : first_block s = clear.take enc.blocksize := by
      unfold first_block; rw [htake, hcrypt, habs, hd]
    have hafter : after_first_block s =
        { s with sock_in := s.sock_in.drop s.remote.crypt.blocksize,
                 remote := { s.remote with crypt_abstract :=
                   (dec.crypt aR (enc.crypt aS (clear.take enc.blocksize)).2.2).2.1 } } := by
      unfold after_first_block; rw [htake, hcrypt, habs]
    refine ⟨?_, aR', hrel'', ?_⟩
    · simp only [List.length_append, hl, hlen']
      rw [hrest, hlen2]; omega
    · rw [read_blocks_step env s acc filled _ fuel hw (by omega) (by omega) havail
        (by rw [htake, hcrypt, habs]; exact hnf), hfb, hafter, hbs]
      have harith : filled + clear.length =
          filled + enc.blocksize + (clear.drop enc.blocksize).length := by
        rw [hrest, hlen2]; omega
      rw [harith]
      rw [hbs] at hread
      refine Eq.trans hread ?_
      simp only [List.append_assoc, List.take_append_drop]
/-! ## The clear frame of `libssh2_packet_write` -/

theorem write_header_length (n b : Nat) : (write_header n b).length = 5 := by
  simp [write_header, libssh2_htonu32]

theorem write_frame_length (Z : List Nat) (b : Nat) :
    (write_frame Z b).length = 4 + write_packet_length Z.length b := by
  simp only [write_frame, List.length_append, write_header_length, List.length_replicate,
    write_packet_length]
  omega

theorem write_frame_blocks (Z : List Nat) (b : Nat) (hb : 0 < b) :
    ∃ k, (write_frame Z b).length = (k + 1) * b := by
  have h := packet_length_aligned Z.length b hb
  obtain ⟨m, hm⟩ := Nat.dvd_of_mod_eq_zero h
  rw [write_frame_length]
  rcases m with _ | m
  · simp only [Nat.mul_zero] at hm; omega
  · exact ⟨m, by rw [Nat.add_comm 4, hm, Nat.mul_comm]⟩

theorem write_frame_drop5 (Z : List Nat) (b : Nat) :
    (write_frame Z b).drop 5 = Z ++ List.replicate (write_padding_length Z.length b) 0 := by
  unfold write_frame
  rw [List.append_assoc, List.drop_left' (write_header_length _ _)]

theorem write_frame_take5 (Z : List Nat) (b : Nat) :
    (write_frame Z b).take 5 = write_header Z.length b := by
  unfold write_frame
  rw [List.append_assoc, List.take_left' (write_header_length _ _)]

theorem take_take_of_le (l : List Nat) (m n : Nat) (h : m ≤ n) :
    (l.take n).take m = l.take m := by
  rw [List.take_take, Nat.min_eq_left h]

theorem getD_take (l : List Nat) (i n : Nat) (h : i < n) : (l.take n).getD i 0 = l.getD i 0 := by
  simp only [List.getD_eq_getElem?_getD, List.getElem?_take, h, if_true]

theorem ntohu32_take (l : List Nat) (n : Nat) (h : 4 ≤ n) :
    libssh2_ntohu32 (l.take n) = libssh2_ntohu32 l := by
  unfold libssh2_ntohu32
  rw [getD_take l 0 n (by omega), getD_take l 1 n (by omega), getD_take l 2 n (by omega),
    getD_take l 3 n (by omega)]

theorem write_frame_packet_length (Z : List Nat) (b n : Nat) (hn : 4 ≤ n)
    (hpl : write_packet_length Z.length b < 2 ^ 32) :
    libssh2_ntohu32 ((write_frame Z b).take n) = write_packet_length Z.length b := by
  rw [ntohu32_take _ _ hn]
  unfold write_frame write_header
  simp only [List.append_assoc]
  exact ntohu32_htonu32 _ hpl _

theorem write_frame_padding_length (Z : List Nat) (b n : Nat) (hn : 5 ≤ n)
    (hpad : write_padding_length Z.length b < 256) :
    ((write_frame Z b).take n).getD 4 0 = write_padding_length Z.length b := by
  rw [getD_take _ _ _ (by omega)]
  simp only [write_frame, write_header, libssh2_htonu32, List.cons_append, List.getD_cons_succ,
    List.getD_cons_zero, List.nil_append]
  omega
/-! ## Reading back what `libssh2_packet_write` sent -/

theorem first_block_of_wire (R : Session) (enc : CryptMethod) (rel : List Nat → List Nat → Prop)
    (aS frame tail : List Nat) (k : Nat)
    (hci : CipherInverse enc R.remote.crypt rel) (hrel : rel aS R.remote.crypt_abstract)
    (hb0 : 0 < enc.blocksize) (hlen : frame.length = (k + 1) * enc.blocksize)
    (hin : R.sock_in = (encrypt_blocks enc frame.length aS frame).2 ++ tail) :
    R.remote.crypt.blocksize ≤ R.sock_in.length ∧
    first_block R = frame.take enc.blocksize ∧
    (R.remote.crypt.evp = true ∨
      (R.remote.crypt.crypt R.remote.crypt_abstract
        (R.sock_in.take R.remote.crypt.blocksize)).1 = false) ∧
    (after_first_block R).sock_in =
      (encrypt_blocks enc (frame.length - 1) (enc.crypt aS (frame.take enc.blocksize)).2.1
        (frame.drop enc.blocksize)).2 ++ tail ∧
    rel (enc.crypt aS (frame.take enc.blocksize)).2.1 (after_first_block R).remote.crypt_abstract := by
  obtain ⟨hdb, hstep⟩ := hci
  have hlen2 : frame.length = k * enc.blocksize + enc.blocksize := by rw [hlen, Nat.succ_mul]
  have hblk : (frame.take enc.blocksize).length = enc.blocksize := by
    rw [List.length_take]; omega
  obtain ⟨hl, hd, hnf, hrel'⟩ := hstep aS R.remote.crypt_abstract (frame.take enc.blocksize) hrel hblk
  obtain ⟨fuelE, hfe⟩ : ∃ f, frame.length = f + 1 := ⟨frame.length - 1, by omega⟩
  have he : encrypt_blocks enc frame.length aS frame =
      ((encrypt_blocks enc (frame.length - 1) (enc.crypt aS (frame.take enc.blocksize)).2.1
          (frame.drop enc.blocksize)).1,
       (enc.crypt aS (frame.take enc.blocksize)).2.2 ++
        (encrypt_blocks enc (frame.length - 1) (enc.crypt aS (frame.take enc.blocksize)).2.1
          (frame.drop enc.blocksize)).2) := by
    have : frame.length - 1 = fuelE := by omega
    rw [this]
    conv => lhs; rw [hfe]
    simp only [encrypt_blocks]
    rw [if_neg (by omega)]
  rw [he] at hin
  simp only [List.append_assoc] at hin
  have htake : R.sock_in.take R.remote.crypt.blocksize =
      (enc.crypt aS (frame.take enc.blocksize)).2.2 := by
    rw [hdb, hin, List.take_left' hl]
  have hdrop : R.sock_in.drop R.remote.crypt.blocksize =
      (encrypt_blocks enc (frame.length - 1) (enc.crypt aS (frame.take enc.blocksize)).2.1
          (frame.drop enc.blocksize)).2 ++ tail := by
    rw [hdb, hin, List.drop_left' hl]
  refine ⟨?_, ?_, ?_, ?_, ?_⟩
  · rw [hdb, hin, List.length_append, hl]; omega
  · unfold first_block; rw [htake, hd]
  · rw [htake]; exact hnf
  · unfold after_first_block; exact hdrop
  · unfold after_first_block; simp only; rw [htake]; exact hrel'

theorem read_mac_and_finish_ok (env : Env) (s : Session) (tmp payload : List Nat)
    (payload_len padding_len : Nat) (hml : s.remote.mac.mac_len < 2 ^ 31)
    (hlen : s.sock_in.length = s.remote.mac.mac_len)
    (hin : s.sock_in = s.remote.mac.hash s.remote.mac_abstract s.remote.seqno (tmp.take 5)
      (payload.take payload_len)) :
    read_mac_and_finish env s tmp payload payload_len padding_len =
      read_decompress
        { s with sock_in := [],
                 remote := { s.remote with seqno := seqno_incr s.remote.seqno } }
        payload (toULong env.ulong_bits ((payload_len : Int) - padding_len))
        MacState.confirmed := by
  simp only [read_mac_and_finish]
  rw [blocking_read_ok s _ (by omega)]
  simp only
  rw [toInt32_of_lt _ hml, if_neg (by omega)]
  have htake : s.sock_in.take s.remote.mac.mac_len = s.sock_in :=
    List.take_of_length_le (by omega)
  have hdrop : s.sock_in.drop s.remote.mac.mac_len = [] :=
    List.drop_eq_nil_of_le (by omega)
  simp only [verify_mac, htake, hdrop]
  rw [← hin, strncmp_self]
  simp only [if_true, reduceCtorEq, if_false]

theorem read_frame_of_wire (env : Env) (R : Session) (enc : CryptMethod)
    (rel : List Nat → List Nat → Prop) (aS Z macv : List Nat)
    (hw : 32 ≤ env.ulong_bits)
    (hci : CipherInverse enc R.remote.crypt rel) (hrel : rel aS R.remote.crypt_abstract)
    (hb8 : 8 ≤ enc.blocksize) (hb252 : enc.blocksize ≤ 252)
    (hmm : MacOfMessage R.remote.mac) (hml : R.remote.mac.mac_len < 2 ^ 31)
    (hmacv : macv = R.remote.mac.hash R.remote.mac_abstract R.remote.seqno
      (write_frame Z enc.blocksize) [])
    (hin : R.sock_in = (encrypt_blocks enc (write_frame Z enc.blocksize).length aS
      (write_frame Z enc.blocksize)).2 ++ macv)
    (hsize : Z.length + write_padding_length Z.length enc.blocksize ≤ LIBSSH2_PACKET_MAXPAYLOAD) :
    ∃ aR', read_frame_cipher env R true =
      some (read_decompress
        { R with sock_in := [],
                 remote := { R.remote with crypt_abstract := aR',
                                           seqno := seqno_incr R.remote.seqno } }
        (Z ++ List.replicate (write_padding_length Z.length enc.blocksize) 0) Z.length
        MacState.confirmed) := by
  have h32 := two_pow_32_le _ hw
  have hdb := hci.1
  obtain ⟨k, hk⟩ := write_frame_blocks Z enc.blocksize (by omega)
  have hflen := write_frame_length Z enc.blocksize
  have hpb := padding_bounds Z.length enc.blocksize (by omega)
  have hplv : write_packet_length Z.length enc.blocksize =
      Z.length + 1 + write_padding_length Z.length enc.blocksize := rfl
  have hk' : (write_frame Z enc.blocksize).length = k * enc.blocksize + enc.blocksize := by
    rw [hk, Nat.succ_mul]
  have hkb : k ≤ k * enc.blocksize := Nat.le_mul_of_pos_right k (by omega)
  unfold LIBSSH2_PACKET_MAXPAYLOAD at hsize
  obtain ⟨havail, hfb, hnf, hafter_in, hafter_rel⟩ :=
    first_block_of_wire R enc rel aS _ macv k hci hrel (by omega) hk hin
  rw [read_frame_cipher_first env R hw (by rw [hdb]; omega) havail hnf]
  have hbs : (after_first_block R).remote.crypt.blocksize = enc.blocksize := hdb
  have hpl : libssh2_ntohu32 (first_block R) = write_packet_length Z.length enc.blocksize := by
    rw [hfb]; exact write_frame_packet_length Z _ _ (by omega) (by omega)
  have hpad : (first_block R).getD 4 0 = write_padding_length Z.length enc.blocksize := by
    rw [hfb]; exact write_frame_padding_length Z _ _ (by omega) (by omega)
  have hplen : toULong env.ulong_bits
      ((write_packet_length Z.length enc.blocksize : Nat) - 1 : Int) =
      write_packet_length Z.length enc.blocksize - 1 :=
    toULong_sub_one _ _ (by omega) (by omega)
  have halign := packet_length_aligned Z.length enc.blocksize (by omega)
  simp only [read_after_first_block, hbs, hpl, hpad, hplen]
  rw [if_neg (by omega)]
  have hmod : (write_packet_length Z.length enc.blocksize + 4) % 2 ^ env.ulong_bits =
      write_packet_length Z.length enc.blocksize + 4 := Nat.mod_eq_of_lt (by omega)
  rw [hmod, if_neg (by unfold LIBSSH2_PACKET_MAXPAYLOAD; rw [halign]; omega)]
  -- the remaining blocks
  have hrestlen : ((write_frame Z enc.blocksize).drop enc.blocksize).length = k * enc.blocksize := by
    rw [List.length_drop]; omega
  have hacc : (List.drop 5 (first_block R)).take (enc.blocksize - 5) =
      ((write_frame Z enc.blocksize).take enc.blocksize).drop 5 := by
    rw [hfb]
    apply List.take_of_length_le
    rw [List.length_drop, List.length_take]; omega
  have hk1 : k ≤ (write_frame Z enc.blocksize).length - 1 := by omega
  have hk2 : k < write_packet_length Z.length enc.blocksize - 1 + 1 := by omega
  obtain ⟨_, aR', _, hread⟩ := read_blocks_stream env enc R.remote.crypt rel hci hw (by omega)
    (by omega) k ((write_frame Z enc.blocksize).drop enc.blocksize)
    ((write_frame Z enc.blocksize).length - 1)
    (enc.crypt aS ((write_frame Z enc.blocksize).take enc.blocksize)).2.1
    (after_first_block R).remote.crypt_abstract (after_first_block R)
    (((write_frame Z enc.blocksize).take enc.blocksize).drop 5) (enc.blocksize - 5) macv
    (write_packet_length Z.length enc.blocksize - 1 + 1)
    hrestlen hk1 hk2 hafter_rel rfl rfl hafter_in
  have htarget : enc.blocksize - 5 + ((write_frame Z enc.blocksize).drop enc.blocksize).length =
      write_packet_length Z.length enc.blocksize - 1 := by
    rw [List.length_drop]; omega
  rw [htarget] at hread
  rw [hacc, hread]
  simp only
  have hpayload : ((write_frame Z enc.blocksize).take enc.blocksize).drop 5 ++
      (write_frame Z enc.blocksize).drop enc.blocksize =
      Z ++ List.replicate (write_padding_length Z.length enc.blocksize) 0 := by
    rw [← List.drop_append_of_le_length (by rw [List.length_take]; omega),
      List.take_append_drop, write_frame_drop5]
  rw [hpayload]
  refine ⟨aR', ?_⟩
  congr 1
  have hmaclen : macv.length = R.remote.mac.mac_len := by rw [hmacv]; exact hmm.2 _ _ _ _
  have hlenZ : (Z ++ List.replicate (write_padding_length Z.length enc.blocksize) 0).length =
      write_packet_length Z.length enc.blocksize - 1 := by
    rw [List.length_append, List.length_replicate]; omega
  refine (read_mac_and_finish_ok env _ _ _ _ _ ?_ ?_ ?_).trans ?_
  · exact hml
  · exact hmaclen
  · dsimp only [after_first_block]
    rw [List.take_of_length_le (le_of_eq hlenZ), List.take_take, Nat.min_self, hfb,
      take_take_of_le _ _ _ (by omega), write_frame_take5, hmm.1, hmacv]
    congr 1
  · have : toULong env.ulong_bits
        (((write_packet_length Z.length enc.blocksize - 1 : Nat) : Int) -
          (write_padding_length Z.length enc.blocksize : Nat)) = Z.length := by
      have h1 : (((write_packet_length Z.length enc.blocksize - 1 : Nat) : Int) -
          (write_padding_length Z.length enc.blocksize : Nat)) = ((Z.length : Nat) : Int) := by
        omega
      rw [h1]; exact toULong_of_nat _ _ (by omega)
    rw [this]
    rfl
theorem packet_write_cipher (S : Session) (P Z a1 : List Nat) (hSk : S.newkeys = true)
    (hz : run_comp S.local_.comp S.local_.comp_abstract true LIBSSH2_PACKET_MAXCOMP P = (0, a1, Z))
    (hlen : (encrypt_blocks S.local_.crypt (write_frame Z S.local_.crypt.blocksize).length
      S.local_.crypt_abstract (write_frame Z S.local_.crypt.blocksize)).2.length =
        (write_frame Z S.local_.crypt.blocksize).length)
    (hml : (S.local_.mac.hash S.local_.mac_abstract S.local_.seqno
      (write_frame Z S.local_.crypt.blocksize) []).length = S.local_.mac.mac_len)
    (hroom : 4 + write_packet_length Z.length S.local_.crypt.blocksize + S.local_.mac.mac_len ≤
      S.sock_room) :
    (libssh2_packet_write S P).1 = 0 ∧
    (libssh2_packet_write S P).2.sock_out = S.sock_out ++
      ((encrypt_blocks S.local_.crypt (write_frame Z S.local_.crypt.blocksize).length
        S.local_.crypt_abstract (write_frame Z S.local_.crypt.blocksize)).2 ++
       S.local_.mac.hash S.local_.mac_abstract S.local_.seqno
        (write_frame Z S.local_.crypt.blocksize) []) ∧
    (libssh2_packet_write S P).2.local_.seqno = seqno_incr S.local_.seqno := by
  have hfl := write_frame_length Z S.local_.crypt.blocksize
  have htot : ((encrypt_blocks S.local_.crypt (write_frame Z S.local_.crypt.blocksize).length
        S.local_.crypt_abstract (write_frame Z S.local_.crypt.blocksize)).2 ++
       S.local_.mac.hash S.local_.mac_abstract S.local_.seqno
        (write_frame Z S.local_.crypt.blocksize) []).length =
      4 + write_packet_length Z.length S.local_.crypt.blocksize + S.local_.mac.mac_len := by
    rw [List.length_append, hlen, hml, hfl]
  simp only [libssh2_packet_write, hSk, if_true, hz, ne_eq, not_true_eq_false, if_false,
    sock_write, htot, Nat.min_eq_left hroom]
  rw [List.take_of_length_le (by rw [htot]; exact hroom)]
  simp
theorem read_decompress_run_comp (s : Session) (Z pad P : List Nat)
    (hd1 : (run_comp s.remote.comp s.remote.comp_abstract false LIBSSH2_PACKET_MAXDECOMP Z).1 = 0)
    (hd2 : (run_comp s.remote.comp s.remote.comp_abstract false LIBSSH2_PACKET_MAXDECOMP Z).2.2 = P) :
    ∃ f s1, read_decompress s (Z ++ pad) Z.length MacState.confirmed = Step.next f s1 ∧
      f.payload.take f.payload_len = P ∧ f.payload_len = P.length ∧
      f.macstate = MacState.confirmed ∧ s1.remote.seqno = s.remote.seqno ∧
      s1.sock_in = s.sock_in := by
  unfold read_decompress
  unfold run_comp at hd1 hd2
  cases hc : s.remote.comp with
  | none =>
    simp only [hc] at hd1 hd2 ⊢
    subst hd2
    exact ⟨_, _, rfl, List.take_left' rfl, rfl, rfl, rfl, rfl⟩
  | some c =>
    simp only [hc] at hd1 hd2 ⊢
    by_cases hn : (c.name != "none") = true
    · simp only [hn, if_true] at hd1 hd2 ⊢
      rw [List.take_left' rfl, if_neg (by rw [hd1]; simp)]
      refine ⟨_, _, rfl, ?_, ?_, rfl, rfl, rfl⟩
      · simp only [hd2]; exact List.take_of_length_le (Nat.le_refl _)
      · simp only [hd2]
    · simp only [hn] at hd1 hd2 ⊢
      subst hd2
      exact ⟨_, _, rfl, List.take_left' rfl, rfl, rfl, rfl, rfl⟩

theorem wire_of_write (env : Env) (S R : Session) (P Z a1 : List Nat)
    (rel : List Nat → List Nat → Prop)
    (hw : 32 ≤ env.ulong_bits) (hSk : S.newkeys = true)
    (hci : CipherInverse S.local_.crypt R.remote.crypt rel)
    (hrel : rel S.local_.crypt_abstract R.remote.crypt_abstract)
    (hb8 : 8 ≤ S.local_.crypt.blocksize) (hb252 : S.local_.crypt.blocksize ≤ 252)
    (hmm : MacOfMessage S.local_.mac)
    (hz : run_comp S.local_.comp S.local_.comp_abstract true LIBSSH2_PACKET_MAXCOMP P = (0, a1, Z))
    (hroom : 4 + write_packet_length Z.length S.local_.crypt.blocksize + S.local_.mac.mac_len ≤
      S.sock_room)
    (hwire : (libssh2_packet_write S P).2.sock_out = S.sock_out ++ R.sock_in) :
    (libssh2_packet_write S P).1 = 0 ∧
    (libssh2_packet_write S P).2.local_.seqno = seqno_incr S.local_.seqno ∧
    R.sock_in =
      (encrypt_blocks S.local_.crypt (write_frame Z S.local_.crypt.blocksize).length
        S.local_.crypt_abstract (write_frame Z S.local_.crypt.blocksize)).2 ++
      S.local_.mac.hash S.local_.mac_abstract S.local_.seqno
        (write_frame Z S.local_.crypt.blocksize) [] := by
  obtain ⟨k, hk⟩ := write_frame_blocks Z S.local_.crypt.blocksize (by omega)
  have hkb : k + 1 ≤ (k + 1) * S.local_.crypt.blocksize :=
    Nat.le_mul_of_pos_right (k + 1) (by omega)
  have hlen := (read_blocks_stream env S.local_.crypt R.remote.crypt rel hci hw (by omega)
    (by omega) (k + 1) (write_frame Z S.local_.crypt.blocksize)
    (write_frame Z S.local_.crypt.blocksize).length S.local_.crypt_abstract
    R.remote.crypt_abstract
    { R with sock_in := (encrypt_blocks S.local_.crypt
        (write_frame Z S.local_.crypt.blocksize).length S.local_.crypt_abstract
        (write_frame Z S.local_.crypt.blocksize)).2 ++ [] } [] 0 [] (k + 2)
    hk (by rw [hk]; exact hkb) (by omega) hrel rfl rfl rfl).1
  obtain ⟨hret, hout, hsq⟩ := packet_write_cipher S P Z a1 hSk hz hlen (hmm.2 _ _ _ _) hroom
  rw [hout] at hwire
  exact ⟨hret, hsq, (List.append_cancel_left hwire).symm⟩

theorem read_too_long (env : Env) (R : Session) (enc : CryptMethod)
    (rel : List Nat → List Nat → Prop) (aS Z macv : List Nat)
    (hw : 32 ≤ env.ulong_bits) (hRk : R.newkeys = true)
    (hRc : R.socket_state = SocketState.connected)
    (hci : CipherInverse enc R.remote.crypt rel) (hrel : rel aS R.remote.crypt_abstract)
    (hb8 : 8 ≤ enc.blocksize) (hb252 : enc.blocksize ≤ 252)
    (hin : R.sock_in = (encrypt_blocks enc (write_frame Z enc.blocksize).length aS
      (write_frame Z enc.blocksize)).2 ++ macv)
    (hZ : Z.length < 2 ^ 31)
    (hsize : LIBSSH2_PACKET_MAXPAYLOAD < Z.length + write_padding_length Z.length enc.blocksize) :
    libssh2_packet_read env R true =
      some (-1, libssh2_error
        { after_first_block R with socket_state := SocketState.disconnected } ErrorCode.PROTO) := by
  have h32 := two_pow_32_le _ hw
  have hdb := hci.1
  obtain ⟨k, hk⟩ := write_frame_blocks Z enc.blocksize (by omega)
  have hpb := padding_bounds Z.length enc.blocksize (by omega)
  have hplv : write_packet_length Z.length enc.blocksize =
      Z.length + 1 + write_padding_length Z.length enc.blocksize := rfl
  obtain ⟨havail, hfb, hnf, _, _⟩ :=
    first_block_of_wire R enc rel aS _ macv k hci hrel (by omega) hk hin
  have hbs : (after_first_block R).remote.crypt.blocksize = enc.blocksize := hdb
  have hpl : libssh2_ntohu32 (first_block R) = write_packet_length Z.length enc.blocksize := by
    rw [hfb]; exact write_frame_packet_length Z _ _ (by omega) (by omega)
  have hplen : toULong env.ulong_bits
      ((write_packet_length Z.length enc.blocksize : Nat) - 1 : Int) =
      write_packet_length Z.length enc.blocksize - 1 :=
    toULong_sub_one _ _ (by omega) (by omega)
  unfold libssh2_packet_read packet_read_frame
  rw [if_neg (by rw [hRc]; decide), if_pos hRk,
    read_frame_cipher_first env R hw (by rw [hdb]; omega) havail hnf]
  simp only [read_after_first_block, hbs, hpl, hplen]
  rw [if_neg (by omega), if_pos (Or.inl (by omega))]

/-- C1 (round trip), as amended. Keys are active on both sides. The
receiver's cipher undoes the sender's block by block (`CipherInverse`, block
size between 8 and 252), both use one MAC of the message bytes with the same
key state (`MacOfMessage`), the sequence numbers are equal, the sender's
compressor turns `P` into `Z` and the receiver's decompressor turns `Z` back
into `P`, and the framed length `|Z| + padding_length` is at most
MAX_PAYLOAD. Then `libssh2_packet_write S P` succeeds and advances
`local.seqno` by one; and when the receiver's socket holds exactly the bytes
written, the blocking `libssh2_packet_read` decodes a frame whose payload is
exactly `P`, with MAC status Confirmed, advances `remote.seqno` by one,
leaves nothing on the socket, and hands that frame to the dispatcher. -/
theorem round_trip (env : Env) (S R : Session) (P Z a1 : List Nat)
    (rel : List Nat → List Nat → Prop)
    (hw : 32 ≤ env.ulong_bits)
    (hSk : S.newkeys = true) (hRk : R.newkeys = true)
    (hRc : R.socket_state = SocketState.connected)
    (hci : CipherInverse S.local_.crypt R.remote.crypt rel)
    (hrel : rel S.local_.crypt_abstract R.remote.crypt_abstract)
    (hb8 : 8 ≤ S.local_.crypt.blocksize) (hb252 : S.local_.crypt.blocksize ≤ 252)
    (hmac : R.remote.mac = S.local_.mac) (hkey : R.remote.mac_abstract = S.local_.mac_abstract)
    (hmm : MacOfMessage S.local_.mac) (hml : S.local_.mac.mac_len < 2 ^ 31)
    (hseq : R.remote.seqno = S.local_.seqno)
    (hz : run_comp S.local_.comp S.local_.comp_abstract true LIBSSH2_PACKET_MAXCOMP P = (0, a1, Z))
    (hd1 : (run_comp R.remote.comp R.remote.comp_abstract false LIBSSH2_PACKET_MAXDECOMP Z).1 = 0)
    (hd2 : (run_comp R.remote.comp R.remote.comp_abstract false LIBSSH2_PACKET_MAXDECOMP Z).2.2 = P)
    (hsize : Z.length + write_padding_length Z.length S.local_.crypt.blocksize ≤
      LIBSSH2_PACKET_MAXPAYLOAD)
    (hroom : 4 + write_packet_length Z.length S.local_.crypt.blocksize + S.local_.mac.mac_len ≤
      S.sock_room)
    (hwire : (libssh2_packet_write S P).2.sock_out = S.sock_out ++ R.sock_in) :
    (libssh2_packet_write S P).1 = 0 ∧
    (libssh2_packet_write S P).2.local_.seqno = seqno_incr S.local_.seqno ∧
    ∃ f R1 ret, packet_read_frame env R true = some (Step.next f R1) ∧
      f.payload.take f.payload_len = P ∧ f.payload_len = P.length ∧
      f.macstate = MacState.confirmed ∧
      R1.remote.seqno = seqno_incr R.remote.seqno ∧ R1.sock_in = [] ∧
      libssh2_packet_read env R true =
        some (ret, (libssh2_packet_add env R1 f.payload f.payload_len f.macstate).session) := by
  obtain ⟨hret, hsq, hin⟩ := wire_of_write env S R P Z a1 rel hw hSk hci hrel hb8 hb252 hmm hz
    hroom hwire
  obtain ⟨aR', hread⟩ := read_frame_of_wire env R S.local_.crypt rel S.local_.crypt_abstract Z
    (S.local_.mac.hash S.local_.mac_abstract S.local_.seqno
      (write_frame Z S.local_.crypt.blocksize) [])
    hw hci hrel hb8 hb252 (by rw [hmac]; exact hmm) (by rw [hmac]; exact hml)
    (by rw [hmac, hkey, hseq]) hin hsize
  obtain ⟨f, R1, hdec, hp, hpl, hms, hs1, hs2⟩ := read_decompress_run_comp
    { R with sock_in := [],
             remote := { R.remote with crypt_abstract := aR',
                                       seqno := seqno_incr R.remote.seqno } }
    Z (List.replicate (write_padding_length Z.length S.local_.crypt.blocksize) 0) P hd1 hd2
  rw [hdec] at hread
  have hframe : packet_read_frame env R true = some (Step.next f R1) := by
    unfold packet_read_frame; rw [if_pos hRk]; exact hread
  refine ⟨hret, hsq, f, R1,
    ((if (libssh2_packet_add env R1 f.payload f.payload_len f.macstate).data_freed then
        env.freed_byte f.payload else f.payload.getD 0 0 : Nat) : Int),
    hframe, hp, hpl, hms, hs1, hs2, ?_⟩
  unfold libssh2_packet_read
  rw [if_neg (by rw [hRc]; decide), hframe]
  simp only [hRk, if_true]

/-! ## The concrete methods meet the hypotheses of the round trip -/

theorem xor_cipher_inverse (b : Nat) : CipherInverse (xor_cipher b) (xor_cipher b) Eq := by
  refine ⟨rfl, ?_⟩
  intro a a1 block hrel hlen
  subst hrel
  refine ⟨?_, ?_, Or.inr rfl, rfl⟩
  · simp [xor_cipher, hlen]
  · simp only [xor_cipher, List.map_map]
    conv => rhs; rw [← List.map_id block]
    apply List.map_congr_left
    intro x _
    exact Nat.xor_cancel_right _ _

theorem null_cipher_inverse (b : Nat) :
    CipherInverse (null_cipher b) (null_cipher b) (fun _ _ => True) := by
  refine ⟨rfl, ?_⟩
  intro a a1 block _ hlen
  exact ⟨hlen, rfl, Or.inl rfl, trivial⟩

theorem sum_mac_of_message : MacOfMessage sum_mac := by
  constructor
  · intro a seqno p1 p2
    simp [sum_mac]
  · intro a seqno p1 p2
    simp [sum_mac, libssh2_htonu32]

/-- Witness of `round_trip`: the payload `[21, 1, 2, 3, 4]`, xor cipher with
8-byte blocks, checksum MAC, the toy compression. -/
theorem round_trip_witness :
    (libssh2_packet_write demo_sender demo_payload).1 = 0 ∧
    (libssh2_packet_write demo_sender demo_payload).2.local_.seqno =
      seqno_incr demo_sender.local_.seqno ∧
    ∃ f R1 ret, packet_read_frame demo_env demo_receiver true = some (Step.next f R1) ∧
      f.payload.take f.payload_len = demo_payload ∧ f.payload_len = demo_payload.length ∧
      f.macstate = MacState.confirmed ∧
      R1.remote.seqno = seqno_incr demo_receiver.remote.seqno ∧ R1.sock_in = [] ∧
      libssh2_packet_read demo_env demo_receiver true =
        some (ret, (libssh2_packet_add demo_env R1 f.payload f.payload_len f.macstate).session) :=
  round_trip demo_env demo_sender demo_receiver demo_payload (120 :: demo_payload) [] Eq
    (by decide) rfl rfl rfl (xor_cipher_inverse 8) rfl (by decide) (by decide) rfl rfl
    sum_mac_of_message (by decide) rfl (by decide) (by decide) (by decide) (by decide)
    (by decide) rfl
/-- Counterexample to C1 as stated: a payload of exactly MAX_PAYLOAD = 40 000
bytes, sent with an identity cipher of block size 8 and no compression, is
written successfully (11 bytes of padding, `packet_length = 40012`), but the
blocking read of the bytes sent fails: it returns -1 with PROTO raised, the
session Disconnected and nothing queued, because the receiver bounds
`packet_length - 1`, which counts the padding. -/
theorem round_trip_counterexample :
    long_payload.length ≤ LIBSSH2_PACKET_MAXPAYLOAD ∧
    (libssh2_packet_write long_sender long_payload).1 = 0 ∧
    ∃ s1, libssh2_packet_read demo_env long_receiver true = some (-1, s1) ∧
      s1.socket_state = SocketState.disconnected ∧
      s1.errors = [ErrorCode.PROTO] ∧ s1.packets = [] := by
  have hlen : long_payload.length = 40000 := List.length_replicate _ _
  have hz : run_comp long_sender.local_.comp long_sender.local_.comp_abstract true
      LIBSSH2_PACKET_MAXCOMP long_payload = (0, [], long_payload) := rfl
  have hroom : 4 + write_packet_length long_payload.length long_sender.local_.crypt.blocksize +
      long_sender.local_.mac.mac_len ≤ long_sender.sock_room := by
    rw [hlen]; decide
  have hsin : long_receiver.sock_in = (libssh2_packet_write long_sender long_payload).2.sock_out :=
    rfl
  have hwire : (libssh2_packet_write long_sender long_payload).2.sock_out =
      long_sender.sock_out ++ long_receiver.sock_in := by
    rw [hsin]; exact (List.nil_append _).symm
  obtain ⟨hret, _, hin⟩ := wire_of_write demo_env long_sender long_receiver long_payload
    long_payload [] (fun _ _ => True) (by decide) rfl (null_cipher_inverse 8) trivial
    (by decide) (by decide) sum_mac_of_message hz hroom hwire
  have hread := read_too_long demo_env long_receiver (null_cipher 8) (fun _ _ => True) [7]
    long_payload _ (by decide) rfl rfl (null_cipher_inverse 8) trivial (by decide) (by decide)
    hin (by rw [hlen]; decide) (by rw [hlen]; decide)
  exact ⟨by rw [hlen]; decide, hret, _, hread, rfl, rfl, rfl⟩

/-! ## The dispatcher on packets it queues whole -/

theorem verify_mac_keeps (s : Session) (received tmp payload : List Nat) (payload_len : Nat) :
    (verify_mac s received tmp payload payload_len).2.socket_state = s.socket_state ∧
    (verify_mac s received tmp payload payload_len).2.packets = s.packets ∧
    (verify_mac s received tmp payload payload_len).2.sock_in = s.sock_in := by
  simp only [verify_mac]
  split_ifs <;> exact ⟨rfl, rfl, rfl⟩

theorem read_frame_plain_ok (env : Env) (s : Session) (payload padding rest : List Nat)
    (hw : 32 ≤ env.ulong_bits)
    (hin : s.sock_in = libssh2_htonu32 (payload.length + padding.length + 1) ++
      [padding.length] ++ payload ++ padding ++ rest)
    (hpl : payload.length + padding.length + 1 < 2 ^ 31) (hpad : padding.length ≤ 24) :
    read_frame_plain env s true =
      some (Step.next ⟨payload, payload.length, MacState.confirmed⟩ { s with sock_in := rest }) := by
  have h32 := two_pow_32_le _ hw
  have hhdr : (libssh2_htonu32 (payload.length + padding.length + 1) ++ [padding.length]).length
      = 5 := by simp [libssh2_htonu32]
  have hin2 : s.sock_in = (libssh2_htonu32 (payload.length + padding.length + 1) ++
      [padding.length]) ++ (payload ++ (padding ++ rest)) := by
    rw [hin]; simp only [List.append_assoc]
  have hav : 5 ≤ s.sock_in.length := by rw [hin2, List.length_append, hhdr]; omega
  have htake : s.sock_in.take 5 = libssh2_htonu32 (payload.length + padding.length + 1) ++
      [padding.length] := by rw [hin2, List.take_left' hhdr]
  have hdrop : s.sock_in.drop 5 = payload ++ (padding ++ rest) := by
    rw [hin2, List.drop_left' hhdr]
  have hpre : read_preamble_plain env s true =
      some (Step.next (s.sock_in.take 5) { s with sock_in := s.sock_in.drop 5 }) := by
    simp only [read_preamble_plain, if_true, blocking_read_ok s 5 hav]
    rw [toInt32_of_lt _ (by omega), toULong_of_nat _ _ (by omega)]
    simp [hav]
  have hlenv : libssh2_ntohu32 (s.sock_in.take 5) = payload.length + padding.length + 1 := by
    rw [htake]; exact ntohu32_htonu32 _ (by omega) _
  have hpadv : (s.sock_in.take 5).getD 4 0 = padding.length := by
    rw [htake]; simp [libssh2_htonu32]
  have hplen : toULong env.ulong_bits
      (((payload.length + padding.length + 1 : Nat) : Int) - (padding.length : Nat) - 1) =
      payload.length := by
    have : (((payload.length + padding.length + 1 : Nat) : Int) - (padding.length : Nat) - 1) =
        ((payload.length : Nat) : Int) := by omega
    rw [this]; exact toULong_of_nat _ _ (by omega)
  simp only [read_frame_plain, hpre, hlenv, hpadv, hplen]
  have hav2 : payload.length ≤
      ({ s with sock_in := s.sock_in.drop 5 } : Session).sock_in.length := by
    show payload.length ≤ (s.sock_in.drop 5).length
    rw [hdrop, List.length_append]; omega
  rw [blocking_read_ok _ _ hav2]
  simp only
  rw [toInt32_of_lt _ (by omega), toULong_of_nat _ _ (by omega), if_neg (by omega), hdrop,
    List.take_left' rfl, List.drop_left' rfl, if_neg (by omega), if_neg (by omega)]
  have hav3 : padding.length ≤
      ({ s with sock_in := padding ++ rest } : Session).sock_in.length := by
    show padding.length ≤ (padding ++ rest).length
    rw [List.length_append]; omega
  rw [blocking_read_ok _ _ hav3]
  simp only [List.take_left' rfl, List.drop_left' rfl, Nat.lt_irrefl, if_false]

/-! ## `libssh2_packet_require_ex` on a stream of queued frames -/

theorem brigade_scan_append_last (t o : Nat) (m : Option (List Nat)) (len : Nat) (x : Packet)
    (hx : packet_matches x t o m len = true) :
    ∀ pre : List Packet, (∀ p ∈ pre, packet_matches p t o m len = false) →
      brigade_scan t o m len (pre ++ [x]) = some (pre, x, []) := by
  intro pre
  induction pre with
  | nil => intro _; simp [brigade_scan, hx]
  | cons p rest ih =>
    intro h
    have hp : packet_matches p t o m len = false := h p (List.mem_cons_self _ _)
    have hrest := ih (fun q hq => h q (List.mem_cons_of_mem _ hq))
    show brigade_scan t o m len (p :: (rest ++ [x])) = _
    rw [brigade_scan]
    simp only [hp, Bool.false_eq_true, if_false, hrest]

theorem clear_frame_header_length (f : WireFrame) :
    (libssh2_htonu32 (f.payload.length + f.padding.length + 1) ++ [f.padding.length]).length = 5 := by
  simp [libssh2_htonu32]

theorem clear_frame_take5 (f : WireFrame) :
    (clear_frame f).take 5 =
      libssh2_htonu32 (f.payload.length + f.padding.length + 1) ++ [f.padding.length] := by
  unfold clear_frame
  rw [List.append_assoc, List.take_left' (clear_frame_header_length f)]

/-- C4, the code at the failing input: asked for a CHANNEL_DATA packet whose
bytes at offset 1 are `[0, 0, 0, 1]` (channel 1), `libssh2_packet_ask_ex`
returns Found with a packet whose bytes at offset 1 are `[0, 0, 0, 2]`:
`strncmp` stops at the NUL byte the two share. -/
theorem ask_returns_mismatching_entry :
    (libssh2_packet_ask_ex demo_env channel_two_session 94 1 (some [0, 0, 0, 1]) 4 false).map
        (fun r => (r.ret, r.data, r.session.packets)) =
      some (0, some [94, 0, 0, 0, 2, 0, 0, 0, 1, 65], []) ∧
    ([94, 0, 0, 0, 2, 0, 0, 0, 1, 65].drop 1).take 4 ≠ [0, 0, 0, 1] := by
  decide

/-- C7, the code at the failing inputs. A frame with an Invalid MAC and no
mac-error callback: the dispatcher raises INVALID_MAC, returns -1 and queues
nothing, yet `libssh2_packet_read` returns the message type 21. A
DISCONNECT: the dispatcher returns -1 and disconnects the session, yet
`libssh2_packet_read` returns the byte it reads from the freed payload (0
here), not -1. -/
theorem read_ignores_dispatcher_failure :
    (packet_read_frame demo_env tampered_mac_session true).map
        (fun st => match st with
          | Step.next f s => (libssh2_packet_add demo_env s f.payload f.payload_len f.macstate).ret
          | Step.ret _ _ => 0) = some (-1) ∧
    (libssh2_packet_read demo_env tampered_mac_session true).map
        (fun r => (r.1, r.2.errors, r.2.packets)) =
      some (21, [ErrorCode.other (-255), ErrorCode.INVALID_MAC], []) ∧
    (packet_read_frame demo_env disconnect_session true).map
        (fun st => match st with
          | Step.next f s => (libssh2_packet_add demo_env s f.payload f.payload_len f.macstate).ret
          | Step.ret _ _ => 0) = some (-1) ∧
    (libssh2_packet_read demo_env disconnect_session true).map
        (fun r => (r.1, r.2.socket_state, r.2.packets)) =
      some (0, SocketState.disconnected, []) := by
  decide

/-- C8, the code at the failing input: the MAC recomputed for the frame is
`[0, 0, 0, 59]`, the MAC received is `[0, 0, 0, 58]` (one bit flipped), and
the frame is decoded with MAC status Confirmed and queued. -/
theorem flipped_mac_bit_is_confirmed :
    sum_mac.hash [7] 3 [0, 0, 0, 12, 6] [21, 1, 2, 3, 4, 0, 0, 0, 0, 0, 0] = [0, 0, 0, 59] ∧
    bitflip_mac_session.sock_in.drop 16 = [0, 0, 0, 58] ∧
    (packet_read_frame demo_env bitflip_mac_session true).map
        (fun st => match st with
          | Step.next f _ => some f.macstate
          | Step.ret _ _ => none) = some (some MacState.confirmed) ∧
    (libssh2_packet_read demo_env bitflip_mac_session true).map
        (fun r => (r.1, r.2.errors, r.2.packets.map (fun p => p.mac))) =
      some (21, [], [MacState.confirmed]) := by
  decide

/-- C10, the code at the failing inputs. In cipher mode a frame with
`packet_length = 12` and `padding_length = 200` passes the sanity check and
the MAC check, and the payload length handed to the dispatcher and queued is
`11 - 200` wrapped to `4294967107` (32-bit `unsigned long`), where
`packet_length - padding_length - 1` is negative. In plaintext mode,
where no bound is checked, a frame with a payload of 40 001 bytes is decoded
and handed to the dispatcher with payload length 40 001, above MAX_PAYLOAD. -/
theorem payload_length_out_of_bounds :
    (libssh2_packet_read demo_env overlong_padding_session true).map
        (fun r => (r.1, r.2.packets.map (fun p => (p.data_len, p.mac)))) =
      some (21, [(4294967107, MacState.confirmed)]) ∧
    ((12 : Int) - 200 - 1 < 0) ∧
    packet_read_frame demo_env big_plain_session true =
      some (Step.next ⟨List.replicate 40001 21, 40001, MacState.confirmed⟩
        { big_plain_session with sock_in := [] }) ∧
    LIBSSH2_PACKET_MAXPAYLOAD < 40001 := by
  refine ⟨by decide, by decide, ?_, by decide⟩
  have h := read_frame_plain_ok demo_env big_plain_session (List.replicate 40001 21)
    [0, 0, 0, 0] [] (by decide) (by rw [List.length_replicate]; rfl)
    (by rw [List.length_replicate]; decide) (by decide)
  rw [List.length_replicate] at h
  unfold packet_read_frame
  rw [if_neg (by decide)]
  exact h

/-! ## Non-blocking reads -/

theorem read_first_block_nonblocking (env : Env) (s : Session) (hw : 32 ≤ env.ulong_bits)
    (hb0 : 0 < s.remote.crypt.blocksize) (hb : s.remote.crypt.blocksize < 2 ^ 31)
    (havail : s.remote.crypt.blocksize ≤ s.sock_in.length) :
    read_first_block env s false = read_first_block env s true := by
  rw [read_first_block_ok env s hw hb havail]
  obtain ⟨b, rest, hs⟩ : ∃ b rest, s.sock_in = b :: rest := by
    cases h : s.sock_in with
    | nil => rw [h] at havail; simp at havail; omega
    | cons b rest => exact ⟨b, rest, rfl⟩
  have h32 := two_pow_32_le env.ulong_bits hw
  have hbw : s.remote.crypt.blocksize < 2 ^ env.ulong_bits := by omega
  have hlen : s.remote.crypt.blocksize - 1 ≤ rest.length := by
    rw [hs] at havail; simp only [List.length_cons] at havail; omega
  have hcount : toULong env.ulong_bits ((s.remote.crypt.blocksize : Int) - 1) =
      s.remote.crypt.blocksize - 1 := toULong_sub_one _ _ hb0 hbw
  have hsum : toULong env.ulong_bits (1 + toInt32 (s.remote.crypt.blocksize - 1)) =
      s.remote.crypt.blocksize := by
    rw [toInt32_of_lt _ (by omega)]
    have : (1 : Int) + ((s.remote.crypt.blocksize - 1 : Nat) : Int) =
        ((s.remote.crypt.blocksize : Nat) : Int) := by omega
    rw [this]
    exact toULong_of_nat _ _ hbw
  simp only [read_first_block, sock_read1, hs, Bool.false_eq_true, if_false]
  rw [if_neg (by decide)]
  simp only [hcount, libssh2_blocking_read]
  rw [if_pos hlen]
  simp only [hsum, lt_irrefl, if_false, List.length_append, List.length_singleton,
    List.length_take, List.singleton_append, List.take_succ_cons]
  generalize s.remote.crypt.blocksize = n at *
  obtain ⟨k, rfl⟩ : ∃ k, n = k + 1 := ⟨n - 1, by omega⟩
  simp only [Nat.add_sub_cancel] at hlen ⊢
  rw [if_neg (by simp only [List.length_cons, List.length_take]; omega)]
  simp only [List.take_succ_cons, List.drop_succ_cons]

/-- In cipher mode a non-blocking `libssh2_packet_read` on a socket that
holds the first block does what the blocking call does, and on a socket that
holds nothing it returns 0 and leaves the session as it was. -/
theorem packet_read_nonblocking_cipher (env : Env) (s : Session) (hw : 32 ≤ env.ulong_bits)
    (hnk : s.newkeys = true)
    (hb0 : 0 < s.remote.crypt.blocksize) (hb : s.remote.crypt.blocksize < 2 ^ 31) :
    (s.remote.crypt.blocksize ≤ s.sock_in.length →
      libssh2_packet_read env s false = libssh2_packet_read env s true) ∧
    (s.sock_in = [] → s.socket_state = SocketState.connected →
      libssh2_packet_read env s false = some (0, s)) := by
  constructor
  · intro havail
    simp only [libssh2_packet_read, packet_read_frame, hnk, if_true, read_frame_cipher,
      read_first_block_nonblocking env s hw hb0 hb havail]
  · intro hin hconn
    simp only [libssh2_packet_read, packet_read_frame, hnk, if_true, read_frame_cipher,
      read_first_block, sock_read1, hin, hconn, Bool.false_eq_true, if_false]
    rw [if_neg (by decide)]
    simp

/-- C11 (non-blocking and blocking reads agree once data is available) fails
in plaintext mode. With the complete frame `00 00 00 0c 06 ...` waiting, the
blocking read decodes the payload `[21, 1, 2, 3, 4]` and returns 21. The
non-blocking read takes the first byte with `read(fd, buf, 1)` and then reads
the next four bytes to the start of `buf` again (line 480): `buf` then starts
`00 00 0c 06`, which reads as `packet_length = 3078` instead of 12, and
`buf[4]` is never written, so the call goes on with a length that is not in
the frame. With nothing waiting, `read` gives -1, which the `unsigned long`
`buf_len` holds as `2 ^ w - 1`: the test `buf_len <= 0` does not see it and
the call does not return 0. -/
theorem nonblocking_plain_read_diverges :
    plain_frame_session.sock_in = [0, 0, 0, 12, 6, 21, 1, 2, 3, 4, 0, 0, 0, 0, 0, 0] ∧
    (libssh2_packet_read demo_env plain_frame_session true).map
        (fun r => (r.1, r.2.packets, r.2.sock_in)) =
      some (21, [⟨[21, 1, 2, 3, 4], 5, 0, MacState.confirmed⟩], []) ∧
    (libssh2_blocking_read (sock_read1 plain_frame_session).2.2 4).2.1 = [0, 0, 12, 6] ∧
    libssh2_ntohu32 [0, 0, 12, 6] = 3078 ∧
    (libssh2_packet_read demo_env plain_frame_session false).map (fun r => r.1) = none ∧
    (sock_read1 plain_idle_session).1 = -1 ∧
    toULong demo_env.ulong_bits (-1) = 4294967295 ∧
    (libssh2_packet_read demo_env plain_idle_session false).map (fun r => r.1) = none := by
  decide

/-! ## What the dispatcher puts in the brigade -/

theorem packet_write_packets (s : Session) (data : List Nat) :
    (libssh2_packet_write s data).2.packets = s.packets := by
  unfold libssh2_packet_write
  simp only [sock_write]
  split_ifs <;> rfl

theorem packet_add_enqueue_mem (env : Env)
    (hkex : ∀ s r, ∀ p ∈ (env.libssh2_kex_exchange s r).packets, p ∈ s.packets)
    (s : Session) (data : List Nat) (datalen data_head : Nat) (macstate : MacState) :
    ∀ p ∈ (packet_add_enqueue env s data datalen data_head macstate).session.packets,
      p ∈ s.packets ∨ p.data = data := by
  intro p hp
  unfold packet_add_enqueue at hp
  simp only at hp
  split_ifs at hp
  · have := hkex _ _ p hp
    simp only [callback, List.mem_append, List.mem_singleton] at this
    rcases this with h | h
    · exact Or.inl h
    · exact Or.inr (by rw [h])
  · simp only [List.mem_append, List.mem_singleton] at hp
    rcases hp with h | h
    · exact Or.inl h
    · exact Or.inr (by rw [h])

theorem packet_add_channel_data_mem (env : Env)
    (hkex : ∀ s r, ∀ p ∈ (env.libssh2_kex_exchange s r).packets, p ∈ s.packets)
    (s : Session) (data : List Nat) (datalen : Nat) (macstate : MacState) :
    ∀ p ∈ (packet_add_channel_data env s data datalen macstate).session.packets,
      p ∈ s.packets ∨
      (p.data = data ∧ channel_unknown s data = false ∧
        (data.getD 0 0 = SSH_MSG_CHANNEL_EXTENDED_DATA → channel_ignoring s data = false)) := by
  intro p hp
  unfold packet_add_channel_data at hp
  simp only at hp
  cases hloc : libssh2_channel_locate s (libssh2_ntohu32 (data.drop 1)) with
  | none =>
    rw [hloc] at hp
    exact Or.inl hp
  | some i =>
    rw [hloc] at hp
    simp only at hp
    have hunk : channel_unknown s data = false := by
      rw [channel_unknown, hloc]; rfl
    by_cases hign : (s.channels.getD i { remote := ⟨0, 0, 0, 0, false, false, .normal⟩ }
        ).remote.extended_data_ignore_mode = ExtendedDataMode.ignore ∧
        data.getD 0 0 = SSH_MSG_CHANNEL_EXTENDED_DATA
    · rw [if_pos hign] at hp
      split_ifs at hp
      · exact Or.inl (by simpa [libssh2_error, packet_write_packets] using hp)
      · exact Or.inl (by simpa [packet_write_packets] using hp)
      · exact Or.inl hp
    · rw [if_neg hign] at hp
      have hq : data.getD 0 0 = SSH_MSG_CHANNEL_EXTENDED_DATA → channel_ignoring s data = false := by
        intro ht
        simp only [channel_ignoring, hloc, beq_eq_false_iff_ne, ne_eq]
        intro hm
        exact hign ⟨hm, ht⟩
      split_ifs at hp
      all_goals first
        | exact Or.inl hp
        | (rcases packet_add_enqueue_mem env hkex _ _ _ _ _ p hp with h | h
           · exact Or.inl h
           · exact Or.inr ⟨h, hunk, hq⟩)

theorem packet_add_switch_mem (env : Env)
    (hkex : ∀ s r, ∀ p ∈ (env.libssh2_kex_exchange s r).packets, p ∈ s.packets)
    (s : Session) (data : List Nat) (datalen : Nat) (macstate : MacState) :
    ∀ p ∈ (packet_add_switch env s data datalen macstate).session.packets,
      p ∈ s.packets ∨ (p.data = data ∧ dispatch_queues s data) := by
  intro p hp
  unfold packet_add_switch at hp
  simp only at hp
  by_cases h1 : data.getD 0 0 = SSH_MSG_DISCONNECT
  · rw [if_pos h1] at hp
    split_ifs at hp <;> exact Or.inl hp
  rw [if_neg h1] at hp
  by_cases h2 : data.getD 0 0 = SSH_MSG_IGNORE
  · rw [if_pos h2] at hp
    split_ifs at hp <;> exact Or.inl hp
  rw [if_neg h2] at hp
  by_cases h4 : data.getD 0 0 = SSH_MSG_DEBUG
  · rw [if_pos h4] at hp
    split_ifs at hp <;> exact Or.inl hp
  rw [if_neg h4] at hp
  by_cases h9 : data.getD 0 0 = SSH_MSG_CHANNEL_EXTENDED_DATA ∨ data.getD 0 0 = SSH_MSG_CHANNEL_DATA
  · rw [if_pos h9] at hp
    rcases packet_add_channel_data_mem env hkex s data datalen macstate p hp with h | ⟨ha, hb, hc⟩
    · exact Or.inl h
    · refine Or.inr ⟨ha, ?_, fun _ => hb, hc⟩
      rcases h9 with h | h <;> rw [h] <;> rfl
  rw [if_neg h9] at hp
  by_cases h96 : data.getD 0 0 = SSH_MSG_CHANNEL_EOF
  · rw [if_pos h96] at hp
    split at hp <;> exact Or.inl hp
  rw [if_neg h96] at hp
  by_cases h97 : data.getD 0 0 = SSH_MSG_CHANNEL_CLOSE
  · rw [if_pos h97] at hp
    split at hp <;> exact Or.inl hp
  rw [if_neg h97] at hp
  rcases packet_add_enqueue_mem env hkex s data datalen 0 macstate p hp with h | h
  · exact Or.inl h
  · refine Or.inr ⟨h, ?_, ?_, ?_⟩
    · simp only [inline_handled, beq_false_of_ne h1, beq_false_of_ne h2, beq_false_of_ne h4,
        beq_false_of_ne h96, beq_false_of_ne h97, Bool.or_self]
    · intro h
      exact absurd h.symm h9
    · intro h
      exact absurd (Or.inl h) h9

theorem packet_add_mem (env : Env)
    (hkex : ∀ s r, ∀ p ∈ (env.libssh2_kex_exchange s r).packets, p ∈ s.packets)
    (s : Session) (data : List Nat) (datalen : Nat) (macstate : MacState) :
    ∀ p ∈ (libssh2_packet_add env s data datalen macstate).session.packets,
      p ∈ s.packets ∨ (p.data = data ∧ dispatch_queues s data) := by
  intro p hp
  unfold libssh2_packet_add at hp
  by_cases hm : macstate = MacState.invalid
  · rw [if_pos hm] at hp
    cases hcb : s.macerror with
    | none =>
      rw [hcb] at hp
      simp only [packet_add_mac_failure] at hp
      split_ifs at hp <;> exact Or.inl hp
    | some f =>
      rw [hcb] at hp
      simp only at hp
      split_ifs at hp
      · exact packet_add_switch_mem env hkex (callback s (Event.macerror data datalen)) data datalen
          MacState.confirmed p hp
      · simp only [packet_add_mac_failure] at hp
        split_ifs at hp <;> exact Or.inl hp
  · rw [if_neg hm] at hp
    exact packet_add_switch_mem env hkex s data datalen macstate p hp

theorem ask_scan_mem (s : Session) (t o : Nat) (m : Option (List Nat)) (len : Nat) :
    ∀ p ∈ (packet_ask_scan s t o m len).session.packets, p ∈ s.packets := by
  intro p hp
  unfold packet_ask_scan at hp
  cases hscan : brigade_scan t o m len s.packets with
  | none => rw [hscan] at hp; exact hp
  | some r =>
    obtain ⟨before, found, after⟩ := r
    rw [hscan] at hp
    obtain ⟨hl, _, _⟩ := brigade_scan_some t o m len s.packets before after found hscan
    rw [hl]
    simp only [List.mem_append] at hp
    simp only [List.mem_append, List.mem_cons]
    tauto

theorem brigade_run_append (env : Env) (s : Session) (ops : List BrigadeOp) (op : BrigadeOp) :
    brigade_run env s (ops ++ [op]) = brigade_step env (brigade_run env s ops) op := by
  simp only [brigade_run, List.foldl_append, List.foldl_cons, List.foldl_nil]

theorem dispatch_step_mem (env : Env) (s : Session) (data : List Nat) (datalen : Nat)
    (macstate : MacState) :
    ∀ p ∈ (dispatch_step env s data datalen macstate).packets,
      p ∈ s.packets ∨ (p.data = data ∧ dispatch_queues s data) :=
  packet_add_mem { env with libssh2_kex_exchange := fun s _ => s } (fun _ _ _ h => h) s data
    datalen macstate

theorem engine_entries (env : Env) (a s : Session) (log : List (List Nat × Session))
    (h : Engine env a log s) :
    ∀ p ∈ s.packets, p ∈ a.packets ∨
      ∃ s1, (p.data, s1) ∈ log ∧ dispatch_queues s1 p.data := by
  induction h with
  | start => intro p hp; exact Or.inl hp
  | @dispatch s2 log2 data datalen macstate _ ih =>
    intro p hp
    rcases dispatch_step_mem env _ data datalen macstate p hp with h | ⟨hd, hq⟩
    · rcases ih p h with h1 | ⟨s1, h1, h2⟩
      · exact Or.inl h1
      · exact Or.inr ⟨s1, List.mem_append_left _ h1, h2⟩
    · refine Or.inr ⟨s2, List.mem_append_right _ (List.mem_singleton.mpr ?_), ?_⟩
      · rw [hd]
      · rw [hd]; exact hq
  | remove t o m len _ ih =>
    intro p hp
    exact ih p (ask_scan_mem _ t o m len p hp)
  | other s1 _ hpk ih =>
    intro p hp
    rw [hpk] at hp
    exact ih p hp

theorem engine_trans (env : Env) (a b c : Session) (l1 l2 : List (List Nat × Session))
    (h1 : Engine env a l1 b) (h2 : Engine env b l2 c) : Engine env a (l1 ++ l2) c := by
  induction h2 with
  | start => rw [List.append_nil]; exact h1
  | dispatch data datalen macstate _ ih =>
    rw [← List.append_assoc]
    exact Engine.dispatch data datalen macstate ih
  | remove t o m len _ ih => exact Engine.remove t o m len ih
  | other s1 _ hpk ih => exact Engine.other s1 ih hpk

theorem packet_add_enqueue_cases (env : Env) (s : Session) (data : List Nat)
    (datalen data_head : Nat) (macstate : MacState) :
    (packet_add_enqueue env s data datalen data_head macstate).session =
      (packet_add_enqueue { env with libssh2_kex_exchange := fun s _ => s } s data datalen
        data_head macstate).session ∨
    (packet_add_enqueue env s data datalen data_head macstate).session =
      env.libssh2_kex_exchange
        (packet_add_enqueue { env with libssh2_kex_exchange := fun s _ => s } s data datalen
          data_head macstate).session 1 := by
  unfold packet_add_enqueue
  simp only
  split_ifs
  · exact Or.inr rfl
  · exact Or.inl rfl

theorem packet_add_channel_data_cases (env : Env) (s : Session) (data : List Nat) (datalen : Nat)
    (macstate : MacState) :
    (packet_add_channel_data env s data datalen macstate).session =
      (packet_add_channel_data { env with libssh2_kex_exchange := fun s _ => s } s data datalen
        macstate).session ∨
    (packet_add_channel_data env s data datalen macstate).session =
      env.libssh2_kex_exchange
        (packet_add_channel_data { env with libssh2_kex_exchange := fun s _ => s } s data datalen
          macstate).session 1 := by
  unfold packet_add_channel_data
  simp only
  cases libssh2_channel_locate s (libssh2_ntohu32 (data.drop 1)) with
  | none => exact Or.inl rfl
  | some i =>
    simp only
    split_ifs
    all_goals first
      | exact Or.inl rfl
      | exact packet_add_enqueue_cases env _ data _ _ macstate

theorem packet_add_switch_cases (env : Env) (s : Session) (data : List Nat) (datalen : Nat)
    (macstate : MacState) :
    (packet_add_switch env s data datalen macstate).session =
      (packet_add_switch { env with libssh2_kex_exchange := fun s _ => s } s data datalen
        macstate).session ∨
    (packet_add_switch env s data datalen macstate).session =
      env.libssh2_kex_exchange
        (packet_add_switch { env with libssh2_kex_exchange := fun s _ => s } s data datalen
          macstate).session 1 := by
  unfold packet_add_switch
  simp only
  split_ifs
  all_goals first
    | exact Or.inl rfl
    | exact packet_add_channel_data_cases env s data datalen macstate
    | exact packet_add_enqueue_cases env s data datalen 0 macstate

/-- A call of the dispatcher is its own step, followed or not by the key
exchange. -/
theorem packet_add_cases (env : Env) (s : Session) (data : List Nat) (datalen : Nat)
    (macstate : MacState) :
    (libssh2_packet_add env s data datalen macstate).session =
      dispatch_step env s data datalen macstate ∨
    (libssh2_packet_add env s data datalen macstate).session =
      env.libssh2_kex_exchange (dispatch_step env s data datalen macstate) 1 := by
  unfold dispatch_step libssh2_packet_add
  by_cases hm : macstate = MacState.invalid
  · rw [if_pos hm, if_pos hm]
    cases s.macerror with
    | none => exact Or.inl rfl
    | some f =>
      simp only
      split_ifs
      · exact packet_add_switch_cases env _ data datalen MacState.confirmed
      · exact Or.inl rfl
  · rw [if_neg hm, if_neg hm]
    exact packet_add_switch_cases env s data datalen macstate

/-- A call of `libssh2_packet_add` is a run of the engine whenever the key
exchange is one: the dispatcher's own step, recorded in the log, and then
the steps of the key exchange. -/
theorem packet_add_engine (env : Env)
    (hkex : ∀ s r, ∃ log, Engine env s log (env.libssh2_kex_exchange s r))
    (s : Session) (data : List Nat) (datalen : Nat) (macstate : MacState) :
    ∃ log, Engine env s ((data, s) :: log)
      (libssh2_packet_add env s data datalen macstate).session := by
  have hstep : Engine env s ([] ++ [(data, s)]) (dispatch_step env s data datalen macstate) :=
    Engine.dispatch data datalen macstate (Engine.start s)
  rcases packet_add_cases env s data datalen macstate with h | h
  · rw [h]
    exact ⟨[], hstep⟩
  · rw [h]
    obtain ⟨log, hlog⟩ := hkex (dispatch_step env s data datalen macstate) 1
    exact ⟨log, engine_trans env _ _ _ _ _ hstep hlog⟩

/-- Every sequence of dispatcher calls and removals is a run of the engine
whenever the key exchange is one. -/
theorem brigade_run_engine (env : Env)
    (hkex : ∀ s r, ∃ log, Engine env s log (env.libssh2_kex_exchange s r))
    (s0 : Session) (ops : List BrigadeOp) :
    ∃ log, Engine env s0 log (brigade_run env s0 ops) := by
  induction ops using List.reverseRecOn with
  | nil => exact ⟨[], Engine.start s0⟩
  | append_singleton ops op ih =>
    obtain ⟨log, hlog⟩ := ih
    rw [brigade_run_append]
    cases op with
    | add data datalen macstate =>
      obtain ⟨l2, h2⟩ := packet_add_engine env hkex (brigade_run env s0 ops) data datalen macstate
      exact ⟨_, engine_trans env _ _ _ _ _ hlog h2⟩
    | ask t o m len => exact ⟨log, Engine.remove t o m len hlog⟩

theorem sock_read1_packets (s : Session) : (sock_read1 s).2.2.packets = s.packets := by
  unfold sock_read1
  cases s.sock_in <;> rfl

theorem read_first_block_brigade (env : Env) (s : Session) (b : Bool) (st : Step (List Nat))
    (h : read_first_block env s b = some st) : (step_session st).packets = s.packets := by
  unfold read_first_block at h
  simp only at h
  cases b with
  | true =>
    simp only [if_true] at h
    split_ifs at h
    all_goals
      simp only [Option.some.injEq] at h
      subst h
      simp only [step_session, blocking_read_packets]
  | false =>
    simp only [Bool.false_eq_true, if_false] at h
    split_ifs at h
    all_goals
      simp only [Option.some.injEq] at h
      subst h
      simp only [step_session, blocking_read_packets, sock_read1_packets]

theorem decrypt_block_brigade (s : Session) (block : List Nat) :
    (step_session (decrypt_block s block)).packets = s.packets := by
  unfold decrypt_block
  simp only
  split_ifs <;> rfl

theorem read_blocks_brigade (env : Env) :
    ∀ (fuel : Nat) (s : Session) (payload : List Nat) (filled payload_len : Nat)
      (st : Step (List Nat)),
      read_blocks env fuel s payload filled payload_len = some st →
      (step_session st).packets = s.packets := by
  intro fuel
  induction fuel with
  | zero => intro s payload filled payload_len st h; simp [read_blocks] at h
  | succ fuel ih =>
    intro s payload filled payload_len st h
    simp only [read_blocks] at h
    by_cases h1 : filled < payload_len
    · simp only [h1, if_true] at h
      by_cases h2 : toULong env.ulong_bits (libssh2_blocking_read s s.remote.crypt.blocksize).1 <
          s.remote.crypt.blocksize
      · simp only [h2, if_true, Option.some.injEq] at h
        subst h
        simp only [step_session, blocking_read_packets]
      · simp only [h2, if_false] at h
        by_cases h3 : (libssh2_blocking_read s s.remote.crypt.blocksize).2.1.length <
            s.remote.crypt.blocksize
        · simp [h3] at h
        · simp only [h3, if_false] at h
          have hd := decrypt_block_brigade (libssh2_blocking_read s s.remote.crypt.blocksize).2.2
            (libssh2_blocking_read s s.remote.crypt.blocksize).2.1
          revert h hd
          generalize decrypt_block _ _ = d
          intro h hd
          rcases d with ⟨v, s2⟩ | ⟨plain, s2⟩
          · simp only [Option.some.injEq] at h
            subst h
            simp only [step_session] at hd ⊢
            rw [hd, blocking_read_packets]
          · simp only at h
            simp only [step_session] at hd
            rw [ih _ _ _ _ _ h, hd, blocking_read_packets]
    · simp only [h1, if_false, Option.some.injEq] at h
      subst h
      rfl

theorem read_decompress_brigade (s : Session) (payload : List Nat) (payload_len : Nat)
    (macstate : MacState) :
    (step_session (read_decompress s payload payload_len macstate)).packets = s.packets := by
  unfold read_decompress
  cases s.remote.comp with
  | none => rfl
  | some c =>
    simp only
    split_ifs <;> rfl

theorem read_mac_and_finish_brigade (env : Env) (s : Session) (tmp payload : List Nat)
    (payload_len padding_len : Nat) :
    (step_session (read_mac_and_finish env s tmp payload payload_len padding_len)).packets =
      s.packets := by
  simp only [read_mac_and_finish]
  split_ifs
  · simp only [step_session, blocking_read_packets]
  · rw [read_decompress_brigade, (verify_mac_keeps _ _ _ _ _).2.1, blocking_read_packets]

theorem read_after_first_block_brigade (env : Env) (s : Session) (block : List Nat)
    (st : Step Frame) (h : read_after_first_block env s block = some st) :
    (step_session st).packets = s.packets := by
  simp only [read_after_first_block] at h
  split_ifs at h
  · simp only [Option.some.injEq] at h
    subst h
    rfl
  · revert h
    generalize hrb : read_blocks env _ _ _ _ _ = rb
    intro h
    rcases rb with _ | (⟨v, s2⟩ | ⟨payload, s2⟩)
    · simp at h
    · simp only [Option.some.injEq] at h
      subst h
      exact read_blocks_brigade env _ _ _ _ _ _ hrb
    · simp only [Option.some.injEq] at h
      subst h
      rw [read_mac_and_finish_brigade]
      exact read_blocks_brigade env _ _ _ _ _ _ hrb

theorem read_frame_cipher_brigade (env : Env) (s : Session) (b : Bool) (st : Step Frame)
    (h : read_frame_cipher env s b = some st) : (step_session st).packets = s.packets := by
  unfold read_frame_cipher at h
  revert h
  generalize hfb : read_first_block env s b = fb
  intro h
  rcases fb with _ | (⟨v, s2⟩ | ⟨block, s2⟩)
  · simp at h
  · simp only [Option.some.injEq] at h
    subst h
    exact read_first_block_brigade env s b _ hfb
  · have hf := read_first_block_brigade env s b _ hfb
    simp only [step_session] at hf
    simp only at h
    have hd := decrypt_block_brigade s2 block
    revert h hd
    generalize decrypt_block s2 block = d
    intro h hd
    rcases d with ⟨v, s3⟩ | ⟨plain, s3⟩
    · simp only [Option.some.injEq] at h
      subst h
      simp only [step_session] at hd ⊢
      rw [hd, hf]
    · simp only at h
      simp only [step_session] at hd
      rw [read_after_first_block_brigade env _ _ _ h, hd, hf]

theorem read_preamble_plain_brigade (env : Env) (s : Session) (b : Bool) (st : Step (List Nat))
    (h : read_preamble_plain env s b = some st) : (step_session st).packets = s.packets := by
  unfold read_preamble_plain at h
  simp only at h
  cases b with
  | true =>
    simp only [if_true] at h
    split_ifs at h
    all_goals
      simp only [Option.some.injEq] at h
      subst h
      simp only [step_session, blocking_read_packets]
  | false =>
    simp only [Bool.false_eq_true, if_false] at h
    split_ifs at h
    all_goals
      simp only [Option.some.injEq] at h
      subst h
      simp only [step_session, blocking_read_packets, sock_read1_packets]

theorem read_frame_plain_brigade (env : Env) (s : Session) (b : Bool) (st : Step Frame)
    (h : read_frame_plain env s b = some st) : (step_session st).packets = s.packets := by
  unfold read_frame_plain at h
  simp only at h
  revert h
  generalize hpre : read_preamble_plain env s b = pre
  intro h
  rcases pre with _ | (⟨v, s2⟩ | ⟨buf, s2⟩)
  · simp at h
  · simp only [Option.some.injEq] at h
    subst h
    exact read_preamble_plain_brigade env s b _ hpre
  · have hp := read_preamble_plain_brigade env s b _ hpre
    simp only [step_session] at hp
    simp only at h
    split_ifs at h
    all_goals
      simp only [Option.some.injEq] at h
      subst h
      simp only [step_session, blocking_read_packets, hp]

theorem packet_read_frame_brigade (env : Env) (s : Session) (b : Bool) (st : Step Frame)
    (h : packet_read_frame env s b = some st) : (step_session st).packets = s.packets := by
  unfold packet_read_frame at h
  split_ifs at h
  · exact read_frame_cipher_brigade env s b st h
  · exact read_frame_plain_brigade env s b st h

/-- A call of `libssh2_packet_read` that returns is a run of the engine
whenever the key exchange is one: the decoding leaves the brigade alone, the
frame goes through the dispatcher, and the sequence number is not part of
the brigade. -/
theorem packet_read_engine (env : Env)
    (hkex : ∀ s r, ∃ log, Engine env s log (env.libssh2_kex_exchange s r))
    (s : Session) (b : Bool) (ret : Int) (s1 : Session)
    (h : libssh2_packet_read env s b = some (ret, s1)) :
    ∃ log, Engine env s log s1 := by
  unfold libssh2_packet_read at h
  by_cases hd : s.socket_state = SocketState.disconnected
  · rw [if_pos hd] at h
    simp only [Option.some.injEq, Prod.mk.injEq] at h
    obtain ⟨_, rfl⟩ := h
    exact ⟨[], Engine.start s⟩
  · rw [if_neg hd] at h
    revert h
    generalize hfr : packet_read_frame env s b = fr
    intro h
    rcases fr with _ | (⟨v, s2⟩ | ⟨f, s2⟩)
    · simp at h
    · simp only [Option.some.injEq, Prod.mk.injEq] at h
      obtain ⟨_, rfl⟩ := h
      exact ⟨[], Engine.other s2 (Engine.start s) (packet_read_frame_brigade env s b _ hfr)⟩
    · have hp := packet_read_frame_brigade env s b _ hfr
      simp only [step_session] at hp
      simp only [Option.some.injEq, Prod.mk.injEq] at h
      obtain ⟨_, rfl⟩ := h
      obtain ⟨log, hlog⟩ := packet_add_engine env hkex s2 f.payload f.payload_len f.macstate
      have h0 : Engine env s [] s2 := Engine.other s2 (Engine.start s) hp
      have h1 := engine_trans env _ _ _ _ _ h0 hlog
      refine ⟨_, Engine.other _ h1 ?_⟩
      split_ifs <;> rfl

/-- The runs of the engine depend on the environment through the
dispatcher's own step only. -/
theorem engine_of_step (env env1 : Env)
    (hstep : ∀ s data datalen macstate,
      dispatch_step env1 s data datalen macstate = dispatch_step env s data datalen macstate)
    (a s : Session) (log : List (List Nat × Session)) (h : Engine env a log s) :
    Engine env1 a log s := by
  induction h with
  | start => exact Engine.start a
  | dispatch data datalen macstate _ ih =>
    rw [← hstep]
    exact Engine.dispatch data datalen macstate ih
  | remove t o m len _ ih => exact Engine.remove t o m len ih
  | other s1 _ hpk ih => exact Engine.other s1 ih hpk

/-- A call of `libssh2_packet_ask_ex` that returns is a run of the engine
whenever the key exchange is one. -/
theorem packet_ask_engine (env : Env)
    (hkex : ∀ s r, ∃ log, Engine env s log (env.libssh2_kex_exchange s r))
    (s : Session) (t o : Nat) (m : Option (List Nat)) (len : Nat) (poll : Bool) (r : AskResult)
    (h : libssh2_packet_ask_ex env s t o m len poll = some r) :
    ∃ log, Engine env s log r.session := by
  unfold libssh2_packet_ask_ex at h
  simp only at h
  cases poll with
  | false =>
    simp only [Bool.false_eq_true, if_false, Option.some.injEq] at h
    subst h
    exact ⟨[], Engine.remove t o m len (Engine.start s)⟩
  | true =>
    simp only [if_true] at h
    revert h
    generalize hrd : libssh2_packet_read env s false = rd
    intro h
    rcases rd with _ | ⟨ret, s1⟩
    · simp at h
    · obtain ⟨log, hlog⟩ := packet_read_engine env hkex s false ret s1 hrd
      simp only at h
      split_ifs at h
      all_goals
        simp only [Option.some.injEq] at h
        subst h
      · exact ⟨log, hlog⟩
      · exact ⟨log, hlog⟩
      · exact ⟨log, Engine.remove t o m len hlog⟩

theorem require_loop_engine (env : Env)
    (hkex : ∀ s r, ∃ log, Engine env s log (env.libssh2_kex_exchange s r))
    (t o : Nat) (m : Option (List Nat)) (len : Nat) :
    ∀ (fuel : Nat) (s : Session) (r : AskResult),
      require_loop env t o m len fuel s = some r → ∃ log, Engine env s log r.session := by
  intro fuel
  induction fuel with
  | zero => intro s r h; simp [require_loop] at h
  | succ fuel ih =>
    intro s r h
    simp only [require_loop] at h
    by_cases hc : s.socket_state = SocketState.connected
    · rw [if_pos hc] at h
      revert h
      generalize hrd : libssh2_packet_read env s true = rd
      intro h
      rcases rd with _ | ⟨ret, s1⟩
      · simp at h
      · obtain ⟨log, hlog⟩ := packet_read_engine env hkex s true ret s1 hrd
        simp only at h
        by_cases h1 : ret < 0
        · rw [if_pos h1] at h
          simp only [Option.some.injEq] at h
          subst h
          exact ⟨log, hlog⟩
        · rw [if_neg h1] at h
          by_cases h2 : ret = 0
          · rw [if_pos h2] at h
            obtain ⟨l2, hl2⟩ := ih s1 r h
            exact ⟨_, engine_trans env _ _ _ _ _ hlog hl2⟩
          · rw [if_neg h2] at h
            by_cases h3 : (t : Int) = ret
            · rw [if_pos h3] at h
              obtain ⟨l2, hl2⟩ := packet_ask_engine env hkex s1 t o m len false r h
              exact ⟨_, engine_trans env _ _ _ _ _ hlog hl2⟩
            · rw [if_neg h3] at h
              obtain ⟨l2, hl2⟩ := ih s1 r h
              exact ⟨_, engine_trans env _ _ _ _ _ hlog hl2⟩
    · rw [if_neg hc] at h
      simp only [Option.some.injEq] at h
      subst h
      exact ⟨[], Engine.start s⟩

/-- A call of `libssh2_packet_require_ex` that returns is a run of the
engine whenever the key exchange is one. -/
theorem packet_require_engine (env : Env)
    (hkex : ∀ s r, ∃ log, Engine env s log (env.libssh2_kex_exchange s r))
    (s : Session) (t o : Nat) (m : Option (List Nat)) (len : Nat) (r : AskResult)
    (h : libssh2_packet_require_ex env s t o m len = some r) :
    ∃ log, Engine env s log r.session := by
  unfold libssh2_packet_require_ex at h
  revert h
  generalize ha : libssh2_packet_ask_ex env s t o m len false = a
  intro h
  rcases a with _ | r0
  · simp at h
  · obtain ⟨log, hlog⟩ := packet_ask_engine env hkex s t o m len false r0 ha
    simp only at h
    by_cases h0 : r0.ret = 0
    · rw [if_pos h0] at h
      simp only [Option.some.injEq] at h
      subst h
      exact ⟨log, hlog⟩
    · rw [if_neg h0] at h
      obtain ⟨l2, hl2⟩ := require_loop_engine env hkex t o m len _ _ r h
      exact ⟨_, engine_trans env _ _ _ _ _ hlog hl2⟩

/-- C12 (brigade content invariant), as amended. Start from a session with
an empty brigade and apply any sequence of dispatcher calls
(`libssh2_packet_add`) and removals by `libssh2_packet_ask_ex`. The state
reached is a state of a run of the engine (`Engine`) whenever the key
exchange, which a KEXINIT starts, is itself such a run: dispatcher steps,
removals, and changes that leave the brigade alone (as the reads, polls and
requires of this file are: `packet_read_engine`, `packet_ask_engine`,
`packet_require_engine`). And for any account
`log` of a run that leads to the state reached (the buffers handed to the
dispatcher, by the calls of the sequence and by the key exchange they
started, each with the session it was handed on), every brigade entry has a
type `data[0]` outside DISCONNECT, IGNORE, DEBUG, CHANNEL_EOF, CHANNEL_CLOSE,
and its buffer was dispatched, by the account, on a session for which: if it
is CHANNEL_DATA or CHANNEL_EXTENDED_DATA, its channel was known; and if it is
CHANNEL_EXTENDED_DATA, the extended-data mode of its channel was not
Ignore. -/
theorem brigade_content_invariant (env : Env) (s0 : Session) (h0 : s0.packets = [])
    (ops : List BrigadeOp) :
    ((∀ s r, ∃ log, Engine env s log (env.libssh2_kex_exchange s r)) →
      ∃ log, Engine env s0 log (brigade_run env s0 ops)) ∧
    ∀ log, Engine env s0 log (brigade_run env s0 ops) →
      ∀ p ∈ (brigade_run env s0 ops).packets,
        inline_handled (p.data.getD 0 0) = false ∧
        ∃ s1, (p.data, s1) ∈ log ∧ dispatch_queues s1 p.data := by
  refine ⟨fun hkex => brigade_run_engine env hkex s0 ops, ?_⟩
  intro log hrun p hp
  rcases engine_entries env s0 _ log hrun p hp with h | ⟨s1, h1, h2⟩
  · rw [h0] at h; exact absurd h (List.not_mem_nil _)
  · exact ⟨h2.1, s1, h1, h2⟩

/-- Counterexample to C12 as stated: a CHANNEL_DATA packet for a channel
whose extended-data mode is Ignore is queued. The dispatcher drops only
CHANNEL_EXTENDED_DATA on such a channel (line 156). -/
theorem brigade_holds_data_of_ignoring_channel :
    ignoring_channel_session.packets = [] ∧
    [94, 0, 0, 0, 0, 0, 0, 0, 1, 65].getD 0 0 = SSH_MSG_CHANNEL_DATA ∧
    channel_ignoring ignoring_channel_session [94, 0, 0, 0, 0, 0, 0, 0, 1, 65] = true ∧
    (brigade_run demo_env ignoring_channel_session
        [BrigadeOp.add [94, 0, 0, 0, 0, 0, 0, 0, 1, 65] 10 MacState.confirmed]).packets =
      [{ data := [94, 0, 0, 0, 0, 0, 0, 0, 1, 65], data_len := 10, data_head := 9,
         mac := MacState.confirmed }] := by
  decide

/-- The key exchange of `reading_kex_env` is a run of the engine: a change
of `exchanging_keys`, and one `libssh2_packet_read`. -/
theorem reading_kex_engine (s : Session) (r : Nat) :
    ∃ log, Engine reading_kex_env s log (reading_kex_env.libssh2_kex_exchange s r) := by
  show ∃ log, Engine reading_kex_env s log
    (match libssh2_packet_read demo_env { s with exchanging_keys := true } true with
      | some r => r.2
      | none => s)
  cases hrd : libssh2_packet_read demo_env { s with exchanging_keys := true } true with
  | none => exact ⟨[], Engine.start s⟩
  | some r =>
    obtain ⟨log, hlog⟩ := packet_read_engine demo_env (fun s _ => ⟨[], Engine.start s⟩)
      { s with exchanging_keys := true } true r.1 r.2 hrd
    have h0 : Engine demo_env s [] { s with exchanging_keys := true } :=
      Engine.other _ (Engine.start s) rfl
    exact ⟨_, engine_of_step demo_env reading_kex_env (fun _ _ _ _ => rfl) _ _ _
      (engine_trans demo_env _ _ _ _ _ h0 hlog)⟩

/-- Witness of `brigade_content_invariant`, with a key exchange that reads
through the engine: on a session whose only channel ignores extended data, a
USERAUTH_BANNER, a DEBUG, a CHANNEL_EXTENDED_DATA, a CHANNEL_DATA for an
unknown channel, a CHANNEL_DATA for the channel and a KEXINIT are dispatched,
the key exchange reads the NEWKEYS that waits on the socket, and the banner
is then taken out. The brigade holds the CHANNEL_DATA, the KEXINIT and the
NEWKEYS; the NEWKEYS was dispatched by the read of the key exchange. -/
theorem brigade_content_invariant_witness :
    (brigade_run reading_kex_env newkeys_waiting_session
        [BrigadeOp.add [53, 1] 2 MacState.confirmed,
         BrigadeOp.add [4, 1, 0, 0, 0, 0, 0, 0, 0, 0] 10 MacState.confirmed,
         BrigadeOp.add [95, 0, 0, 0, 0, 0, 0, 0, 1, 0, 0, 0, 1, 65] 14 MacState.confirmed,
         BrigadeOp.add [94, 0, 0, 0, 7, 0, 0, 0, 1, 65] 10 MacState.confirmed,
         BrigadeOp.add [94, 0, 0, 0, 0, 0, 0, 0, 1, 65] 10 MacState.confirmed,
         BrigadeOp.add [20, 9] 2 MacState.confirmed,
         BrigadeOp.ask 53 0 none 0]).packets =
      [⟨[94, 0, 0, 0, 0, 0, 0, 0, 1, 65], 10, 9, MacState.confirmed⟩,
       ⟨[20, 9], 2, 0, MacState.confirmed⟩,
       ⟨[21], 1, 0, MacState.confirmed⟩] ∧
    ∃ log,
      Engine reading_kex_env newkeys_waiting_session log
        (brigade_run reading_kex_env newkeys_waiting_session
          [BrigadeOp.add [53, 1] 2 MacState.confirmed,
           BrigadeOp.add [4, 1, 0, 0, 0, 0, 0, 0, 0, 0] 10 MacState.confirmed,
           BrigadeOp.add [95, 0, 0, 0, 0, 0, 0, 0, 1, 0, 0, 0, 1, 65] 14 MacState.confirmed,
           BrigadeOp.add [94, 0, 0, 0, 7, 0, 0, 0, 1, 65] 10 MacState.confirmed,
           BrigadeOp.add [94, 0, 0, 0, 0, 0, 0, 0, 1, 65] 10 MacState.confirmed,
           BrigadeOp.add [20, 9] 2 MacState.confirmed,
           BrigadeOp.ask 53 0 none 0]) ∧
      inline_handled ([21].getD 0 0) = false ∧
      ∃ s1, (([21] : List Nat), s1) ∈ log ∧ dispatch_queues s1 [21] :=
  have h := brigade_content_invariant reading_kex_env newkeys_waiting_session rfl
    [BrigadeOp.add [53, 1] 2 MacState.confirmed,
     BrigadeOp.add [4, 1, 0, 0, 0, 0, 0, 0, 0, 0] 10 MacState.confirmed,
     BrigadeOp.add [95, 0, 0, 0, 0, 0, 0, 0, 1, 0, 0, 0, 1, 65] 14 MacState.confirmed,
     BrigadeOp.add [94, 0, 0, 0, 7, 0, 0, 0, 1, 65] 10 MacState.confirmed,
     BrigadeOp.add [94, 0, 0, 0, 0, 0, 0, 0, 1, 65] 10 MacState.confirmed,
     BrigadeOp.add [20, 9] 2 MacState.confirmed,
     BrigadeOp.ask 53 0 none 0]
  ⟨by decide,
   (h.1 reading_kex_engine).elim
     (fun log hl => ⟨log, hl, h.2 log hl ⟨[21], 1, 0, MacState.confirmed⟩ (by decide)⟩)⟩

/-! ## Sequence counters -/

theorem sock_read1_keeps (s : Session) :
    (sock_read1 s).2.2.remote = s.remote ∧
    (sock_read1 s).2.2.exchanging_keys = s.exchanging_keys ∧
    (sock_read1 s).2.2.errors = s.errors ∧
    (sock_read1 s).2.2.socket_state = s.socket_state := by
  unfold sock_read1
  cases s.sock_in <;> exact ⟨rfl, rfl, rfl, rfl⟩

theorem count_proto_append (l : List ErrorCode) (e : ErrorCode) (he : e ≠ ErrorCode.PROTO) :
    (l ++ [e]).count ErrorCode.PROTO = l.count ErrorCode.PROTO := by
  rw [List.count_append, List.count_singleton]
  simp only [beq_iff_eq, he, if_false, Nat.add_zero]

theorem read_first_block_ret (env : Env) (s : Session) (b : Bool) (v : Int) (s1 : Session)
    (h : read_first_block env s b = some (Step.ret v s1)) : s1.errors = s.errors := by
  unfold read_first_block at h
  simp only at h
  obtain ⟨_, _, k3, _⟩ := sock_read1_keeps s
  cases b with
  | true =>
    simp only [if_true] at h
    split_ifs at h
    all_goals first | (simp at h; done) | skip
    all_goals
      simp only [Option.some.injEq, Step.ret.injEq] at h
      obtain ⟨_, rfl⟩ := h
      exact blocking_read_errors s _
  | false =>
    simp only [Bool.false_eq_true, if_false] at h
    split_ifs at h
    all_goals first | (simp at h; done) | skip
    all_goals
      simp only [Option.some.injEq, Step.ret.injEq] at h
      obtain ⟨_, rfl⟩ := h
      first | exact k3 | exact (blocking_read_errors _ _).trans k3

theorem read_first_block_next_errors (env : Env) (s : Session) (b : Bool) (block : List Nat)
    (s1 : Session) (h : read_first_block env s b = some (Step.next block s1)) :
    s1.errors = s.errors := by
  unfold read_first_block at h
  simp only at h
  cases b with
  | true =>
    simp only [if_true] at h
    split_ifs at h
    all_goals first | (simp at h; done) | skip
    simp only [Option.some.injEq, Step.next.injEq] at h
    obtain ⟨_, rfl⟩ := h
    exact blocking_read_errors s _
  | false =>
    simp only [Bool.false_eq_true, if_false] at h
    obtain ⟨_, _, k3, _⟩ := sock_read1_keeps s
    split_ifs at h
    all_goals first | (simp at h; done) | skip
    simp only [Option.some.injEq, Step.next.injEq] at h
    obtain ⟨_, rfl⟩ := h
    exact (blocking_read_errors _ _).trans k3

theorem read_after_first_block_ret (env : Env) (s : Session) (block : List Nat) (v : Int)
    (s1 : Session) (h : read_after_first_block env s block = some (Step.ret v s1)) :
    s1.socket_state = SocketState.disconnected ∨
    s1.errors.count ErrorCode.PROTO = s.errors.count ErrorCode.PROTO := by
  simp only [read_after_first_block] at h
  split_ifs at h
  · simp only [Option.some.injEq, Step.ret.injEq] at h
    obtain ⟨_, rfl⟩ := h
    exact Or.inl rfl
  · revert h
    generalize hrb : read_blocks env _ _ _ _ _ = rb
    intro h
    rcases rb with _ | (⟨v2, s2⟩ | ⟨payload, s2⟩)
    · simp at h
    · simp only [Option.some.injEq, Step.ret.injEq] at h
      obtain ⟨_, rfl⟩ := h
      have := read_blocks_errors env _ _ _ _ _ _ hrb
      simp only at this
      rcases this with e | e
      · exact Or.inr (by rw [e])
      · exact Or.inr (by rw [e, count_proto_append _ _ (by decide)])
    · simp only [Option.some.injEq] at h
      have e2 := read_blocks_errors env _ _ _ _ _ _ hrb
      simp only at e2
      rcases read_mac_and_finish_errors env _ _ _ _ _ _ _ h with e | e
      · exact Or.inr (by rw [e, e2])
      · exact Or.inr (by rw [e, e2, count_proto_append _ _ (by decide)])

theorem read_frame_cipher_ret (env : Env) (s : Session) (b : Bool) (v : Int) (s1 : Session)
    (h : read_frame_cipher env s b = some (Step.ret v s1)) :
    s1.socket_state = SocketState.disconnected ∨
    s1.errors.count ErrorCode.PROTO = s.errors.count ErrorCode.PROTO := by
  unfold read_frame_cipher at h
  revert h
  generalize hfb : read_first_block env s b = fb
  intro h
  rcases fb with _ | (⟨v2, s2⟩ | ⟨block, s2⟩)
  · simp at h
  · simp only [Option.some.injEq, Step.ret.injEq] at h
    obtain ⟨_, rfl⟩ := h
    exact Or.inr (by rw [read_first_block_ret env s b v2 s2 hfb])
  · have e1 := read_first_block_next_errors env s b block s2 hfb
    simp only at h
    have hd := decrypt_block_errors s2 block
    revert h hd
    generalize decrypt_block s2 block = d
    intro h hd
    rcases d with ⟨v3, s3⟩ | ⟨plain, s3⟩
    · simp only [Option.some.injEq, Step.ret.injEq] at h
      obtain ⟨_, rfl⟩ := h
      simp only at hd
      exact Or.inr (by rw [hd, e1, count_proto_append _ _ (by decide)])
    · simp only at h hd
      rcases read_after_first_block_ret env s3 plain v s1 h with r | r
      · exact Or.inl r
      · exact Or.inr (by rw [r, hd, e1])

theorem read_preamble_plain_errors (env : Env) (s : Session) (b : Bool) (st : Step (List Nat))
    (h : read_preamble_plain env s b = some st) :
    match st with
    | Step.ret _ s1 => s1.errors = s.errors
    | Step.next _ s1 => s1.errors = s.errors := by
  unfold read_preamble_plain at h
  simp only at h
  obtain ⟨_, _, k3, _⟩ := sock_read1_keeps s
  cases b with
  | true =>
    simp only [if_true] at h
    split_ifs at h
    all_goals
      simp only [Option.some.injEq] at h
      subst h
      exact blocking_read_errors s _
  | false =>
    simp only [Bool.false_eq_true, if_false] at h
    split_ifs at h
    · simp only [Option.some.injEq] at h
      subst h
      exact k3
    · simp only [Option.some.injEq] at h
      subst h
      exact (blocking_read_errors _ _).trans k3

theorem read_frame_plain_ret (env : Env) (s : Session) (b : Bool) (v : Int) (s1 : Session)
    (h : read_frame_plain env s b = some (Step.ret v s1)) : s1.errors = s.errors := by
  unfold read_frame_plain at h
  simp only at h
  revert h
  generalize hpre : read_preamble_plain env s b = pre
  intro h
  rcases pre with _ | (⟨v2, s2⟩ | ⟨buf, s2⟩)
  · simp at h
  · simp only [Option.some.injEq, Step.ret.injEq] at h
    obtain ⟨_, rfl⟩ := h
    exact read_preamble_plain_errors env s b _ hpre
  · have e1 := read_preamble_plain_errors env s b _ hpre
    simp only at h e1
    split_ifs at h
    all_goals first | (simp at h; done) | skip
    all_goals
      simp only [Option.some.injEq, Step.ret.injEq] at h
      obtain ⟨_, rfl⟩ := h
      exact (blocking_read_errors _ _).trans e1

theorem packet_read_frame_ret (env : Env) (s : Session) (b : Bool) (v : Int) (s1 : Session)
    (h : packet_read_frame env s b = some (Step.ret v s1)) :
    s1.socket_state = SocketState.disconnected ∨
    s1.errors.count ErrorCode.PROTO = s.errors.count ErrorCode.PROTO := by
  unfold packet_read_frame at h
  split_ifs at h
  · exact read_frame_cipher_ret env s b v s1 h
  · exact Or.inr (by rw [read_frame_plain_ret env s b v s1 h])

theorem ask_scan_socket (s : Session) (t o : Nat) (m : Option (List Nat)) (len : Nat) :
    (packet_ask_scan s t o m len).session.sock_in = s.sock_in ∧
    (packet_ask_scan s t o m len).session.sock_out = s.sock_out ∧
    (packet_ask_scan s t o m len).session.socket_state = s.socket_state := by
  unfold packet_ask_scan
  cases brigade_scan t o m len s.packets with
  | none => exact ⟨rfl, rfl, rfl⟩
  | some r => exact ⟨rfl, rfl, rfl⟩

theorem ask_scan_not_found (s : Session) (t o : Nat) (m : Option (List Nat)) (len : Nat)
    (h : (packet_ask_scan s t o m len).ret ≠ 0) :
    packet_ask_scan s t o m len = { ret := -1, data := none, data_len := none, session := s } := by
  unfold packet_ask_scan at h ⊢
  cases hs : brigade_scan t o m len s.packets with
  | none => rfl
  | some r =>
    rw [hs] at h
    simp at h

theorem require_disconnected (env : Env) (s : Session) (t o : Nat) (m : Option (List Nat))
    (len : Nat) (hdis : s.socket_state = SocketState.disconnected) :
    libssh2_packet_require_ex env s t o m len = some (packet_ask_scan s t o m len) := by
  simp only [libssh2_packet_require_ex, libssh2_packet_ask_ex, Bool.false_eq_true, if_false]
  by_cases h : (packet_ask_scan s t o m len).ret = 0
  · rw [if_pos h]
  · rw [if_neg h, ask_scan_not_found s t o m len h]
    simp only [require_loop, hdis, reduceCtorEq, if_false]

/-- C14 (fatal errors disconnect the session), as amended: its part on Proto
and on reads. Whenever `libssh2_packet_read` fails (returns a negative value)
having surfaced Proto, `socket_state` is Disconnected afterwards. On a
session whose `socket_state` is Disconnected, `libssh2_packet_read` returns 0
with the session as it was, and `libssh2_packet_require_ex` returns what one
scan of the brigade gives (0 with a match, -1 without), with the bytes on the
socket and the bytes sent as they were. -/
theorem proto_error_disconnects (env : Env) (s : Session) (should_block : Bool) :
    (∀ ret s1, libssh2_packet_read env s should_block = some (ret, s1) → ret < 0 →
        s.errors.count ErrorCode.PROTO < s1.errors.count ErrorCode.PROTO →
        s1.socket_state = SocketState.disconnected) ∧
    (s.socket_state = SocketState.disconnected →
      libssh2_packet_read env s should_block = some (0, s) ∧
      ∀ t o m len, ∃ r, libssh2_packet_require_ex env s t o m len = some r ∧
        r = packet_ask_scan s t o m len ∧
        r.session.sock_in = s.sock_in ∧ r.session.sock_out = s.sock_out ∧
        r.session.socket_state = SocketState.disconnected) := by
  constructor
  · intro ret s1 hread hneg hcount
    unfold libssh2_packet_read at hread
    by_cases hdis : s.socket_state = SocketState.disconnected
    · rw [if_pos hdis] at hread
      simp only [Option.some.injEq, Prod.mk.injEq] at hread
      obtain ⟨_, rfl⟩ := hread
      exact hdis
    · rw [if_neg hdis] at hread
      revert hread
      generalize hfr : packet_read_frame env s should_block = fr
      intro hread
      rcases fr with _ | (⟨v, s2⟩ | ⟨f, s2⟩)
      · simp at hread
      · simp only [Option.some.injEq, Prod.mk.injEq] at hread
        obtain ⟨_, rfl⟩ := hread
        rcases packet_read_frame_ret env s should_block v s2 hfr with h | h
        · exact h
        · omega
      · simp only [Option.some.injEq, Prod.mk.injEq] at hread
        obtain ⟨rfl, _⟩ := hread
        exact absurd hneg (by omega)
  · intro hdis
    refine ⟨by simp only [libssh2_packet_read, hdis, if_true], ?_⟩
    intro t o m len
    obtain ⟨a1, a2, a3⟩ := ask_scan_socket s t o m len
    exact ⟨_, require_disconnected env s t o m len hdis, rfl, a1, a2, a3.trans hdis⟩

/-- Counterexample to C14 as stated. An invalid MAC without a callback
surfaces INVALID_MAC and leaves the session Connected; so does a custom
cipher that fails (DECRYPT, return -1); a short write makes
`libssh2_packet_write` fail and leaves the session Connected; and
`libssh2_packet_write` on a Disconnected session writes the frame to the
socket and returns 0. -/
theorem fatal_errors_leave_connected :
    (libssh2_packet_read demo_env tampered_mac_session true).map
        (fun r => (r.1, r.2.errors, r.2.socket_state)) =
      some (21, [ErrorCode.other (-255), ErrorCode.INVALID_MAC], SocketState.connected) ∧
    (libssh2_packet_read demo_env decrypt_failure_session true).map
        (fun r => (r.1, r.2.errors, r.2.socket_state)) =
      some (-1, [ErrorCode.DECRYPT], SocketState.connected) ∧
    (libssh2_packet_write short_write_session [5]).1 = 1 ∧
    (libssh2_packet_write short_write_session [5]).2.sock_out = [0, 0, 0] ∧
    (libssh2_packet_write short_write_session [5]).2.socket_state = SocketState.connected ∧
    disconnected_session.socket_state = SocketState.disconnected ∧
    (libssh2_packet_write disconnected_session [5]).1 = 0 ∧
    (libssh2_packet_write disconnected_session [5]).2.sock_out =
      [0, 0, 0, 12, 10, 5, 0, 0, 0, 0, 0, 0, 0, 0, 0, 0] := by
  decide

/-- Witness of `proto_error_disconnects`: the read of `bad_length_session`
fails with Proto, and `disconnected_session` is read by neither call. -/
theorem proto_error_disconnects_witness :
    (libssh2_packet_read demo_env bad_length_session true =
        some (-1, libssh2_error
          { bad_length_session with sock_in := [0, 0],
                                    socket_state := SocketState.disconnected }
          ErrorCode.PROTO) ∧
      (libssh2_error
          { bad_length_session with sock_in := [0, 0],
                                    socket_state := SocketState.disconnected }
          ErrorCode.PROTO).socket_state = SocketState.disconnected) ∧
    (disconnected_session.socket_state = SocketState.disconnected ∧
      libssh2_packet_read demo_env disconnected_session true = some (0, disconnected_session) ∧
      ∀ t o m len, ∃ r, libssh2_packet_require_ex demo_env disconnected_session t o m len =
          some r ∧
        r = packet_ask_scan disconnected_session t o m len ∧
        r.session.sock_in = disconnected_session.sock_in ∧
        r.session.sock_out = disconnected_session.sock_out ∧
        r.session.socket_state = SocketState.disconnected) :=
  ⟨⟨rfl, (proto_error_disconnects demo_env bad_length_session true).1 (-1) _ rfl (by decide)
      (by decide)⟩,
   ⟨rfl, (proto_error_disconnects demo_env disconnected_session true).2 rfl⟩⟩

/-! ## DISCONNECT and DEBUG -/

theorem htonu32_length (v : Nat) : (libssh2_htonu32 v).length = 4 := rfl

theorem disconnect_payload_fields (reason : Nat) (message language : List Nat)
    (hr : reason < 2 ^ 32) (hml : message.length < 2 ^ 32) (hll : language.length < 2 ^ 32) :
    (disconnect_payload reason message language).getD 0 0 = SSH_MSG_DISCONNECT ∧
    libssh2_ntohu32 ((disconnect_payload reason message language).drop 1) = reason ∧
    libssh2_ntohu32 ((disconnect_payload reason message language).drop 5) = message.length ∧
    ((disconnect_payload reason message language).drop 9).take message.length = message ∧
    libssh2_ntohu32 ((disconnect_payload reason message language).drop (9 + message.length)) =
      language.length ∧
    ((disconnect_payload reason message language).drop (9 + message.length + 3 + 1)).take
      language.length = language := by
  have e1 : (disconnect_payload reason message language).drop 1 =
      libssh2_htonu32 reason ++ ((libssh2_htonu32 message.length ++ message) ++
        (libssh2_htonu32 language.length ++ language)) := by
    simp [disconnect_payload]
  have e5 : (disconnect_payload reason message language).drop 5 =
      libssh2_htonu32 message.length ++ (message ++
        (libssh2_htonu32 language.length ++ language)) := by
    simp [disconnect_payload, libssh2_htonu32]
  have e9 : (disconnect_payload reason message language).drop 9 =
      message ++ (libssh2_htonu32 language.length ++ language) := by
    simp [disconnect_payload, libssh2_htonu32]
  have e9m : (disconnect_payload reason message language).drop (9 + message.length) =
      libssh2_htonu32 language.length ++ language := by
    rw [← List.drop_drop, e9, List.drop_left]
  have e13 : (disconnect_payload reason message language).drop (9 + message.length + 3 + 1) =
      language := by
    have : 9 + message.length + 3 + 1 = (9 + message.length) + 4 := by omega
    rw [this, ← List.drop_drop, e9m]
    simp [libssh2_htonu32]
  refine ⟨rfl, ?_, ?_, ?_, ?_, ?_⟩
  · rw [e1, ntohu32_htonu32 _ hr]
  · rw [e5, ntohu32_htonu32 _ hml]
  · rw [e9, List.take_left]
  · rw [e9m, ntohu32_htonu32 _ hll]
  · rw [e13, List.take_length]

/-- C15 (DISCONNECT handling). For every DISCONNECT payload that encodes a
reason (a u32), a message and a language tag (strings whose lengths fit the
`int` the code keeps them in), dispatched with a MAC status that is not
Invalid: the dispatcher returns -1; the session afterwards is the session
before with `socket_state` Disconnected and, if a disconnect callback is
registered, with exactly one more callback event, the disconnect callback
called with that reason (as the `int` the callback takes), the message bytes
with their length and the language bytes with their length. In particular
the brigade is unchanged. -/
theorem disconnect_handling (env : Env) (s : Session) (reason : Nat) (message language : List Nat)
    (datalen : Nat) (macstate : MacState)
    (hmac : macstate ≠ MacState.invalid) (hr : reason < 2 ^ 32)
    (hml : message.length < 2 ^ 31) (hll : language.length < 2 ^ 31) :
    (libssh2_packet_add env s (disconnect_payload reason message language) datalen macstate).ret
      = -1 ∧
    (libssh2_packet_add env s (disconnect_payload reason message language) datalen
        macstate).session =
      { (if s.ssh_msg_disconnect then
          callback s (Event.disconnect (toInt32 reason) message message.length language
            language.length)
        else s) with socket_state := SocketState.disconnected } ∧
    (libssh2_packet_add env s (disconnect_payload reason message language) datalen
        macstate).session.socket_state = SocketState.disconnected ∧
    (libssh2_packet_add env s (disconnect_payload reason message language) datalen
        macstate).session.packets = s.packets ∧
    (libssh2_packet_add env s (disconnect_payload reason message language) datalen
        macstate).session.events =
      (if s.ssh_msg_disconnect then
        s.events ++ [Event.disconnect (toInt32 reason) message message.length language
          language.length]
      else s.events) ∧
    (reason < 2 ^ 31 → toInt32 reason = (reason : Int)) := by
  obtain ⟨f0, f1, f5, f9, f9m, f13⟩ := disconnect_payload_fields reason message language hr
    (by omega) (by omega)
  have hadd : libssh2_packet_add env s (disconnect_payload reason message language) datalen
      macstate =
      { ret := -1,
        session := { (if s.ssh_msg_disconnect then
            callback s (Event.disconnect (toInt32 reason) message message.length language
              language.length)
          else s) with socket_state := SocketState.disconnected },
        data_freed := true } := by
    have hfit : strings_fit (disconnect_payload reason message language) 9 message.length
        language.length = true := by
      simp only [strings_fit, decide_eq_true_eq]
      refine ⟨hml, hll, ?_⟩
      simp [disconnect_payload, libssh2_htonu32]
      omega
    unfold libssh2_packet_add
    rw [if_neg hmac]
    unfold packet_add_switch
    simp only
    rw [if_pos f0]
    simp only [f1, f5, f9, f9m, f13, hfit, Bool.not_true]
  rw [hadd]
  refine ⟨rfl, rfl, rfl, ?_, ?_, toInt32_of_lt reason⟩
  · split_ifs <;> rfl
  · split_ifs <;> rfl

/-- Witness of `disconnect_handling`: a DISCONNECT with reason 11, message
"bye" and an empty language tag, on a session with the callback registered. -/
theorem disconnect_handling_witness :
    disconnect_payload 11 [98, 121, 101] [] =
      [1, 0, 0, 0, 11, 0, 0, 0, 3, 98, 121, 101, 0, 0, 0, 0] ∧
    (libssh2_packet_add demo_env callback_session (disconnect_payload 11 [98, 121, 101] []) 16
        MacState.confirmed).ret = -1 ∧
    (libssh2_packet_add demo_env callback_session (disconnect_payload 11 [98, 121, 101] []) 16
        MacState.confirmed).session.socket_state = SocketState.disconnected ∧
    (libssh2_packet_add demo_env callback_session (disconnect_payload 11 [98, 121, 101] []) 16
        MacState.confirmed).session.packets = [] ∧
    (libssh2_packet_add demo_env callback_session (disconnect_payload 11 [98, 121, 101] []) 16
        MacState.confirmed).session.events = [Event.disconnect 11 [98, 121, 101] 3 [] 0] :=
  have h := disconnect_handling demo_env callback_session 11 [98, 121, 101] [] 16
    MacState.confirmed (by decide) (by decide) (by decide) (by decide)
  ⟨by decide, h.1, h.2.2.1, h.2.2.2.1, h.2.2.2.2.1⟩

theorem debug_payload_fields (always_display : Nat) (message language : List Nat)
    (hml : message.length < 2 ^ 32) (hll : language.length < 2 ^ 32) :
    (debug_payload always_display message language).getD 0 0 = SSH_MSG_DEBUG ∧
    (debug_payload always_display message language).getD 1 0 = always_display ∧
    libssh2_ntohu32 ((debug_payload always_display message language).drop 2) = message.length ∧
    ((debug_payload always_display message language).drop 6).take message.length = message ∧
    libssh2_ntohu32 ((debug_payload always_display message language).drop (6 + message.length)) =
      language.length ∧
    ((debug_payload always_display message language).drop (6 + message.length + 3 + 1)).take
      language.length = language := by
  have e2 : (debug_payload always_display message language).drop 2 =
      libssh2_htonu32 message.length ++ (message ++
        (libssh2_htonu32 language.length ++ language)) := by
    simp [debug_payload]
  have e6 : (debug_payload always_display message language).drop 6 =
      message ++ (libssh2_htonu32 language.length ++ language) := by
    simp [debug_payload, libssh2_htonu32]
  have e6m : (debug_payload always_display message language).drop (6 + message.length) =
      libssh2_htonu32 language.length ++ language := by
    rw [← List.drop_drop, e6, List.drop_left]
  have e10 : (debug_payload always_display message language).drop (6 + message.length + 3 + 1) =
      language := by
    have : 6 + message.length + 3 + 1 = (6 + message.length) + 4 := by omega
    rw [this, ← List.drop_drop, e6m]
    simp [libssh2_htonu32]
  refine ⟨rfl, rfl, ?_, ?_, ?_, ?_⟩
  · rw [e2, ntohu32_htonu32 _ hml]
  · rw [e6, List.take_left]
  · rw [e6m, ntohu32_htonu32 _ hll]
  · rw [e10, List.take_length]

/-- What the dispatcher does with a DEBUG payload whose MAC status is not
Invalid: the debug callback, if registered, is called once with the message
and the language bytes of the payload and with `always_display = 4`, the
message type, whatever the `always_display` byte of the payload is (line
117 reads `data[0]`); nothing else of the session changes. -/
theorem debug_handling_delivers_type (env : Env) (s : Session) (always_display : Nat)
    (message language : List Nat) (datalen : Nat) (macstate : MacState)
    (hmac : macstate ≠ MacState.invalid)
    (hml : message.length < 2 ^ 31) (hll : language.length < 2 ^ 31) :
    libssh2_packet_add env s (debug_payload always_display message language) datalen macstate =
      { ret := 0,
        session :=
          if s.ssh_msg_debug then
            callback s (Event.debug 4 message message.length language language.length)
          else s,
        data_freed := true } := by
  obtain ⟨f0, _, f2, f6, f6m, f10⟩ := debug_payload_fields always_display message language
    (by omega) (by omega)
  have hfit : strings_fit (debug_payload always_display message language) 6 message.length
      language.length = true := by
    simp only [strings_fit, decide_eq_true_eq]
    refine ⟨hml, hll, ?_⟩
    simp [debug_payload, libssh2_htonu32]
    omega
  unfold libssh2_packet_add
  rw [if_neg hmac]
  unfold packet_add_switch
  simp only
  rw [if_neg (by rw [f0]; decide), if_neg (by rw [f0]; decide), if_pos f0]
  simp only [f0, f2, f6, f6m, f10, hfit, Bool.not_true]
  rfl

/-- C16 (DEBUG handling) fails: the debug callback is not given the
`always_display` byte of the payload. For the DEBUG payload with
`always_display = 0`, message "hi" and an empty language tag, the callback is
called with `always_display = 4`: line 117 reads `data[0]`, the message type,
where the flag is `data[1]`. The message and the language are delivered as
they are and the brigade is unchanged. -/
theorem debug_always_display_is_type :
    debug_payload 0 [104, 105] [] = [4, 0, 0, 0, 0, 2, 104, 105, 0, 0, 0, 0] ∧
    (debug_payload 0 [104, 105] []).getD 1 0 = 0 ∧
    (libssh2_packet_add demo_env callback_session (debug_payload 0 [104, 105] []) 12
        MacState.confirmed).session.events = [Event.debug 4 [104, 105] 2 [] 0] ∧
    (libssh2_packet_add demo_env callback_session (debug_payload 0 [104, 105] []) 12
        MacState.confirmed).session.packets = [] := by
  decide

/-! ## KEXINIT -/

theorem packet_write_events (s : Session) (data : List Nat) :
    (libssh2_packet_write s data).2.events = s.events := by
  unfold libssh2_packet_write
  simp only [sock_write]
  split_ifs <;> rfl

theorem count_kex_append (l : List Event) (e : Event) (r : Nat)
    (he : e ≠ Event.kex_exchange r) :
    (l ++ [e]).count (Event.kex_exchange r) = l.count (Event.kex_exchange r) := by
  rw [List.count_append, List.count_singleton]
  simp only [beq_iff_eq, he, if_false, Nat.add_zero]

theorem packet_add_switch_no_kex (env : Env) (s : Session) (data : List Nat) (datalen : Nat)
    (macstate : MacState) (hk : data.getD 0 0 ≠ SSH_MSG_KEXINIT) (r : Nat) :
    (∀ kex, packet_add_switch { env with libssh2_kex_exchange := kex } s data datalen macstate =
      packet_add_switch env s data datalen macstate) ∧
    (packet_add_switch env s data datalen macstate).session.events.count (Event.kex_exchange r) =
      s.events.count (Event.kex_exchange r) := by
  constructor
  · intro kex
    simp only [packet_add_switch, packet_add_channel_data, packet_add_enqueue, hk, false_and,
      if_false]
  · unfold packet_add_switch
    simp only
    by_cases h1 : data.getD 0 0 = SSH_MSG_DISCONNECT
    · rw [if_pos h1]
      split_ifs
      · exact count_kex_append _ _ _ (by simp)
      · rfl
    rw [if_neg h1]
    by_cases h2 : data.getD 0 0 = SSH_MSG_IGNORE
    · rw [if_pos h2]
      split_ifs
      · exact count_kex_append _ _ _ (by simp)
      · rfl
    rw [if_neg h2]
    by_cases h4 : data.getD 0 0 = SSH_MSG_DEBUG
    · rw [if_pos h4]
      split_ifs
      · exact count_kex_append _ _ _ (by simp)
      · rfl
    rw [if_neg h4]
    by_cases h9 : data.getD 0 0 = SSH_MSG_CHANNEL_EXTENDED_DATA ∨
        data.getD 0 0 = SSH_MSG_CHANNEL_DATA
    · rw [if_pos h9]
      unfold packet_add_channel_data
      simp only [packet_add_enqueue, hk, false_and, if_false]
      cases libssh2_channel_locate s (libssh2_ntohu32 (data.drop 1)) with
      | none => rfl
      | some i =>
        simp only
        split_ifs <;> first | rfl | (simp only [libssh2_error, packet_write_events])
    rw [if_neg h9]
    by_cases h96 : data.getD 0 0 = SSH_MSG_CHANNEL_EOF
    · rw [if_pos h96]
      split <;> rfl
    rw [if_neg h96]
    by_cases h97 : data.getD 0 0 = SSH_MSG_CHANNEL_CLOSE
    · rw [if_pos h97]
      split <;> rfl
    rw [if_neg h97]
    simp only [packet_add_enqueue, hk, false_and, if_false]

/-- C17 (KEXINIT handling). For a KEXINIT payload whose MAC status is not
Invalid the dispatcher appends the packet at the tail of the brigade in both
cases; with `exchanging_keys` false it then calls
`libssh2_kex_exchange(session, 1)` once, on the session that holds the packet
at the tail, and the session it returns with is the one the key exchange
leaves; with `exchanging_keys` true nothing else changes. For every other
message type the result of the dispatcher does not depend on
`libssh2_kex_exchange`, and no call of it is recorded. -/
theorem kexinit_handling (env : Env) (s : Session) (data : List Nat) (datalen : Nat)
    (macstate : MacState) :
    (data.getD 0 0 = SSH_MSG_KEXINIT → macstate ≠ MacState.invalid →
      (s.exchanging_keys = false →
        libssh2_packet_add env s data datalen macstate =
          { ret := 0,
            session := env.libssh2_kex_exchange
              (callback
                { s with packets := s.packets ++
                    [{ data := data, data_len := datalen, data_head := 0, mac := macstate }] }
                (Event.kex_exchange 1)) 1,
            data_freed := true }) ∧
      (s.exchanging_keys = true →
        libssh2_packet_add env s data datalen macstate =
          { ret := 0,
            session :=
              { s with packets := s.packets ++
                  [{ data := data, data_len := datalen, data_head := 0, mac := macstate }] },
            data_freed := false })) ∧
    (data.getD 0 0 ≠ SSH_MSG_KEXINIT →
      (∀ kex, libssh2_packet_add { env with libssh2_kex_exchange := kex } s data datalen macstate =
        libssh2_packet_add env s data datalen macstate) ∧
      ∀ r, (libssh2_packet_add env s data datalen macstate).session.events.count
          (Event.kex_exchange r) = s.events.count (Event.kex_exchange r)) := by
  constructor
  · intro hk hmac
    have hsw : libssh2_packet_add env s data datalen macstate =
        packet_add_enqueue env s data datalen 0 macstate := by
      unfold libssh2_packet_add
      rw [if_neg hmac]
      unfold packet_add_switch
      simp only
      rw [if_neg (by rw [hk]; decide), if_neg (by rw [hk]; decide), if_neg (by rw [hk]; decide),
        if_neg (by rw [hk]; decide), if_neg (by rw [hk]; decide), if_neg (by rw [hk]; decide)]
    rw [hsw]
    constructor
    · intro hex
      simp only [packet_add_enqueue, hk, hex, and_self, if_true]
    · intro hex
      simp only [packet_add_enqueue, hk, hex, Bool.true_eq_false, and_false, if_false]
  · intro hk
    constructor
    · intro kex
      unfold libssh2_packet_add
      simp only [(packet_add_switch_no_kex env _ data datalen _ hk 0).1 kex]
    · intro r
      unfold libssh2_packet_add
      by_cases hm : macstate = MacState.invalid
      · rw [if_pos hm]
        cases hcb : s.macerror with
        | none =>
          simp only [packet_add_mac_failure]
          split_ifs
          · exact count_kex_append _ _ _ (by simp)
          · rfl
        | some f =>
          simp only
          split_ifs
          · rw [(packet_add_switch_no_kex env _ data datalen _ hk r).2]
            exact count_kex_append _ _ _ (by simp)
          · simp only [packet_add_mac_failure]
            split_ifs
            · simp only [callback, libssh2_error]
              rw [count_kex_append _ _ _ (by simp)]
              exact count_kex_append _ _ _ (by simp)
            · exact count_kex_append _ _ _ (by simp)
      · rw [if_neg hm]
        exact (packet_add_switch_no_kex env s data datalen macstate hk r).2

/-- Witness of `kexinit_handling`: a KEXINIT dispatched with
`exchanging_keys` false and with `exchanging_keys` true, and a
USERAUTH_BANNER. -/
theorem kexinit_handling_witness :
    (libssh2_packet_add demo_env plain_idle_session [20, 1, 2] 3 MacState.confirmed =
      { ret := 0,
        session := demo_env.libssh2_kex_exchange
          (callback
            { plain_idle_session with packets := plain_idle_session.packets ++
                [{ data := [20, 1, 2], data_len := 3, data_head := 0,
                   mac := MacState.confirmed }] }
            (Event.kex_exchange 1)) 1,
        data_freed := true }) ∧
    (libssh2_packet_add demo_env { plain_idle_session with exchanging_keys := true } [20, 1, 2] 3
        MacState.confirmed =
      { ret := 0,
        session :=
          { { plain_idle_session with exchanging_keys := true } with
            packets := plain_idle_session.packets ++
              [{ data := [20, 1, 2], data_len := 3, data_head := 0,
                 mac := MacState.confirmed }] },
        data_freed := false }) ∧
    (∀ r, (libssh2_packet_add demo_env plain_idle_session [53, 1] 2
        MacState.confirmed).session.events.count (Event.kex_exchange r) =
      plain_idle_session.events.count (Event.kex_exchange r)) :=
  ⟨((kexinit_handling demo_env plain_idle_session [20, 1, 2] 3 MacState.confirmed).1
      rfl (by decide)).1 rfl,
   ((kexinit_handling demo_env { plain_idle_session with exchanging_keys := true } [20, 1, 2] 3
      MacState.confirmed).1 rfl (by decide)).2 rfl,
   ((kexinit_handling demo_env plain_idle_session [53, 1] 2 MacState.confirmed).2
      (by decide)).2⟩

/-! ## Channel flow control -/

theorem channel_locate_some (s : Session) (id i : Nat)
    (h : libssh2_channel_locate s id = some i) :
    i < s.channels.length ∧ (channel_at s i).remote.id = id := by
  unfold libssh2_channel_locate at h
  obtain ⟨hi, hp, _⟩ := List.findIdx?_eq_some_iff_getElem.mp h
  refine ⟨hi, ?_⟩
  simp only [beq_iff_eq] at hp
  simp only [channel_at, List.getD_eq_getElem?_getD, List.getElem?_eq_getElem hi, Option.getD_some]
  exact hp

theorem toULong_sub (w a b : Nat) (hb : b ≤ a) (ha : a < 2 ^ w) :
    toULong w ((a : Int) - (b : Int)) = a - b := by
  have : (a : Int) - (b : Int) = ((a - b : Nat) : Int) := by omega
  rw [this]
  exact toULong_of_nat _ _ (by omega)

/-- C18 (channel flow control, data within the window), as amended. For a
CHANNEL_DATA packet that passes the MAC gate, names a known channel and
carries `L = datalen - 9` bytes, where `L` exceeds neither the window `W` of
the channel nor its packet size, and the window is not a full one (`W = 0`
with a nonzero initial window): the dispatcher returns 0, sets the window of
the channel to `W - L` (and clears its EOF flag), and appends the packet to
the brigade with its length `datalen` and `data_head = 9`. -/
theorem channel_data_within_window (env : Env) (s : Session) (data : List Nat) (datalen : Nat)
    (macstate : MacState) (i : Nat)
    (ht : data.getD 0 0 = SSH_MSG_CHANNEL_DATA) (hmac : macstate ≠ MacState.invalid)
    (hloc : libssh2_channel_locate s (libssh2_ntohu32 (data.drop 1)) = some i)
    (h9 : 9 ≤ datalen) (hdl : datalen < 2 ^ env.ulong_bits)
    (hW : (channel_at s i).remote.window_size < 2 ^ env.ulong_bits)
    (hLW : datalen - 9 ≤ (channel_at s i).remote.window_size)
    (hLP : datalen - 9 ≤ (channel_at s i).remote.packet_size)
    (hfull : ¬ ((channel_at s i).remote.window_size_initial ≠ 0 ∧
      (channel_at s i).remote.window_size = 0)) :
    libssh2_packet_add env s data datalen macstate =
      { ret := 0,
        session :=
          { set_channel s i
              { remote := { (channel_at s i).remote with
                  eof := false,
                  window_size := (channel_at s i).remote.window_size - (datalen - 9) } } with
            packets := s.packets ++
              [{ data := data, data_len := datalen, data_head := 9, mac := macstate }] },
        data_freed := false } ∧
    (channel_at s i).remote.id = libssh2_ntohu32 (data.drop 1) ∧
    (channel_at (libssh2_packet_add env s data datalen macstate).session i).remote.window_size =
      (channel_at s i).remote.window_size - (datalen - 9) ∧
    (libssh2_packet_add env s data datalen macstate).session.packets =
      s.packets ++ [{ data := data, data_len := datalen, data_head := 9, mac := macstate }] := by
  obtain ⟨hi, hid⟩ := channel_locate_some s _ i hloc
  have hL : toULong env.ulong_bits ((datalen : Int) - ((9 : Nat) : Int)) = datalen - 9 :=
    toULong_sub _ _ _ h9 hdl
  have hWL : toULong env.ulong_bits (((channel_at s i).remote.window_size : Int) -
      ((datalen - 9 : Nat) : Int)) = (channel_at s i).remote.window_size - (datalen - 9) :=
    toULong_sub _ _ _ hLW hW
  have hadd : libssh2_packet_add env s data datalen macstate =
      { ret := 0,
        session :=
          { set_channel s i
              { remote := { (channel_at s i).remote with
                  eof := false,
                  window_size := (channel_at s i).remote.window_size - (datalen - 9) } } with
            packets := s.packets ++
              [{ data := data, data_len := datalen, data_head := 9, mac := macstate }] },
        data_freed := false } := by
    unfold libssh2_packet_add
    rw [if_neg hmac]
    unfold packet_add_switch
    simp only
    rw [if_neg (by rw [ht]; decide), if_neg (by rw [ht]; decide), if_neg (by rw [ht]; decide),
      if_pos (Or.inr ht)]
    unfold packet_add_channel_data
    have hne : ¬ data.getD 0 0 = SSH_MSG_CHANNEL_EXTENDED_DATA := by rw [ht]; decide
    have hnk : ¬ data.getD 0 0 = SSH_MSG_KEXINIT := by rw [ht]; decide
    simp only [channel_at] at hL hWL hLW hLP hfull
    simp only [hloc, hne, and_false, if_false, hL, not_lt.mpr hLP, Nat.le_zero, hfull,
      gt_iff_lt, not_lt.mpr hLW, hWL, packet_add_enqueue, hnk, false_and, channel_at]
    rfl
  rw [hadd]
  refine ⟨rfl, hid, ?_, rfl⟩
  simp only [channel_at, set_channel, List.getD_eq_getElem?_getD]
  simp [hi]

/-- Counterexample to C18 as stated. With a window of 100 and a packet size
of 3, a CHANNEL_DATA of `L = 10` bytes is cut to the packet size: it is
queued with `data_len = 12` and the window becomes 97, not 90. And with a
full window (`W = 0`, initial window 100) a CHANNEL_DATA of `L = 0` bytes is
dropped with a warning, not queued. -/
theorem within_window_counterexample :
    (19 - 9 ≤ (channel_at (channel_session 100 100 3 ExtendedDataMode.normal) 0).remote.window_size ∧
      (libssh2_packet_add demo_env (channel_session 100 100 3 ExtendedDataMode.normal)
          ten_bytes_data 19 MacState.confirmed).session.packets =
        [{ data := ten_bytes_data, data_len := 12, data_head := 9, mac := MacState.confirmed }] ∧
      (channel_at (libssh2_packet_add demo_env (channel_session 100 100 3 ExtendedDataMode.normal)
          ten_bytes_data 19 MacState.confirmed).session 0).remote.window_size = 97) ∧
    (9 - 9 ≤ (channel_at (channel_session 100 0 100 ExtendedDataMode.normal) 0).remote.window_size ∧
      (libssh2_packet_add demo_env (channel_session 100 0 100 ExtendedDataMode.normal)
          [94, 0, 0, 0, 0, 0, 0, 0, 0] 9 MacState.confirmed).session.packets = [] ∧
      (libssh2_packet_add demo_env (channel_session 100 0 100 ExtendedDataMode.normal)
          [94, 0, 0, 0, 0, 0, 0, 0, 0] 9 MacState.confirmed).session.errors =
        [ErrorCode.CHANNEL_WINDOW_EXCEEDED]) := by
  decide

/-- Witness of `channel_data_within_window`: ten bytes for a channel with a
window of 100 and a packet size of 100. -/
theorem channel_data_within_window_witness :
    (channel_at (libssh2_packet_add demo_env (channel_session 100 100 100 ExtendedDataMode.normal)
        ten_bytes_data 19 MacState.confirmed).session 0).remote.window_size = 90 ∧
    (libssh2_packet_add demo_env (channel_session 100 100 100 ExtendedDataMode.normal)
        ten_bytes_data 19 MacState.confirmed).session.packets =
      [{ data := ten_bytes_data, data_len := 19, data_head := 9, mac := MacState.confirmed }] :=
  (channel_data_within_window demo_env (channel_session 100 100 100 ExtendedDataMode.normal)
    ten_bytes_data 19 MacState.confirmed 0 rfl (by decide) rfl (by decide) (by decide)
    (by decide) (by decide) (by decide) (by decide)).2.2

/-- C19 (channel flow control, data beyond the window), as amended. For a
CHANNEL_DATA packet that passes the MAC gate and names a known channel whose
window `W` is enforced (`window_size_initial` nonzero), not full (`W > 0`)
and smaller than the packet size, carrying `L = datalen - 9 > W` bytes: the
dispatcher returns 0, appends the packet to the brigade with `data_len`
truncated to `W + 9` and `data_head = 9`, and records
CHANNEL_WINDOW_EXCEEDED (after CHANNEL_PACKET_EXCEEDED when `L` also exceeds
the packet size). -/
theorem channel_data_beyond_window (env : Env) (s : Session) (data : List Nat) (datalen : Nat)
    (macstate : MacState) (i : Nat)
    (ht : data.getD 0 0 = SSH_MSG_CHANNEL_DATA) (hmac : macstate ≠ MacState.invalid)
    (hloc : libssh2_channel_locate s (libssh2_ntohu32 (data.drop 1)) = some i)
    (h9 : 9 ≤ datalen) (hdl : datalen < 2 ^ env.ulong_bits)
    (hW9 : (channel_at s i).remote.window_size + 9 < 2 ^ env.ulong_bits)
    (hLW : (channel_at s i).remote.window_size < datalen - 9)
    (hPW : (channel_at s i).remote.window_size < (channel_at s i).remote.packet_size)
    (hinit : (channel_at s i).remote.window_size_initial ≠ 0)
    (hW0 : (channel_at s i).remote.window_size ≠ 0) :
    (libssh2_packet_add env s data datalen macstate).ret = 0 ∧
    (libssh2_packet_add env s data datalen macstate).session.packets =
      s.packets ++
        [{ data := data, data_len := (channel_at s i).remote.window_size + 9, data_head := 9,
           mac := macstate }] ∧
    (libssh2_packet_add env s data datalen macstate).session.errors =
      s.errors ++
        (if (channel_at s i).remote.packet_size < datalen - 9 then
          [ErrorCode.CHANNEL_PACKET_EXCEEDED] else []) ++
        [ErrorCode.CHANNEL_WINDOW_EXCEEDED] := by
  have hL : toULong env.ulong_bits ((datalen : Int) - ((9 : Nat) : Int)) = datalen - 9 :=
    toULong_sub _ _ _ h9 hdl
  have hne : ¬ data.getD 0 0 = SSH_MSG_CHANNEL_EXTENDED_DATA := by rw [ht]; decide
  have hnk : ¬ data.getD 0 0 = SSH_MSG_KEXINIT := by rw [ht]; decide
  have hmod : ((channel_at s i).remote.window_size + 9) % 2 ^ env.ulong_bits =
      (channel_at s i).remote.window_size + 9 := Nat.mod_eq_of_lt hW9
  have hadd : libssh2_packet_add env s data datalen macstate =
      { ret := 0,
        session :=
          { libssh2_error
              (set_channel
                (if (channel_at s i).remote.packet_size < datalen - 9 then
                  libssh2_error s ErrorCode.CHANNEL_PACKET_EXCEEDED
                else s)
                i { remote := { (channel_at s i).remote with eof := false } })
              ErrorCode.CHANNEL_WINDOW_EXCEEDED with
            packets := s.packets ++
              [{ data := data, data_len := (channel_at s i).remote.window_size + 9,
                 data_head := 9, mac := macstate }] },
        data_freed := false } := by
    unfold libssh2_packet_add
    rw [if_neg hmac]
    unfold packet_add_switch
    simp only
    rw [if_neg (by rw [ht]; decide), if_neg (by rw [ht]; decide), if_neg (by rw [ht]; decide),
      if_pos (Or.inr ht)]
    unfold packet_add_channel_data
    by_cases hex : (channel_at s i).remote.packet_size < datalen - 9
    · have hP : ((channel_at s i).remote.packet_size + 9) % 2 ^ env.ulong_bits =
          (channel_at s i).remote.packet_size + 9 := Nat.mod_eq_of_lt (by omega)
      have hL1 : toULong env.ulong_bits
          ((((channel_at s i).remote.packet_size + 9 : Nat) : Int) - ((9 : Nat) : Int)) =
          (channel_at s i).remote.packet_size := by
        rw [toULong_sub _ _ _ (by omega) (by omega)]
        omega
      simp only [channel_at] at hL hL1 hLW hPW hinit hW0 hex hmod hP
      simp only [hloc, hne, and_false, if_false, hL, hex, if_true, hP, hL1, Nat.le_zero, hW0,
        gt_iff_lt, hPW, hinit, ne_eq, not_false_eq_true, and_self, hmod, packet_add_enqueue,
        hnk, false_and, channel_at]
      rfl
    · simp only [channel_at] at hL hLW hPW hinit hW0 hex hmod
      simp only [hloc, hne, and_false, if_false, hL, hex, Nat.le_zero, hW0,
        gt_iff_lt, hLW, hinit, ne_eq, not_false_eq_true, and_self, if_true, hmod,
        packet_add_enqueue, hnk, false_and, channel_at]
      rfl
  rw [hadd]
  refine ⟨rfl, rfl, ?_⟩
  simp only [libssh2_error, set_channel]
  split_ifs <;> simp

/-- Counterexample to C19 as stated, for a CHANNEL_DATA of `L = 10` bytes.
With a full window (`W = 0`, initial window 100) the packet is dropped. With
no initial window (`window_size_initial = 0`) and `W = 5` the packet is
queued whole without a warning. With `W = 5` and a packet size of 3 the
packet is cut to the packet size (`data_len = 12`) and the warning is
CHANNEL_PACKET_EXCEEDED alone. -/
theorem beyond_window_counterexample :
    ((channel_at (channel_session 100 0 100 ExtendedDataMode.normal) 0).remote.window_size < 19 - 9 ∧
      (libssh2_packet_add demo_env (channel_session 100 0 100 ExtendedDataMode.normal)
          ten_bytes_data 19 MacState.confirmed).session.packets = []) ∧
    ((channel_at (channel_session 0 5 100 ExtendedDataMode.normal) 0).remote.window_size < 19 - 9 ∧
      (libssh2_packet_add demo_env (channel_session 0 5 100 ExtendedDataMode.normal)
          ten_bytes_data 19 MacState.confirmed).session.packets =
        [{ data := ten_bytes_data, data_len := 19, data_head := 9, mac := MacState.confirmed }] ∧
      (libssh2_packet_add demo_env (channel_session 0 5 100 ExtendedDataMode.normal)
          ten_bytes_data 19 MacState.confirmed).session.errors = []) ∧
    ((channel_at (channel_session 100 5 3 ExtendedDataMode.normal) 0).remote.window_size < 19 - 9 ∧
      (libssh2_packet_add demo_env (channel_session 100 5 3 ExtendedDataMode.normal)
          ten_bytes_data 19 MacState.confirmed).session.packets =
        [{ data := ten_bytes_data, data_len := 12, data_head := 9, mac := MacState.confirmed }] ∧
      (libssh2_packet_add demo_env (channel_session 100 5 3 ExtendedDataMode.normal)
          ten_bytes_data 19 MacState.confirmed).session.errors =
        [ErrorCode.CHANNEL_PACKET_EXCEEDED]) := by
  decide

/-- Witness of `channel_data_beyond_window`: ten bytes for a channel with a
window of 5 and a packet size of 100. -/
theorem channel_data_beyond_window_witness :
    (libssh2_packet_add demo_env (channel_session 100 5 100 ExtendedDataMode.normal)
        ten_bytes_data 19 MacState.confirmed).session.packets =
      [{ data := ten_bytes_data, data_len := 14, data_head := 9, mac := MacState.confirmed }] ∧
    (libssh2_packet_add demo_env (channel_session 100 5 100 ExtendedDataMode.normal)
        ten_bytes_data 19 MacState.confirmed).session.errors =
      [ErrorCode.CHANNEL_WINDOW_EXCEEDED] :=
  (channel_data_beyond_window demo_env (channel_session 100 5 100 ExtendedDataMode.normal)
    ten_bytes_data 19 MacState.confirmed 0 rfl (by decide) rfl (by decide) (by decide)
    (by decide) (by decide) (by decide) (by decide) (by decide)).2

/-- C20 (ignored extended data is compensated), as amended. For a
CHANNEL_EXTENDED_DATA packet of `datalen >= 13` bytes that passes the MAC
gate and names a known channel whose extended-data mode is Ignore and whose
`window_size_initial` is nonzero: the dispatcher returns 0, appends nothing
to the brigade, and calls `libssh2_packet_write` once, with the 9-byte
payload `[93, remote.id as u32, (datalen - 13) as u32]`; the session
afterwards is the one that call leaves (with SOCKET_SEND recorded when the
write fails). In plaintext mode the bytes sent are the frame of that
payload, as far as the socket takes them. -/
theorem ignored_extended_data_compensated (env : Env) (s : Session) (data : List Nat)
    (datalen : Nat) (macstate : MacState) (i : Nat)
    (ht : data.getD 0 0 = SSH_MSG_CHANNEL_EXTENDED_DATA) (hmac : macstate ≠ MacState.invalid)
    (hloc : libssh2_channel_locate s (libssh2_ntohu32 (data.drop 1)) = some i)
    (hmode : (channel_at s i).remote.extended_data_ignore_mode = ExtendedDataMode.ignore)
    (hinit : (channel_at s i).remote.window_size_initial ≠ 0)
    (h13 : 13 ≤ datalen) (hdl : datalen < 2 ^ env.ulong_bits) :
    libssh2_packet_add env s data datalen macstate =
      { ret := 0,
        session :=
          if (libssh2_packet_write s
              (window_adjust_payload (channel_at s i).remote.id (datalen - 13))).1 ≠ 0 then
            libssh2_error
              (libssh2_packet_write s
                (window_adjust_payload (channel_at s i).remote.id (datalen - 13))).2
              ErrorCode.SOCKET_SEND
          else
            (libssh2_packet_write s
              (window_adjust_payload (channel_at s i).remote.id (datalen - 13))).2,
        data_freed := true } ∧
    (window_adjust_payload (channel_at s i).remote.id (datalen - 13)).length = 9 ∧
    (channel_at s i).remote.id = libssh2_ntohu32 (data.drop 1) ∧
    (libssh2_packet_add env s data datalen macstate).session.packets = s.packets ∧
    (s.newkeys = false →
      (libssh2_packet_add env s data datalen macstate).session.sock_out =
        s.sock_out ++
          (write_frame (window_adjust_payload (channel_at s i).remote.id (datalen - 13)) 8).take
            s.sock_room) := by
  obtain ⟨hi, hid⟩ := channel_locate_some s _ i hloc
  have hL : toULong env.ulong_bits ((datalen : Int) - 13) = datalen - 13 :=
    toULong_sub _ _ 13 h13 hdl
  have hadd : libssh2_packet_add env s data datalen macstate =
      { ret := 0,
        session :=
          if (libssh2_packet_write s
              (window_adjust_payload (channel_at s i).remote.id (datalen - 13))).1 ≠ 0 then
            libssh2_error
              (libssh2_packet_write s
                (window_adjust_payload (channel_at s i).remote.id (datalen - 13))).2
              ErrorCode.SOCKET_SEND
          else
            (libssh2_packet_write s
              (window_adjust_payload (channel_at s i).remote.id (datalen - 13))).2,
        data_freed := true } := by
    unfold libssh2_packet_add
    rw [if_neg hmac]
    unfold packet_add_switch
    simp only
    rw [if_neg (by rw [ht]; decide), if_neg (by rw [ht]; decide), if_neg (by rw [ht]; decide),
      if_pos (Or.inl ht)]
    unfold packet_add_channel_data
    simp only [channel_at] at hmode hinit
    simp only [hloc, hmode, ht, and_self, if_true, hinit, ne_eq, not_false_eq_true, hL,
      window_adjust_payload, channel_at]
  rw [hadd]
  refine ⟨rfl, rfl, hid, ?_, ?_⟩
  · simp only
    split_ifs
    · simp only [libssh2_error]
      exact packet_write_packets _ _
    · exact packet_write_packets _ _
  · intro hnk
    have hout : (libssh2_packet_write s
        (window_adjust_payload (channel_at s i).remote.id (datalen - 13))).2.sock_out =
        s.sock_out ++
          (write_frame (window_adjust_payload (channel_at s i).remote.id (datalen - 13)) 8).take
            s.sock_room := by
      simp only [libssh2_packet_write, hnk, Bool.false_eq_true, if_false, sock_write, ne_eq,
        not_true_eq_false]
    simp only
    split_ifs
    · simp only [libssh2_error]
      exact hout
    · exact hout

/-- Counterexample to C20 as stated: on a channel that ignores extended data
and has `window_size_initial = 0`, a CHANNEL_EXTENDED_DATA of 40 bytes is
dropped and nothing is transmitted (the adjustment is sent only under the
test of line 160). -/
theorem ignored_extended_data_not_compensated :
    forty_bytes_extended.length = 40 ∧
    channel_ignoring (channel_session 0 100 100 ExtendedDataMode.ignore) forty_bytes_extended
      = true ∧
    (libssh2_packet_add demo_env (channel_session 0 100 100 ExtendedDataMode.ignore)
        forty_bytes_extended 40 MacState.confirmed).session.packets = [] ∧
    (libssh2_packet_add demo_env (channel_session 0 100 100 ExtendedDataMode.ignore)
        forty_bytes_extended 40 MacState.confirmed).session.sock_out = [] := by
  decide

/-- Witness of `ignored_extended_data_compensated`: a CHANNEL_EXTENDED_DATA
of 40 bytes on a channel that ignores extended data and has an initial
window of 100; one WINDOW_ADJUST of 27 bytes is sent. -/
theorem ignored_extended_data_compensated_witness :
    window_adjust_payload 0 27 = [93, 0, 0, 0, 0, 0, 0, 0, 27] ∧
    (libssh2_packet_add demo_env (channel_session 100 100 100 ExtendedDataMode.ignore)
        forty_bytes_extended 40 MacState.confirmed).session.packets = [] ∧
    (libssh2_packet_add demo_env (channel_session 100 100 100 ExtendedDataMode.ignore)
        forty_bytes_extended 40 MacState.confirmed).session.sock_out =
      [0, 0, 0, 20, 10, 93, 0, 0, 0, 0, 0, 0, 0, 27, 0, 0, 0, 0, 0, 0, 0, 0, 0, 0] :=
  have h := ignored_extended_data_compensated demo_env
    (channel_session 100 100 100 ExtendedDataMode.ignore) forty_bytes_extended 40
    MacState.confirmed 0 rfl (by decide) rfl rfl (by decide) (by decide) (by decide)
  ⟨by decide, h.2.2.2.1, h.2.2.2.2 rfl⟩

/-! ## Window accounting -/

/-- What the dispatcher does with channel data that it queues without
cutting it to the window: for a CHANNEL_DATA or CHANNEL_EXTENDED_DATA packet
that passes the MAC gate, names a known channel, is not ignored, does not
meet a full window, and whose accepted byte count (the bytes carried, cut to
the packet size) fits an enforced window, the packet is queued with that
count after its head, the window is charged with it (as `unsigned long`
arithmetic) and the EOF flag is cleared. -/
theorem channel_data_accounting (env : Env) (s : Session) (data : List Nat) (datalen : Nat)
    (macstate : MacState) (i head : Nat)
    (ht : data.getD 0 0 = SSH_MSG_CHANNEL_DATA ∨ data.getD 0 0 = SSH_MSG_CHANNEL_EXTENDED_DATA)
    (hhead : head = if data.getD 0 0 = SSH_MSG_CHANNEL_EXTENDED_DATA then 13 else 9)
    (hmac : macstate ≠ MacState.invalid)
    (hloc : libssh2_channel_locate s (libssh2_ntohu32 (data.drop 1)) = some i)
    (hlen : head ≤ datalen) (hdl : datalen < 2 ^ env.ulong_bits)
    (hP : (channel_at s i).remote.packet_size + head < 2 ^ env.ulong_bits)
    (hign : ¬ ((channel_at s i).remote.extended_data_ignore_mode = ExtendedDataMode.ignore ∧
      data.getD 0 0 = SSH_MSG_CHANNEL_EXTENDED_DATA))
    (hfull : ¬ ((channel_at s i).remote.window_size_initial ≠ 0 ∧
      (channel_at s i).remote.window_size = 0))
    (hfit : ¬ ((channel_at s i).remote.window_size_initial ≠ 0 ∧
      (channel_at s i).remote.window_size <
        min (datalen - head) (channel_at s i).remote.packet_size)) :
    (libssh2_packet_add env s data datalen macstate).session.packets =
      s.packets ++
        [{ data := data,
           data_len := min (datalen - head) (channel_at s i).remote.packet_size + head,
           data_head := head, mac := macstate }] ∧
    min (datalen - head) (channel_at s i).remote.packet_size ≤
      (channel_at s i).remote.packet_size ∧
    (channel_at (libssh2_packet_add env s data datalen macstate).session i).remote.window_size =
      toULong env.ulong_bits (((channel_at s i).remote.window_size : Int) -
        (min (datalen - head) (channel_at s i).remote.packet_size : Nat)) ∧
    (channel_at (libssh2_packet_add env s data datalen macstate).session i).remote.eof = false := by
  obtain ⟨hi, _⟩ := channel_locate_some s _ i hloc
  have hnk : ¬ data.getD 0 0 = SSH_MSG_KEXINIT := by
    rcases ht with h | h <;> rw [h] <;> decide
  have hL : toULong env.ulong_bits ((datalen : Int) - (head : Int)) = datalen - head :=
    toULong_sub _ _ _ hlen hdl
  have hsw : libssh2_packet_add env s data datalen macstate =
      packet_add_channel_data env s data datalen macstate := by
    unfold libssh2_packet_add
    rw [if_neg hmac]
    unfold packet_add_switch
    simp only
    rw [if_neg (by rcases ht with h | h <;> rw [h] <;> decide),
      if_neg (by rcases ht with h | h <;> rw [h] <;> decide),
      if_neg (by rcases ht with h | h <;> rw [h] <;> decide), if_pos ht.symm]
  rw [hsw]
  unfold packet_add_channel_data
  simp only [← hhead, hloc]
  simp only [channel_at] at hP hign hfull hfit ⊢
  rw [if_neg hign]
  simp only [hL, Nat.le_zero]
  rw [if_neg hfull]
  by_cases hex : (s.channels.getD i { remote := ⟨0, 0, 0, 0, false, false, .normal⟩ }
      ).remote.packet_size < datalen - head
  · have hmin : min (datalen - head) (s.channels.getD i
        { remote := ⟨0, 0, 0, 0, false, false, .normal⟩ }).remote.packet_size =
        (s.channels.getD i { remote := ⟨0, 0, 0, 0, false, false, .normal⟩ }
          ).remote.packet_size := Nat.min_eq_right (Nat.le_of_lt hex)
    have hPm := Nat.mod_eq_of_lt hP
    have hL1 : toULong env.ulong_bits
        ((((s.channels.getD i { remote := ⟨0, 0, 0, 0, false, false, .normal⟩ }
          ).remote.packet_size + head : Nat) : Int) - (head : Int)) =
        (s.channels.getD i { remote := ⟨0, 0, 0, 0, false, false, .normal⟩ }
          ).remote.packet_size := by
      rw [toULong_sub _ _ _ (by omega) hP]
      omega
    rw [hmin] at hfit ⊢
    simp only [hex, if_true, hPm, hL1, gt_iff_lt]
    rw [if_neg hfit]
    simp only [packet_add_enqueue, hnk, false_and, if_false]
    simp only [set_channel, libssh2_error, List.getD_eq_getElem?_getD]
    simp [hi]
  · have hmin : min (datalen - head) (s.channels.getD i
        { remote := ⟨0, 0, 0, 0, false, false, .normal⟩ }).remote.packet_size =
        datalen - head := Nat.min_eq_left (by omega)
    rw [hmin] at hfit ⊢
    simp only [hex, if_false, hL, gt_iff_lt]
    rw [if_neg hfit]
    simp only [packet_add_enqueue, hnk, false_and, if_false]
    simp only [set_channel, libssh2_error, List.getD_eq_getElem?_getD]
    simp [hi]
    simp only [List.getD_eq_getElem?_getD, List.getElem?_eq_getElem hi, Option.getD_some] at hex
    omega

/-- C21 (window accounting matches what is queued) fails where a packet is
cut to the window. A CHANNEL_DATA of 10 bytes for a channel with a window of
5 (initial window 100, packet size 100) is queued with `data_len = 14`, so 5
bytes are accepted, but the window is 5 afterwards, not 0: the branch of
line 190 sets `datalen` and leaves `window_size` alone, where the `else`
branch of line 195 charges the window. The same holds for a
CHANNEL_EXTENDED_DATA of 27 bytes (`data_len = 18`, window still 5). -/
theorem window_not_charged_when_truncated :
    (channel_at (channel_session 100 5 100 ExtendedDataMode.normal) 0).remote.window_size = 5 ∧
    (libssh2_packet_add demo_env (channel_session 100 5 100 ExtendedDataMode.normal)
        ten_bytes_data 19 MacState.confirmed).session.packets =
      [{ data := ten_bytes_data, data_len := 14, data_head := 9, mac := MacState.confirmed }] ∧
    (channel_at (libssh2_packet_add demo_env (channel_session 100 5 100 ExtendedDataMode.normal)
        ten_bytes_data 19 MacState.confirmed).session 0).remote.window_size = 5 ∧
    5 ≠ 5 - (14 - 9) ∧
    (libssh2_packet_add demo_env (channel_session 100 5 100 ExtendedDataMode.normal)
        forty_bytes_extended 40 MacState.confirmed).session.packets =
      [{ data := forty_bytes_extended, data_len := 18, data_head := 13,
         mac := MacState.confirmed }] ∧
    (channel_at (libssh2_packet_add demo_env (channel_session 100 5 100 ExtendedDataMode.normal)
        forty_bytes_extended 40 MacState.confirmed).session 0).remote.window_size = 5 ∧
    5 ≠ 5 - (18 - 13) := by
  decide

/-! ## The poll of `libssh2_packet_ask_ex` -/

/-- On a brigade that is not empty and holds no match, a poll that queues a
matching packet makes `libssh2_packet_ask_ex` return that packet: the scan
starts from the old head and reaches the new tail. -/
theorem ask_poll_finds_queued (env : Env) (s : Session) (t o : Nat) (m : Option (List Nat))
    (len : Nat) (ret : Int) (s1 : Session) (p : Packet)
    (hne : s.packets ≠ [])
    (hread : libssh2_packet_read env s false = some (ret, s1)) (hret : ¬ ret < 0)
    (hq : s1.packets = s.packets ++ [p])
    (hno : ∀ q ∈ s.packets, packet_matches q t o m len = false)
    (hp : packet_matches p t o m len = true) :
    libssh2_packet_ask_ex env s t o m len true =
      some { ret := 0, data := some p.data, data_len := some p.data_len,
             session := { s1 with packets := s.packets } } := by
  have hemp : s.packets.isEmpty = false := by
    cases hs : s.packets with
    | nil => exact absurd hs hne
    | cons a l => rfl
  have hscan := brigade_scan_append_last t o m len p hp s.packets hno
  simp only [libssh2_packet_ask_ex, if_true, hread, hret, if_false, hemp, Bool.false_eq_true,
    packet_ask_scan, hq, hscan, List.append_nil]

/-- C22 (`libssh2_packet_ask_ex` with poll reads first, then scans) fails on
an empty brigade. With keys active and a complete frame of type 21 waiting,
the non-blocking read of `ask(21, poll = 1)` queues the packet, yet the call
returns -1 and the packet stays in the brigade: `packet` is initialised from
`session->packets.head` at line 516, before the poll, so on an empty brigade
the scan starts from NULL. With an unmatched packet already queued the same
call returns the new packet. -/
theorem ask_poll_misses_on_empty_brigade :
    cipher_frame_session.packets = [] ∧
    (libssh2_packet_read demo_env cipher_frame_session false).map
        (fun r => (r.1, r.2.packets)) =
      some (21, [⟨[21, 1, 2, 3, 4, 0, 0, 0, 0, 0, 0], 5, 0, MacState.confirmed⟩]) ∧
    packet_matches ⟨[21, 1, 2, 3, 4, 0, 0, 0, 0, 0, 0], 5, 0, MacState.confirmed⟩ 21 0 none 0
      = true ∧
    (libssh2_packet_ask_ex demo_env cipher_frame_session 21 0 none 0 true).map
        (fun r => (r.ret, r.data, r.session.packets)) =
      some (-1, none, [⟨[21, 1, 2, 3, 4, 0, 0, 0, 0, 0, 0], 5, 0, MacState.confirmed⟩]) ∧
    (libssh2_packet_ask_ex demo_env cipher_frame_session_queued 21 0 none 0 true).map
        (fun r => (r.ret, r.data, r.session.packets)) =
      some (0, some [21, 1, 2, 3, 4, 0, 0, 0, 0, 0, 0],
        [⟨[80, 0], 2, 0, MacState.confirmed⟩]) := by
  decide

/-! ## The block loop of `libssh2_packet_read` -/

/-- The loop of lines 381-402 on a socket that holds `j` more blocks, with a
cipher that keeps the block length and does not fail: when `j` blocks are
missing from the payload, the loop reads exactly `j` blocks and the payload
grows by `j` blocks. -/
theorem read_blocks_fill (env : Env) (c : CryptMethod) (hw : 32 ≤ env.ulong_bits)
    (hb0 : 0 < c.blocksize) (hb : c.blocksize < 2 ^ 31)
    (hcipher : ∀ a blk, blk.length = c.blocksize →
      (c.crypt a blk).2.2.length = c.blocksize ∧ (c.evp = true ∨ (c.crypt a blk).1 = false)) :
    ∀ (j : Nat) (s : Session) (acc : List Nat) (filled fuel : Nat),
      s.remote.crypt = c → j * c.blocksize ≤ s.sock_in.length → j < fuel →
      ∃ payload s1,
        read_blocks env fuel s acc filled (filled + j * c.blocksize) =
          some (Step.next payload s1) ∧
        payload.length = acc.length + j * c.blocksize ∧
        s1.sock_in = s.sock_in.drop (j * c.blocksize) := by
  intro j
  induction j with
  | zero =>
    intro s acc filled fuel _ _ hfuel
    obtain ⟨fuel, rfl⟩ : ∃ f, fuel = f + 1 := ⟨fuel - 1, by omega⟩
    refine ⟨acc, s, ?_, by simp, by simp⟩
    simp only [read_blocks, Nat.zero_mul, Nat.add_zero, Nat.lt_irrefl, if_false]
  | succ j ih =>
    intro s acc filled fuel hcrypt havail hfuel
    obtain ⟨fuel, rfl⟩ : ∃ f, fuel = f + 1 := ⟨fuel - 1, by omega⟩
    subst hcrypt
    have hsucc : (j + 1) * s.remote.crypt.blocksize =
        j * s.remote.crypt.blocksize + s.remote.crypt.blocksize := Nat.succ_mul _ _
    have hav1 : s.remote.crypt.blocksize ≤ s.sock_in.length := by omega
    have htake : (s.sock_in.take s.remote.crypt.blocksize).length = s.remote.crypt.blocksize := by
      rw [List.length_take]; omega
    obtain ⟨hlen, hnf⟩ := hcipher s.remote.crypt_abstract
      (s.sock_in.take s.remote.crypt.blocksize) htake
    have hfb : (first_block s).length = s.remote.crypt.blocksize := hlen
    have hstep := read_blocks_step env s acc filled
      (filled + (j + 1) * s.remote.crypt.blocksize) fuel hw (by omega) hb hav1 hnf
    obtain ⟨payload, s1, hread, hpl, hin⟩ := ih (after_first_block s) (acc ++ first_block s)
      (filled + s.remote.crypt.blocksize) fuel rfl
      (by simp only [after_first_block, List.length_drop]; omega) (by omega)
    refine ⟨payload, s1, ?_, ?_, ?_⟩
    · rw [hstep]
      have : filled + (j + 1) * s.remote.crypt.blocksize =
          filled + s.remote.crypt.blocksize + j * s.remote.crypt.blocksize := by omega
      rw [this]
      exact hread
    · rw [hpl, List.length_append, hfb]; omega
    · rw [hin]
      simp only [after_first_block, List.drop_drop]
      congr 1
      omega

/-- C23 (exact fill of the receive buffer). With keys active, a block size
`b` of at least 8, a cipher that keeps the block length and does not fail,
and a first block that gives a `packet_length` passing the sanity check
(`packet_length - 1 <= MAX_PAYLOAD` and `(packet_length + 4) mod b = 0`),
on a socket that delivers the further blocks: the payload buffer of
`payload_len = packet_length - 1` bytes takes the `b - 5` bytes of the first
block (`b - 5 <= payload_len`); the loop of lines 381-402 ends, within the
rounds the model allows it, after reading exactly
`(packet_length + 4) / b - 1` further blocks; and `payload_len` bytes are
then written in all, `payload_len = (b - 5) + ((packet_length + 4) / b - 1) * b`.
Every round the loop condition admits, also one whose read then fails,
writes its block inside the buffer. The decoding goes on with the read of
the MAC. -/
theorem receive_buffer_exact_fill (env : Env) (s : Session) (block : List Nat)
    (hw : 32 ≤ env.ulong_bits)
    (hb8 : 8 ≤ s.remote.crypt.blocksize) (hb : s.remote.crypt.blocksize < 2 ^ 31)
    (hcipher : ∀ a blk, blk.length = s.remote.crypt.blocksize →
      (s.remote.crypt.crypt a blk).2.2.length = s.remote.crypt.blocksize ∧
      (s.remote.crypt.evp = true ∨ (s.remote.crypt.crypt a blk).1 = false))
    (hblock : block.length = s.remote.crypt.blocksize)
    (hmax : libssh2_ntohu32 block - 1 ≤ LIBSSH2_PACKET_MAXPAYLOAD)
    (hmod : (libssh2_ntohu32 block + 4) % s.remote.crypt.blocksize = 0)
    (havail : ((libssh2_ntohu32 block + 4) / s.remote.crypt.blocksize - 1) *
      s.remote.crypt.blocksize ≤ s.sock_in.length) :
    s.remote.crypt.blocksize - 5 ≤ libssh2_ntohu32 block - 1 ∧
    libssh2_ntohu32 block - 1 = (s.remote.crypt.blocksize - 5) +
      ((libssh2_ntohu32 block + 4) / s.remote.crypt.blocksize - 1) * s.remote.crypt.blocksize ∧
    (∀ i, (s.remote.crypt.blocksize - 5) + i * s.remote.crypt.blocksize <
        libssh2_ntohu32 block - 1 →
      (s.remote.crypt.blocksize - 5) + i * s.remote.crypt.blocksize + s.remote.crypt.blocksize ≤
        libssh2_ntohu32 block - 1) ∧
    ∃ payload s1,
      read_blocks env (libssh2_ntohu32 block - 1 + 1) s
          ((block.drop 5).take (s.remote.crypt.blocksize - 5))
          (s.remote.crypt.blocksize - 5) (libssh2_ntohu32 block - 1) =
        some (Step.next payload s1) ∧
      payload.length = libssh2_ntohu32 block - 1 ∧
      s1.sock_in = s.sock_in.drop
        (((libssh2_ntohu32 block + 4) / s.remote.crypt.blocksize - 1) *
          s.remote.crypt.blocksize) ∧
      read_after_first_block env s block =
        some (read_mac_and_finish env s1 (block.take 5) payload (libssh2_ntohu32 block - 1)
          (block.getD 4 0)) := by
  have h32 := two_pow_32_le _ hw
  have hmaxv : LIBSSH2_PACKET_MAXPAYLOAD = 40000 := rfl
  have hdiv : s.remote.crypt.blocksize * ((libssh2_ntohu32 block + 4) / s.remote.crypt.blocksize) =
      libssh2_ntohu32 block + 4 := Nat.mul_div_cancel' (Nat.dvd_of_mod_eq_zero hmod)
  generalize hk : (libssh2_ntohu32 block + 4) / s.remote.crypt.blocksize = k at hdiv havail ⊢
  obtain ⟨j, rfl⟩ : ∃ j, k = j + 1 := by
    refine ⟨k - 1, ?_⟩
    cases k with
    | zero => simp at hdiv
    | succ k => rfl
  simp only [Nat.add_sub_cancel] at havail ⊢
  have hjb : j * s.remote.crypt.blocksize + s.remote.crypt.blocksize = libssh2_ntohu32 block + 4 := by
    rw [← hdiv, Nat.mul_succ, Nat.mul_comm]
  have hfill : libssh2_ntohu32 block - 1 =
      (s.remote.crypt.blocksize - 5) + j * s.remote.crypt.blocksize := by omega
  have hjle : j ≤ j * s.remote.crypt.blocksize := Nat.le_mul_of_pos_right _ (by omega)
  obtain ⟨payload, s1, hread, hpl, hin⟩ := read_blocks_fill env s.remote.crypt hw (by omega) hb
    hcipher j s ((block.drop 5).take (s.remote.crypt.blocksize - 5))
    (s.remote.crypt.blocksize - 5) (libssh2_ntohu32 block - 1 + 1) rfl havail (by omega)
  rw [← hfill] at hread
  have hinit : ((block.drop 5).take (s.remote.crypt.blocksize - 5)).length =
      s.remote.crypt.blocksize - 5 := by
    rw [List.length_take, List.length_drop, hblock]; omega
  have hiter : ∀ i, (s.remote.crypt.blocksize - 5) + i * s.remote.crypt.blocksize <
      libssh2_ntohu32 block - 1 →
      (s.remote.crypt.blocksize - 5) + i * s.remote.crypt.blocksize + s.remote.crypt.blocksize ≤
        libssh2_ntohu32 block - 1 := by
    intro i hi
    rw [hfill] at hi ⊢
    have hij : i < j := Nat.lt_of_mul_lt_mul_right (by omega : i * s.remote.crypt.blocksize <
      j * s.remote.crypt.blocksize)
    have := Nat.mul_le_mul_right s.remote.crypt.blocksize (Nat.succ_le_of_lt hij)
    rw [Nat.succ_mul] at this
    omega
  refine ⟨by omega, hfill, hiter, payload, s1, hread, by rw [hpl, hinit, hfill], hin, ?_⟩
  have hpl1 : toULong env.ulong_bits ((libssh2_ntohu32 block : Int) - 1) =
      libssh2_ntohu32 block - 1 := toULong_sub_one _ _ (by omega) (by omega)
  have hmodw : (libssh2_ntohu32 block + 4) % 2 ^ env.ulong_bits = libssh2_ntohu32 block + 4 :=
    Nat.mod_eq_of_lt (by omega)
  simp only [read_after_first_block]
  rw [if_neg (by omega), hpl1, hmodw, if_neg (by rw [hmod]; omega), hread]

/-- Witness of `receive_buffer_exact_fill`: the frame of
`cipher_frame_session`, `packet_length = 12` with 8-byte blocks: three bytes
of the first block, one further block, eleven bytes in all. -/
theorem receive_buffer_exact_fill_witness :
    first_block cipher_frame_session = [0, 0, 0, 12, 6, 21, 1, 2] ∧
    8 - 5 ≤ 12 - 1 ∧
    12 - 1 = (8 - 5) + ((12 + 4) / 8 - 1) * 8 ∧
    (∀ i, (8 - 5) + i * 8 < 12 - 1 → (8 - 5) + i * 8 + 8 ≤ 12 - 1) ∧
    ∃ payload s1,
      read_blocks demo_env (12 - 1 + 1) (after_first_block cipher_frame_session)
          [21, 1, 2] (8 - 5) (12 - 1) = some (Step.next payload s1) ∧
      payload.length = 12 - 1 ∧
      s1.sock_in = [0, 0, 0, 59] ∧
      read_after_first_block demo_env (after_first_block cipher_frame_session)
          (first_block cipher_frame_session) =
        some (read_mac_and_finish demo_env s1 [0, 0, 0, 12, 6] payload (12 - 1) 6) :=
  ⟨by decide,
   receive_buffer_exact_fill demo_env (after_first_block cipher_frame_session)
     (first_block cipher_frame_session) (by decide) (by decide) (by decide)
     (fun _ _ h => ⟨h, Or.inl rfl⟩) (by decide) (by decide) (by decide) (by decide)⟩

end Libssh2
